import Mathlib

/-!
# V3d_CircularGrid: the circular reference grid of a 3D viewer

A shallow embedding of `src/V3d/V3d_CircularGrid.cxx`.

Modelling conventions.

* `Standard_Real` is an arbitrary linear ordered field `R` (exact arithmetic; the
  theorems hold in particular for the real numbers and for the rationals).
  `Cos`, `Sin` and `M_PI` come from the math library and are taken as a parameter
  `Standard_Math R`; theorems that need trigonometric facts instantiate it with
  `Real.cos`, `Real.sin` and `Real.pi`.
* The header of the ring loops, where the rounding of `r += aStep` decides the number
  of rings, is also given over an arbitrary arithmetic of `Standard_Real`
  (`RingRadii`); `Binary64` is the arithmetic of the doubles (IEEE 754 binary64,
  round to nearest, ties to even) on the non-negative values.
* `Standard_Integer` is `Int` (loop counters that start at zero and only grow are `Nat`).
* The ring loops `for (r = aStep; r <= myRadius; r += aStep)` need not terminate, so
  they take a fuel argument that bounds the number of executions of the loop body;
  a loop that would run longer reports `Fault.outOfFuel`.
* `TColgp_SequenceOfPnt` is a `List`, indexed from 1; an index out of range reports
  `Fault.outOfRange`.
* The structure and the group (classes of the graphic library) record what they are
  asked to do: the group keeps the calls received since the last `Clear` and counts
  the calls of `Clear`, the structure keeps its transformation and counts the calls
  of `SetTransform`.
-/

namespace V3d

/-- Reasons for which a run of the embedded code yields no result. -/
inductive Fault
  | outOfFuel
  | outOfRange
  deriving DecidableEq

/-- The math library functions used by the grid. -/
structure Standard_Math (R : Type) where
  Cos : R → R
  Sin : R → R
  M_PI : R

/-- Cartesian point `gp_Pnt`. -/
structure gp_Pnt (R : Type) where
  x : R
  y : R
  z : R
  deriving DecidableEq

/-- Unit vector `gp_Dir` (three coordinates). -/
structure gp_Dir (R : Type) where
  x : R
  y : R
  z : R
  deriving DecidableEq

/-- Coordinate system `gp_Ax3`: the privileged plane of the viewer. -/
structure gp_Ax3 (R : Type) where
  Location : gp_Pnt R
  XDirection : gp_Dir R
  YDirection : gp_Dir R
  Direction : gp_Dir R
  deriving DecidableEq

/-- Colour `Quantity_Color`, compared by `!=` in `SetColors`. -/
structure Quantity_Color (R : Type) where
  red : R
  green : R
  blue : R
  deriving DecidableEq

/-- Enumeration `Aspect_GridDrawMode`. -/
inductive Aspect_GridDrawMode
  | Aspect_GDM_Lines
  | Aspect_GDM_Points
  | Aspect_GDM_None
  deriving DecidableEq

/-- Enumeration `Aspect_TypeOfLine`. -/
inductive Aspect_TypeOfLine
  | Aspect_TOL_SOLID
  | Aspect_TOL_DASH
  | Aspect_TOL_DOT
  | Aspect_TOL_DOTDASH
  deriving DecidableEq

/-- Enumeration `Aspect_TypeOfMarker` (the values the grid can meet). -/
inductive Aspect_TypeOfMarker
  | Aspect_TOM_POINT
  | Aspect_TOM_PLUS
  | Aspect_TOM_STAR
  | Aspect_TOM_X
  deriving DecidableEq

/-- Enumeration `Graphic3d_TypeOfComposition`. -/
inductive Graphic3d_TypeOfComposition
  | Graphic3d_TOC_REPLACE
  | Graphic3d_TOC_POSTCONCATENATE
  deriving DecidableEq

/-- Visual aspects handed to the group: `Graphic3d_AspectLine3d (color, type, width)`
and `Graphic3d_AspectMarker3d` with its colour, type and scale. -/
inductive Graphic3d_Aspect (R : Type)
  | AspectLine3d (color : Quantity_Color R) (type : Aspect_TypeOfLine) (width : R)
  | AspectMarker3d (color : Quantity_Color R) (type : Aspect_TypeOfMarker) (scale : R)
  deriving DecidableEq

/-- Primitive arrays handed to the group: `Graphic3d_ArrayOfSegments`,
`Graphic3d_ArrayOfPolylines` (bounds and vertices) and `Graphic3d_ArrayOfPoints`. -/
inductive Graphic3d_Array (R : Type)
  | ArrayOfSegments (vertices : List (gp_Pnt R))
  | ArrayOfPolylines (bounds : List Int) (vertices : List (gp_Pnt R))
  | ArrayOfPoints (vertices : List (gp_Pnt R))
  deriving DecidableEq

/-- One call received by the group that adds to its content. -/
inductive GroupCall (R : Type)
  | SetGroupPrimitivesAspect (aspect : Graphic3d_Aspect R)
  | SetPrimitivesAspect (aspect : Graphic3d_Aspect R)
  | AddPrimitiveArray (prims : Graphic3d_Array R)
  deriving DecidableEq

/-- Bounding box given to `SetMinMaxValues`. -/
structure MinMaxValues (R : Type) where
  xMin : R
  yMin : R
  zMin : R
  xMax : R
  yMax : R
  zMax : R
  deriving DecidableEq

/-- Modelled from the spec: `Graphic3d_Group` is not under src/. The group is the one
primitive group of the structure; it is cleared and repopulated on every geometry
rebuild. `content` is the sequence of calls since the last `Clear`, `nbClear` counts
the calls of `Clear`. -/
structure Graphic3d_Group (R : Type) where
  content : List (GroupCall R)
  minMax : Option (MinMaxValues R)
  nbClear : Nat
  deriving DecidableEq

/-- `Graphic3d_Group::Clear`. -/
def Graphic3d_Group.Clear {R : Type} (grp : Graphic3d_Group R) : Graphic3d_Group R :=
  { content := [], minMax := none, nbClear := grp.nbClear + 1 }

/-- `Graphic3d_Group::SetGroupPrimitivesAspect`. -/
def Graphic3d_Group.SetGroupPrimitivesAspect {R : Type} (grp : Graphic3d_Group R)
    (a : Graphic3d_Aspect R) : Graphic3d_Group R :=
  { grp with content := grp.content ++ [GroupCall.SetGroupPrimitivesAspect a] }

/-- `Graphic3d_Group::SetPrimitivesAspect`. -/
def Graphic3d_Group.SetPrimitivesAspect {R : Type} (grp : Graphic3d_Group R)
    (a : Graphic3d_Aspect R) : Graphic3d_Group R :=
  { grp with content := grp.content ++ [GroupCall.SetPrimitivesAspect a] }

/-- `Graphic3d_Group::AddPrimitiveArray`. -/
def Graphic3d_Group.AddPrimitiveArray {R : Type} (grp : Graphic3d_Group R)
    (p : Graphic3d_Array R) : Graphic3d_Group R :=
  { grp with content := grp.content ++ [GroupCall.AddPrimitiveArray p] }

/-- `Graphic3d_Group::SetMinMaxValues`. -/
def Graphic3d_Group.SetMinMaxValues {R : Type} (grp : Graphic3d_Group R)
    (x1 y1 z1 x2 y2 z2 : R) : Graphic3d_Group R :=
  { grp with minMax := some ⟨x1, y1, z1, x2, y2, z2⟩ }

/-- The 4 x 4 array `TColStd_Array2OfReal Trsf (1, 4, 1, 4)`. -/
abbrev TColStd_Array2OfReal (R : Type) := Matrix (Fin 4) (Fin 4) R

/-- The assignment `Trsf (i, j) = v`, with the indices of the source (from 1 to 4). -/
def TColStd_Array2OfReal.SetValue {R : Type} (A : TColStd_Array2OfReal R) (i j : Nat) (v : R) :
    TColStd_Array2OfReal R :=
  fun a b => if a.val + 1 = i ∧ b.val + 1 = j then v else A a b

/-- Modelled from the spec: `Graphic3d_Structure` is not under src/. It holds the
transformation bound to the structure; `nbSetTransform` counts the calls of
`SetTransform`. -/
structure Graphic3d_Structure (R : Type) where
  Transformation : TColStd_Array2OfReal R
  nbSetTransform : Nat

/-- Modelled from the spec: `Graphic3d_Structure::SetTransform` is not under src/.
`Graphic3d_TOC_REPLACE` replaces the current transformation by the matrix,
`Graphic3d_TOC_POSTCONCATENATE` post-concatenates the matrix onto the current one
(the matrix is applied first, then the current transformation). -/
def Graphic3d_Structure.SetTransform {R : Type} [Semiring R] (s : Graphic3d_Structure R)
    (M : TColStd_Array2OfReal R) (c : Graphic3d_TypeOfComposition) : Graphic3d_Structure R :=
  match c with
  | .Graphic3d_TOC_REPLACE =>
    { Transformation := M, nbSetTransform := s.nbSetTransform + 1 }
  | .Graphic3d_TOC_POSTCONCATENATE =>
    { Transformation := s.Transformation * M, nbSetTransform := s.nbSetTransform + 1 }

/-- The part of `V3d_Viewer` read by the grid. -/
structure V3d_Viewer (R : Type) where
  PrivilegedPlane : gp_Ax3 R

/-- The fields of `V3d_CircularGrid`, with those of its base classes `Aspect_Grid`
(rotation angle, origin, draw mode, colours) and `Aspect_CircularGrid` (radius step,
division number). -/
structure V3d_CircularGrid (R : Type) where
  myRotationAngle : R
  myXOrigin : R
  myYOrigin : R
  myColor : Quantity_Color R
  myTenthColor : Quantity_Color R
  myDrawMode : Aspect_GridDrawMode
  myRadiusStep : R
  myDivisionNumber : Int
  myStructure : Graphic3d_Structure R
  myGroup : Graphic3d_Group R
  myViewer : V3d_Viewer R
  myCurAngle : R
  myCurXo : R
  myCurYo : R
  myCurViewPlane : gp_Ax3 R
  myCurAreDefined : Bool
  myCurDrawMode : Aspect_GridDrawMode
  myRadius : R
  myOffSet : R
  myCurStep : R
  myCurDivi : Int

/-- The constant `DIVISION`. -/
def DIVISION : Int := 8

variable {R : Type} [LinearOrderedField R]

/-- `TColgp_SequenceOfPnt::Value`, the operator `aSeq (np)`: the element of index `np`,
counted from 1; an index outside `1 .. Length` raises an exception. -/
def Value (aSeq : List (gp_Pnt R)) (np : Nat) : Except Fault (gp_Pnt R) :=
  if np = 0 then Except.error Fault.outOfRange
  else
    match aSeq.get? (np - 1) with
    | some p => Except.ok p
    | none => Except.error Fault.outOfRange

/-- The staleness test of the transform in `UpdateDisplay` (lines 111 to 131): the value
of the local `MakeTransform` when the test `if (MakeTransform)` is reached. -/
def MakeTransform (g : V3d_CircularGrid R) : Bool :=
  let ThePlane := g.myViewer.PrivilegedPlane
  if g.myCurAreDefined = false then true
  else if g.myRotationAngle ≠ g.myCurAngle ∨ g.myXOrigin ≠ g.myCurXo
      ∨ g.myYOrigin ≠ g.myCurYo then true
  else if ThePlane.Location.x ≠ g.myCurViewPlane.Location.x
      ∨ ThePlane.Location.y ≠ g.myCurViewPlane.Location.y
      ∨ ThePlane.Location.z ≠ g.myCurViewPlane.Location.z
      ∨ ThePlane.XDirection.x ≠ g.myCurViewPlane.XDirection.x
      ∨ ThePlane.XDirection.y ≠ g.myCurViewPlane.XDirection.y
      ∨ ThePlane.XDirection.z ≠ g.myCurViewPlane.XDirection.z
      ∨ ThePlane.YDirection.x ≠ g.myCurViewPlane.YDirection.x
      ∨ ThePlane.YDirection.y ≠ g.myCurViewPlane.YDirection.y
      ∨ ThePlane.YDirection.z ≠ g.myCurViewPlane.YDirection.z
      ∨ ThePlane.Direction.x ≠ g.myCurViewPlane.Direction.x
      ∨ ThePlane.Direction.y ≠ g.myCurViewPlane.Direction.y
      ∨ ThePlane.Direction.z ≠ g.myCurViewPlane.Direction.z then true
  else false

/-- The first matrix built by `UpdateDisplay` (lines 137 to 153): the sixteen
assignments to `Trsf`, in the order of the source. The array is created without
initial values; every entry is assigned before the array is used. -/
def PlaneTrsf (ThePlane : gp_Ax3 R) : TColStd_Array2OfReal R :=
  let Trsf : TColStd_Array2OfReal R := 0
  let Trsf := Trsf.SetValue 4 4 1
  let Trsf := ((Trsf.SetValue 4 3 0).SetValue 4 2 0).SetValue 4 1 0
  let Trsf := Trsf.SetValue 1 4 ThePlane.Location.x
  let Trsf := Trsf.SetValue 2 4 ThePlane.Location.y
  let Trsf := Trsf.SetValue 3 4 ThePlane.Location.z
  let Trsf := Trsf.SetValue 1 1 ThePlane.XDirection.x
  let Trsf := Trsf.SetValue 2 1 ThePlane.XDirection.y
  let Trsf := Trsf.SetValue 3 1 ThePlane.XDirection.z
  let Trsf := Trsf.SetValue 1 2 ThePlane.YDirection.x
  let Trsf := Trsf.SetValue 2 2 ThePlane.YDirection.y
  let Trsf := Trsf.SetValue 3 2 ThePlane.YDirection.z
  let Trsf := Trsf.SetValue 1 3 ThePlane.Direction.x
  let Trsf := Trsf.SetValue 2 3 ThePlane.Direction.y
  let Trsf := Trsf.SetValue 3 3 ThePlane.Direction.z
  Trsf

/-- The second matrix built by `UpdateDisplay` (lines 156 to 169): the same array
`Trsf`, of which twelve entries are assigned again (the fourth row is kept). -/
def OriginTrsf (m : Standard_Math R) (Trsf : TColStd_Array2OfReal R)
    (RotationAngle XOrigin YOrigin : R) : TColStd_Array2OfReal R :=
  let CosAlpha := m.Cos RotationAngle
  let SinAlpha := m.Sin RotationAngle
  let Trsf := Trsf.SetValue 1 4 (-XOrigin)
  let Trsf := Trsf.SetValue 2 4 (-YOrigin)
  let Trsf := Trsf.SetValue 3 4 0
  let Trsf := Trsf.SetValue 1 1 CosAlpha
  let Trsf := Trsf.SetValue 2 1 (-SinAlpha)
  let Trsf := Trsf.SetValue 3 1 0
  let Trsf := Trsf.SetValue 1 2 SinAlpha
  let Trsf := Trsf.SetValue 2 2 CosAlpha
  let Trsf := Trsf.SetValue 3 2 0
  let Trsf := Trsf.SetValue 1 3 0
  let Trsf := Trsf.SetValue 2 3 0
  let Trsf := Trsf.SetValue 3 3 1
  Trsf

/-- The body of `if (MakeTransform)` in `UpdateDisplay` (lines 135 to 174). -/
def RebuildTransform (m : Standard_Math R) (g : V3d_CircularGrid R) : V3d_CircularGrid R :=
  let ThePlane := g.myViewer.PrivilegedPlane
  let Trsf := PlaneTrsf ThePlane
  let aStructure := g.myStructure.SetTransform Trsf
    Graphic3d_TypeOfComposition.Graphic3d_TOC_REPLACE
  let Trsf := OriginTrsf m Trsf g.myRotationAngle g.myXOrigin g.myYOrigin
  let aStructure := aStructure.SetTransform Trsf
    Graphic3d_TypeOfComposition.Graphic3d_TOC_POSTCONCATENATE
  { g with
    myStructure := aStructure
    myCurAngle := g.myRotationAngle
    myCurXo := g.myXOrigin
    myCurYo := g.myYOrigin
    myCurViewPlane := ThePlane }

/-- The vertices of the diameters (lines 220 to 224): for `i` from 1 to `nbpnts`, the
centre `p0` followed by the point of angle `alpha * i` at distance `myRadius`. -/
def DiameterVertices (m : Standard_Math R) (alpha : R) (nbpnts : Int) (myRadius myOffSet : R) :
    List (gp_Pnt R) :=
  let p0 : gp_Pnt R := ⟨0, 0, -myOffSet⟩
  (List.range' 1 nbpnts.toNat).flatMap fun (i : Nat) =>
    [p0, ⟨m.Cos (alpha * (i : R)) * myRadius, m.Sin (alpha * (i : R)) * myRadius, -myOffSet⟩]

/-- The inner loop of the ring loops (lines 234 to 237 and 297 to 298): for `i` from 0
to `nbpnts - 1`, the point of angle `alpha * i` at distance `r`. -/
def RingVertices (m : Standard_Math R) (alpha : R) (nbpnts : Int) (r myOffSet : R) :
    List (gp_Pnt R) :=
  (List.range nbpnts.toNat).map fun (i : Nat) =>
    ⟨m.Cos (alpha * (i : R)) * r, m.Sin (alpha * (i : R)) * r, -myOffSet⟩

/-- The ring loop of `DefineLines` (lines 230 to 238),
`for (r = aStep; r <= myRadius; r += aStep, nblines++)`, from the loop state
`r`, `nblines`, `aSeqLines`, `aSeqTenth`. The result is the final value of
`nblines`, `aSeqLines` and `aSeqTenth`. -/
def LinesRingLoop (m : Standard_Math R) (alpha : R) (nbpnts : Int) (aStep myRadius myOffSet : R) :
    Nat → R → Nat → List (gp_Pnt R) → List (gp_Pnt R) →
    Except Fault (Nat × List (gp_Pnt R) × List (gp_Pnt R))
  | 0, r, nblines, aSeqLines, aSeqTenth =>
    if r ≤ myRadius then Except.error Fault.outOfFuel
    else Except.ok (nblines, aSeqLines, aSeqTenth)
  | fuel + 1, r, nblines, aSeqLines, aSeqTenth =>
    if r ≤ myRadius then
      let isTenth : Bool := nblines % 10 = 0
      let pts := RingVertices m alpha nbpnts r myOffSet
      if isTenth then
        LinesRingLoop m alpha nbpnts aStep myRadius myOffSet fuel (r + aStep) (nblines + 1)
          aSeqLines (aSeqTenth ++ pts)
      else
        LinesRingLoop m alpha nbpnts aStep myRadius myOffSet fuel (r + aStep) (nblines + 1)
          (aSeqLines ++ pts) aSeqTenth
    else Except.ok (nblines, aSeqLines, aSeqTenth)

/-- The ring loop of `DefinePoints` (lines 296 to 299),
`for (r = aStep; r <= myRadius; r += aStep)`, from the loop state `r`, `aSeqPnts`. -/
def PointsRingLoop (m : Standard_Math R) (alpha : R) (nbpnts : Int) (aStep myRadius myOffSet : R) :
    Nat → R → List (gp_Pnt R) → Except Fault (List (gp_Pnt R))
  | 0, r, aSeqPnts =>
    if r ≤ myRadius then Except.error Fault.outOfFuel else Except.ok aSeqPnts
  | fuel + 1, r, aSeqPnts =>
    if r ≤ myRadius then
      PointsRingLoop m alpha nbpnts aStep myRadius myOffSet fuel (r + aStep)
        (aSeqPnts ++ RingVertices m alpha nbpnts r myOffSet)
    else Except.ok aSeqPnts

/-- The arithmetic of `Standard_Real` that the header of the ring loops uses: the
addition of `r += aStep` and the comparison of `r <= myRadius`. -/
structure RealArith (α : Type) where
  Add : α → α → α
  IsLessEqual : α → α → Bool

/-- The header of the ring loops of `DefineLines` (line 230) and of `DefinePoints`
(line 296), `for (r = aStep; r <= myRadius; r += aStep)`, over an arbitrary arithmetic
of `Standard_Real`, from the loop state `r`. The bodies of the two loops do not assign
`r`; here the body records the value of `r`, the radius of the ring that it generates.
The result is the list of the radii of the rings, in the order of generation. -/
def RingRadii {α : Type} (A : RealArith α) (aStep myRadius : α) :
    Nat → α → List α → Except Fault (List α)
  | 0, r, radii =>
    if A.IsLessEqual r myRadius then Except.error Fault.outOfFuel else Except.ok radii
  | fuel + 1, r, radii =>
    if A.IsLessEqual r myRadius then
      RingRadii A aStep myRadius fuel (A.Add r aStep) (radii ++ [r])
    else Except.ok radii

/-- The exact arithmetic of a linear ordered field, the one of `LinesRingLoop` and of
`PointsRingLoop`. -/
def ExactArith (R : Type) [LinearOrderedField R] : RealArith R :=
  ⟨fun a b => a + b, fun a b => decide (a ≤ b)⟩

/-- The inner loop of the polyline construction (lines 247 to 248 and 260 to 261),
`for (i = 0; i < nbpnts; i++, np++) AddVertex (aSeq (np))`; the first argument is the
number of iterations left. The result is the final `np` and the vertices added. -/
def AddVertexLoop (aSeq : List (gp_Pnt R)) :
    Nat → Nat → List (gp_Pnt R) → Except Fault (Nat × List (gp_Pnt R))
  | 0, np, vertices => Except.ok (np, vertices)
  | k + 1, np, vertices =>
    match Value aSeq np with
    | Except.error e => Except.error e
    | Except.ok p => AddVertexLoop aSeq k (np + 1) (vertices ++ [p])

/-- The outer loop of the polyline construction (lines 245 to 249 and 258 to 262),
`for (np = 1, n = 0; n < nbl; n++) { AddBound (nbpnts); ... }`; the first argument
is the number of iterations left. The result is the bounds and the vertices of the
array. -/
def AddBoundLoop (aSeq : List (gp_Pnt R)) (nbpnts : Int) :
    Nat → Nat → List Int → List (gp_Pnt R) → Except Fault (List Int × List (gp_Pnt R))
  | 0, _, bounds, vertices => Except.ok (bounds, vertices)
  | k + 1, np, bounds, vertices =>
    match AddVertexLoop aSeq nbpnts.toNat np vertices with
    | Except.error e => Except.error e
    | Except.ok (np2, vertices2) => AddBoundLoop aSeq nbpnts k np2 (bounds ++ [nbpnts]) vertices2

/-- The polyline array built from a sequence of ring vertices (lines 242 to 249 and
255 to 262): `nbl = aSeq.Length() / nbpnts` bounds of `nbpnts` vertices each. -/
def PolylinesOf (aSeq : List (gp_Pnt R)) (nbpnts : Int) : Except Fault (Graphic3d_Array R) :=
  let nbl : Int := (aSeq.length : Int) / nbpnts
  match AddBoundLoop aSeq nbpnts nbl.toNat 1 [] [] with
  | Except.error e => Except.error e
  | Except.ok (bounds, vertices) => Except.ok (Graphic3d_Array.ArrayOfPolylines bounds vertices)

/-- The copy loop of `DefinePoints` (lines 306 to 310),
`for (i = 1; i <= nbv; i++) AddVertex (aSeqPnts (i))`; the first argument is the number
of iterations left. -/
def CopyLoop (aSeqPnts : List (gp_Pnt R)) :
    Nat → Nat → List (gp_Pnt R) → Except Fault (List (gp_Pnt R))
  | 0, _, vertices => Except.ok vertices
  | k + 1, i, vertices =>
    match Value aSeqPnts i with
    | Except.error e => Except.error e
    | Except.ok p => CopyLoop aSeqPnts k (i + 1) (vertices ++ [p])

/-- The staleness test `toUpdate` of `DefineLines` (lines 199 to 204). `aDivision` is
the division number converted to `Standard_Real`. -/
def DefineLines_toUpdate (g : V3d_CircularGrid R) : Bool :=
  let aStep := g.myRadiusStep
  let aDivision : R := (g.myDivisionNumber : R)
  !g.myCurAreDefined
    || g.myCurDrawMode != Aspect_GridDrawMode.Aspect_GDM_Lines
    || aDivision != (g.myCurDivi : R)
    || aStep != g.myCurStep

/-- The staleness test `toUpdate` of `DefinePoints` (lines 272 to 277). -/
def DefinePoints_toUpdate (g : V3d_CircularGrid R) : Bool :=
  let aStep := g.myRadiusStep
  let aDivision : R := (g.myDivisionNumber : R)
  !g.myCurAreDefined
    || g.myCurDrawMode != Aspect_GridDrawMode.Aspect_GDM_Points
    || aDivision != (g.myCurDivi : R)
    || aStep != g.myCurStep

/-- `V3d_CircularGrid::DefineLines` (lines 197 to 268). The conversion of `aDivision`
(an integer held in a `Standard_Real`) back to `Standard_Integer` gives the integer
itself. -/
def DefineLines (m : Standard_Math R) (fuel : Nat) (g : V3d_CircularGrid R) :
    Except Fault (V3d_CircularGrid R) :=
  let aStep := g.myRadiusStep
  let aDivision : R := (g.myDivisionNumber : R)
  if DefineLines_toUpdate g = false then Except.ok g
  else
    let aGroup := g.myGroup.Clear
    let Division : Int := if aDivision ≥ (DIVISION : R) then g.myDivisionNumber else DIVISION
    let nbpnts : Int := 2 * Division
    -- diameters
    let alpha : R := m.M_PI / aDivision
    let aGroup := aGroup.SetGroupPrimitivesAspect
      (Graphic3d_Aspect.AspectLine3d g.myTenthColor Aspect_TypeOfLine.Aspect_TOL_SOLID 1)
    let aPrims1 := Graphic3d_Array.ArrayOfSegments
      (DiameterVertices m alpha nbpnts g.myRadius g.myOffSet)
    let aGroup := aGroup.AddPrimitiveArray aPrims1
    -- circles
    let nbpnts : Int := 2 * Division + 1
    let alpha : R := m.M_PI / (Division : R)
    match LinesRingLoop m alpha nbpnts aStep g.myRadius g.myOffSet fuel aStep 0 [] [] with
    | Except.error e => Except.error e
    | Except.ok (_, aSeqLines, aSeqTenth) =>
      let tenth : Except Fault (Graphic3d_Group R) :=
        if aSeqTenth.length ≠ 0 then
          let aGroup := aGroup.SetGroupPrimitivesAspect
            (Graphic3d_Aspect.AspectLine3d g.myTenthColor Aspect_TypeOfLine.Aspect_TOL_SOLID 1)
          match PolylinesOf aSeqTenth nbpnts with
          | Except.error e => Except.error e
          | Except.ok aPrims2 => Except.ok (aGroup.AddPrimitiveArray aPrims2)
        else Except.ok aGroup
      match tenth with
      | Except.error e => Except.error e
      | Except.ok aGroup =>
        let lines : Except Fault (Graphic3d_Group R) :=
          if aSeqLines.length ≠ 0 then
            let aGroup := aGroup.SetPrimitivesAspect
              (Graphic3d_Aspect.AspectLine3d g.myColor Aspect_TypeOfLine.Aspect_TOL_SOLID 1)
            match PolylinesOf aSeqLines nbpnts with
            | Except.error e => Except.error e
            | Except.ok aPrims3 => Except.ok (aGroup.AddPrimitiveArray aPrims3)
          else Except.ok aGroup
        match lines with
        | Except.error e => Except.error e
        | Except.ok aGroup =>
          let aGroup := aGroup.SetMinMaxValues (-g.myRadius) (-g.myRadius) 0
            g.myRadius g.myRadius 0
          Except.ok { g with
            myGroup := aGroup
            myCurStep := aStep
            myCurDivi := g.myDivisionNumber }

/-- `V3d_CircularGrid::DefinePoints` (lines 270 to 316). The marker aspect is given
by its final colour, type and scale (lines 285 to 288). -/
def DefinePoints (m : Standard_Math R) (fuel : Nat) (g : V3d_CircularGrid R) :
    Except Fault (V3d_CircularGrid R) :=
  let aStep := g.myRadiusStep
  let aDivision : R := (g.myDivisionNumber : R)
  if DefinePoints_toUpdate g = false then Except.ok g
  else
    let aGroup := g.myGroup.Clear
    let MarkerAttrib : Graphic3d_Aspect R :=
      Graphic3d_Aspect.AspectMarker3d g.myColor Aspect_TypeOfMarker.Aspect_TOM_POINT 3
    let nbpnts : Int := 2 * g.myDivisionNumber
    let alpha : R := m.M_PI / aDivision
    let aSeqPnts : List (gp_Pnt R) := [⟨0, 0, -g.myOffSet⟩]
    match PointsRingLoop m alpha nbpnts aStep g.myRadius g.myOffSet fuel aStep aSeqPnts with
    | Except.error e => Except.error e
    | Except.ok aSeqPnts =>
      let aGroup := aGroup.SetGroupPrimitivesAspect MarkerAttrib
      let added : Except Fault (Graphic3d_Group R) :=
        if aSeqPnts.length ≠ 0 then
          let nbv := aSeqPnts.length
          match CopyLoop aSeqPnts nbv 1 [] with
          | Except.error e => Except.error e
          | Except.ok vertices =>
            Except.ok (aGroup.AddPrimitiveArray (Graphic3d_Array.ArrayOfPoints vertices))
        else Except.ok aGroup
      match added with
      | Except.error e => Except.error e
      | Except.ok aGroup =>
        let aGroup := aGroup.SetMinMaxValues (-g.myRadius) (-g.myRadius) 0
          g.myRadius g.myRadius 0
        Except.ok { g with
          myGroup := aGroup
          myCurStep := aStep
          myCurDivi := g.myDivisionNumber }

/-- `V3d_CircularGrid::UpdateDisplay` (lines 98 to 195). The macro `IMP210100` is not
defined in the source file, so the case `Aspect_GDM_None` is compiled out and that
mode takes the `default` branch, like `Aspect_GDM_Points`. -/
def UpdateDisplay (m : Standard_Math R) (fuel : Nat) (g : V3d_CircularGrid R) :
    Except Fault (V3d_CircularGrid R) :=
  let g := if MakeTransform g then RebuildTransform m g else g
  match g.myDrawMode with
  | Aspect_GridDrawMode.Aspect_GDM_Lines =>
    match DefineLines m fuel g with
    | Except.error e => Except.error e
    | Except.ok g =>
      Except.ok { g with
        myCurDrawMode := Aspect_GridDrawMode.Aspect_GDM_Lines
        myCurAreDefined := true }
  | _ =>
    match DefinePoints m fuel g with
    | Except.error e => Except.error e
    | Except.ok g =>
      Except.ok { g with
        myCurDrawMode := Aspect_GridDrawMode.Aspect_GDM_Points
        myCurAreDefined := true }

/-- `V3d_CircularGrid::SetColors` (lines 72 to 80). -/
def SetColors (m : Standard_Math R) (fuel : Nat) (aColor aTenthColor : Quantity_Color R)
    (g : V3d_CircularGrid R) : Except Fault (V3d_CircularGrid R) :=
  if g.myColor ≠ aColor ∨ g.myTenthColor ≠ aTenthColor then
    UpdateDisplay m fuel { g with
      myColor := aColor
      myTenthColor := aTenthColor
      myCurAreDefined := false }
  else Except.ok g

/-- `V3d_CircularGrid::GraphicValues` (lines 318 to 322). -/
def GraphicValues (g : V3d_CircularGrid R) : R × R :=
  (g.myRadius, g.myOffSet)

/-- `V3d_CircularGrid::SetGraphicValues` (lines 324 to 339). -/
def SetGraphicValues (m : Standard_Math R) (fuel : Nat) (theRadius theOffSet : R)
    (g : V3d_CircularGrid R) : Except Fault (V3d_CircularGrid R) :=
  let g := if g.myCurAreDefined = false then
      { g with myRadius := theRadius, myOffSet := theOffSet }
    else g
  let g := if g.myRadius ≠ theRadius then
      { g with myRadius := theRadius, myCurAreDefined := false }
    else g
  let g := if g.myOffSet ≠ theOffSet then
      { g with myOffSet := theOffSet, myCurAreDefined := false }
    else g
  if g.myCurAreDefined = false then UpdateDisplay m fuel g else Except.ok g

/-! ## The doubles behind `Standard_Real`

`Standard_Real` is the type `double` (IEEE 754 binary64). A finite non-negative double
is a natural multiple of `2 ^ (-1074)`, the smallest positive double, and is
represented by that multiple; positive infinity is `none`. The multiples below
`2 ^ 53` are all doubles (the subnormal numbers and the first binade of the normal
numbers); above `2 ^ 53` the doubles are the multiples with at most 53 significant
bits, and the finite ones are below `2 ^ 2098` (the value `2 ^ 1024`). -/

/-- The number of low bits that a multiple `s` loses when it is rounded to 53
significant bits: the least `k` such that `s / 2 ^ k < 2 ^ 53`. The first argument
bounds `k`. -/
def Binary64.Dropped : Nat → Nat → Nat
  | 0, _ => 0
  | fuel + 1, s => if s < 2 ^ 53 then 0 else Binary64.Dropped fuel (s / 2) + 1

/-- Rounding of an exact value, a multiple `s` of `2 ^ (-1074)`, to the nearest value
with 53 significant bits; a value half way between two of them goes to the one with
an even significand (the default rounding mode of IEEE 754). The exact sum of two
finite doubles is below `2 ^ 2099` and loses at most 2046 bits. -/
def Binary64.RoundNearestEven (s : Nat) : Nat :=
  let drop := Binary64.Dropped 2100 s
  let q := s / 2 ^ drop
  let rest := s % 2 ^ drop
  if 2 * rest < 2 ^ drop then q * 2 ^ drop
  else if 2 ^ drop < 2 * rest then (q + 1) * 2 ^ drop
  else if q % 2 = 0 then q * 2 ^ drop
  else (q + 1) * 2 ^ drop

/-- The addition of two non-negative doubles: the exact sum, rounded; a rounded sum
that reaches `2 ^ 1024` overflows to infinity. -/
def Binary64.Add (a b : Option Nat) : Option Nat :=
  match a, b with
  | some x, some y =>
    if Binary64.RoundNearestEven (x + y) < 2 ^ 2098 then
      some (Binary64.RoundNearestEven (x + y))
    else none
  | _, _ => none

/-- The comparison `a <= b` of two non-negative doubles. -/
def Binary64.IsLessEqual (a b : Option Nat) : Bool :=
  match a, b with
  | some x, some y => decide (x ≤ y)
  | some _, none => true
  | none, some _ => false
  | none, none => true

/-- The arithmetic of the non-negative doubles. -/
def Binary64.Arith : RealArith (Option Nat) :=
  ⟨Binary64.Add, Binary64.IsLessEqual⟩

/-! ## Reference definitions used to state the properties -/

namespace Spec

/-- Indices (from 0, outward from the first ring) of the major rings among `n` rings. -/
def MajorIndices (n : Nat) : List Nat :=
  (List.range n).filter fun i => i % 10 = 0

/-- Indices (from 0) of the minor rings among `n` rings. -/
def MinorIndices (n : Nat) : List Nat :=
  (List.range n).filter fun i => ¬ i % 10 = 0

/-- The vertices of the rings whose indices are listed, one ring after the other; the
ring of index `i` has radius `(i + 1) * aStep`. -/
def Rings (m : Standard_Math R) (alpha : R) (nbpnts : Int) (aStep myOffSet : R)
    (indices : List Nat) : List (gp_Pnt R) :=
  indices.flatMap fun (i : Nat) => RingVertices m alpha nbpnts (((i : R) + 1) * aStep) myOffSet

/-- The clamped division count of `DefineLines`: the larger of the division number
and `DIVISION`. -/
def ClampedDivision (g : V3d_CircularGrid R) : Int :=
  max g.myDivisionNumber DIVISION

/-- The line aspect used by `DefineLines` for a colour: solid, width 1. -/
def LineAspect (c : Quantity_Color R) : Graphic3d_Aspect R :=
  Graphic3d_Aspect.AspectLine3d c Aspect_TypeOfLine.Aspect_TOL_SOLID 1

/-- Expected content of the group after a regeneration in Lines mode that generates
`n` rings: the segment array of the diameters, then the polyline array of the major
rings when there is one, then the polyline array of the minor rings when there is one. -/
def LinesContent (m : Standard_Math R) (g : V3d_CircularGrid R) (n : Nat) : List (GroupCall R) :=
  let D := ClampedDivision g
  let alpha : R := m.M_PI / (D : R)
  [GroupCall.SetGroupPrimitivesAspect (LineAspect g.myTenthColor),
    GroupCall.AddPrimitiveArray (Graphic3d_Array.ArrayOfSegments
      (DiameterVertices m (m.M_PI / (g.myDivisionNumber : R)) (2 * D) g.myRadius g.myOffSet))]
  ++ (if 1 ≤ n then
      [GroupCall.SetGroupPrimitivesAspect (LineAspect g.myTenthColor),
        GroupCall.AddPrimitiveArray (Graphic3d_Array.ArrayOfPolylines
          (List.replicate (MajorIndices n).length (2 * D + 1))
          (Rings m alpha (2 * D + 1) g.myRadiusStep g.myOffSet (MajorIndices n)))]
    else [])
  ++ (if 2 ≤ n then
      [GroupCall.SetPrimitivesAspect (LineAspect g.myColor),
        GroupCall.AddPrimitiveArray (Graphic3d_Array.ArrayOfPolylines
          (List.replicate (MinorIndices n).length (2 * D + 1))
          (Rings m alpha (2 * D + 1) g.myRadiusStep g.myOffSet (MinorIndices n)))]
    else [])

/-- Expected vertices of the point array after a regeneration in Points mode that
generates `n` rings: the centre, then the rings in order. -/
def PointsVertices (m : Standard_Math R) (g : V3d_CircularGrid R) (n : Nat) : List (gp_Pnt R) :=
  (⟨0, 0, -g.myOffSet⟩ : gp_Pnt R) ::
    Rings m (m.M_PI / (g.myDivisionNumber : R)) (2 * g.myDivisionNumber) g.myRadiusStep
      g.myOffSet (List.range n)

/-- Expected content of the group after a regeneration in Points mode that generates
`n` rings: the marker aspect and one point array. -/
def PointsContent (m : Standard_Math R) (g : V3d_CircularGrid R) (n : Nat) : List (GroupCall R) :=
  [GroupCall.SetGroupPrimitivesAspect
      (Graphic3d_Aspect.AspectMarker3d g.myColor Aspect_TypeOfMarker.Aspect_TOM_POINT 3),
    GroupCall.AddPrimitiveArray (Graphic3d_Array.ArrayOfPoints (PointsVertices m g n))]

/-- The group after a regeneration of the grid `g` with the given content. -/
def RegeneratedGroup (g : V3d_CircularGrid R) (content : List (GroupCall R)) : Graphic3d_Group R :=
  { content := content
    minMax := some ⟨-g.myRadius, -g.myRadius, 0, g.myRadius, g.myRadius, 0⟩
    nbClear := g.myGroup.nbClear + 1 }

/-- The staleness test of the mesh in the generation path selected by the draw mode:
`DefineLines` for the mode Lines, `DefinePoints` for the other modes. -/
def MeshStale (g : V3d_CircularGrid R) : Bool :=
  match g.myDrawMode with
  | Aspect_GridDrawMode.Aspect_GDM_Lines => DefineLines_toUpdate g
  | _ => DefinePoints_toUpdate g

/-- Expected content of the group after a regeneration that generates `n` rings, in
the generation path selected by the draw mode. -/
def MeshContent (m : Standard_Math R) (g : V3d_CircularGrid R) (n : Nat) : List (GroupCall R) :=
  match g.myDrawMode with
  | Aspect_GridDrawMode.Aspect_GDM_Lines => LinesContent m g n
  | _ => PointsContent m g n

/-- The draw mode recorded in the cache by `UpdateDisplay`: the mode of the generation
path selected by the draw mode. -/
def PathMode (g : V3d_CircularGrid R) : Aspect_GridDrawMode :=
  match g.myDrawMode with
  | Aspect_GridDrawMode.Aspect_GDM_Lines => Aspect_GridDrawMode.Aspect_GDM_Lines
  | _ => Aspect_GridDrawMode.Aspect_GDM_Points

/-- The grid after the transform stage of `UpdateDisplay`. -/
def AfterTransform (m : Standard_Math R) (g : V3d_CircularGrid R) : V3d_CircularGrid R :=
  if MakeTransform g then RebuildTransform m g else g

/-- `n` is the number of rings generated for a step and a radius: the rings of index
below `n` lie within the radius and the next one does not. -/
def IsRingCount (aStep myRadius : R) (n : Nat) : Prop :=
  (∀ j : Nat, j < n → ((j : R) + 1) * aStep ≤ myRadius) ∧ myRadius < ((n : R) + 1) * aStep

/-- The value of `r` at the test of index `k` (from 0) of the header of a ring loop:
`aStep` after `k` executions of `r += aStep`, each one rounded by the arithmetic. -/
def Accumulated {α : Type} (A : RealArith α) (aStep : α) : Nat → α
  | 0 => aStep
  | k + 1 => A.Add (Accumulated A aStep k) aStep

/-- `n` is the number of rings generated over the arithmetic `A`: the accumulated
values of index below `n` pass the test `r <= myRadius` and the next one fails it. -/
def IsAccumulatedCount {α : Type} (A : RealArith α) (aStep myRadius : α) (n : Nat) : Prop :=
  (∀ j : Nat, j < n → A.IsLessEqual (Accumulated A aStep j) myRadius = true)
    ∧ A.IsLessEqual (Accumulated A aStep n) myRadius = false

/-- The privileged plane used in the examples: the plane XOY of the world frame. -/
def XOY : gp_Ax3 R :=
  ⟨⟨0, 0, 0⟩, ⟨1, 0, 0⟩, ⟨0, 1, 0⟩, ⟨0, 0, 1⟩⟩

/-- A grid with an undefined cache, used in the examples: radius, step, division
number, draw mode, rotation angle and offset are given; the colours are red and blue. -/
def ExampleGrid (myRadius aStep : R) (aDivision : Int) (aMode : Aspect_GridDrawMode)
    (anAngle myOffSet : R) : V3d_CircularGrid R :=
  { myRotationAngle := anAngle
    myXOrigin := 0
    myYOrigin := 0
    myColor := ⟨1, 0, 0⟩
    myTenthColor := ⟨0, 0, 1⟩
    myDrawMode := aMode
    myRadiusStep := aStep
    myDivisionNumber := aDivision
    myStructure := ⟨1, 0⟩
    myGroup := ⟨[], none, 0⟩
    myViewer := ⟨XOY⟩
    myCurAngle := 0
    myCurXo := 0
    myCurYo := 0
    myCurViewPlane := XOY
    myCurAreDefined := false
    myCurDrawMode := Aspect_GridDrawMode.Aspect_GDM_None
    myRadius := myRadius
    myOffSet := myOffSet
    myCurStep := 0
    myCurDivi := 0 }

/-- The primitive arrays held by a group content, in order. -/
def Arrays (content : List (GroupCall R)) : List (Graphic3d_Array R) :=
  content.filterMap fun c =>
    match c with
    | GroupCall.AddPrimitiveArray p => some p
    | _ => none

/-- The number of vertices of a primitive array. -/
def ArrayVertexCount (a : Graphic3d_Array R) : Nat :=
  match a with
  | Graphic3d_Array.ArrayOfSegments v => v.length
  | Graphic3d_Array.ArrayOfPolylines _ v => v.length
  | Graphic3d_Array.ArrayOfPoints v => v.length

/-- The number of vertices emitted to a group: the sum over its primitive arrays. -/
def VertexCount (content : List (GroupCall R)) : Nat :=
  ((Arrays content).map ArrayVertexCount).sum

/-- Modelled from the spec: the setters of the base classes `Aspect_Grid` and
`Aspect_CircularGrid` and of the viewer are not under src/. A change of the parameters
(step, division, draw mode, rotation angle, origin, privileged plane) stores the new
values; the grid is then asked to update its display. -/
def ChangeParameters (g : V3d_CircularGrid R) (aStep : R) (aDivision : Int)
    (aMode : Aspect_GridDrawMode) (anAngle anXOrigin anYOrigin : R) (aPlane : gp_Ax3 R) :
    V3d_CircularGrid R :=
  { g with
    myRadiusStep := aStep
    myDivisionNumber := aDivision
    myDrawMode := aMode
    myRotationAngle := anAngle
    myXOrigin := anXOrigin
    myYOrigin := anYOrigin
    myViewer := ⟨aPlane⟩ }

/-- Coherence of the cache with the group: when the cache is defined, the mesh is not
stale and the group holds the content and the bounding box that a generation from the
current radius, offset, step, division, draw mode and colours produces. -/
def Coherent (m : Standard_Math R) (g : V3d_CircularGrid R) : Prop :=
  g.myCurAreDefined = true →
    MeshStale g = false
    ∧ ∃ n : Nat, IsRingCount g.myRadiusStep g.myRadius n
      ∧ g.myGroup.content = MeshContent m g n
      ∧ g.myGroup.minMax = some ⟨-g.myRadius, -g.myRadius, 0, g.myRadius, g.myRadius, 0⟩

/-- The states reachable from an undefined cache by calls of `SetColors`, of
`SetGraphicValues`, and by changes of the parameters each followed by `UpdateDisplay`
(only the calls that return lead to a state). -/
inductive Reachable (m : Standard_Math R) : V3d_CircularGrid R → Prop
  | undefined (g : V3d_CircularGrid R) : g.myCurAreDefined = false → Reachable m g
  | setColors (g g1 : V3d_CircularGrid R) (fuel : Nat) (aColor aTenthColor : Quantity_Color R) :
      Reachable m g → SetColors m fuel aColor aTenthColor g = Except.ok g1 → Reachable m g1
  | setGraphicValues (g g1 : V3d_CircularGrid R) (fuel : Nat) (theRadius theOffSet : R) :
      Reachable m g → SetGraphicValues m fuel theRadius theOffSet g = Except.ok g1 →
      Reachable m g1
  | change (g g1 : V3d_CircularGrid R) (fuel : Nat) (aStep : R) (aDivision : Int)
      (aMode : Aspect_GridDrawMode) (anAngle anXOrigin anYOrigin : R) (aPlane : gp_Ax3 R) :
      Reachable m g →
      UpdateDisplay m fuel
        (ChangeParameters g aStep aDivision aMode anAngle anXOrigin anYOrigin aPlane)
        = Except.ok g1 →
      Reachable m g1

end Spec

/-! ## The loops -/

omit [LinearOrderedField R] in
theorem Value_of_lt (aSeq : List (gp_Pnt R)) (i : Nat) (h : i < aSeq.length) :
    Value aSeq (i + 1) = Except.ok (aSeq.get ⟨i, h⟩) := by
  simp [Value, List.getElem?_eq_getElem h]

omit [LinearOrderedField R] in
theorem take_succ_drop (aSeq : List (gp_Pnt R)) (i k : Nat) (hi : i < aSeq.length) :
    (aSeq.drop i).take (k + 1) = aSeq.get ⟨i, hi⟩ :: (aSeq.drop (i + 1)).take k := by
  have hd : aSeq.drop i = aSeq.get ⟨i, hi⟩ :: aSeq.drop (i + 1) :=
    List.drop_eq_getElem_cons hi
  rw [hd, List.take_succ_cons]

omit [LinearOrderedField R] in
theorem AddVertexLoop_eq (aSeq : List (gp_Pnt R)) (k : Nat) :
    ∀ (i : Nat) (vertices : List (gp_Pnt R)), i + k ≤ aSeq.length →
      AddVertexLoop aSeq k (i + 1) vertices
        = Except.ok (i + k + 1, vertices ++ (aSeq.drop i).take k) := by
  induction k with
  | zero => intro i vertices _; simp [AddVertexLoop]
  | succ k ih =>
    intro i vertices h
    have hi : i < aSeq.length := by omega
    rw [AddVertexLoop, Value_of_lt aSeq i hi]
    simp only
    rw [ih (i + 1) _ (by omega), take_succ_drop aSeq i k hi]
    simp [Nat.add_assoc, Nat.add_comm 1 k]

omit [LinearOrderedField R] in
theorem CopyLoop_eq (aSeq : List (gp_Pnt R)) (k : Nat) :
    ∀ (i : Nat) (vertices : List (gp_Pnt R)), i + k ≤ aSeq.length →
      CopyLoop aSeq k (i + 1) vertices = Except.ok (vertices ++ (aSeq.drop i).take k) := by
  induction k with
  | zero => intro i vertices _; simp [CopyLoop]
  | succ k ih =>
    intro i vertices h
    have hi : i < aSeq.length := by omega
    rw [CopyLoop, Value_of_lt aSeq i hi]
    simp only
    rw [ih (i + 1) _ (by omega), take_succ_drop aSeq i k hi]
    simp

omit [LinearOrderedField R] in
theorem CopyLoop_all (aSeq : List (gp_Pnt R)) :
    CopyLoop aSeq aSeq.length 1 [] = Except.ok aSeq := by
  have h := CopyLoop_eq aSeq aSeq.length 0 [] (by omega)
  simpa using h

omit [LinearOrderedField R] in
theorem AddBoundLoop_eq (aSeq : List (gp_Pnt R)) (p : Nat) (k : Nat) :
    ∀ (i : Nat) (bounds : List Int) (vertices : List (gp_Pnt R)), i + k * p ≤ aSeq.length →
      AddBoundLoop aSeq (p : Int) k (i + 1) bounds vertices
        = Except.ok (bounds ++ List.replicate k (p : Int),
            vertices ++ (aSeq.drop i).take (k * p)) := by
  induction k with
  | zero => intro i bounds vertices _; simp [AddBoundLoop]
  | succ k ih =>
    intro i bounds vertices h
    have h1 : i + p + k * p ≤ aSeq.length := by
      have : (k + 1) * p = k * p + p := by ring
      omega
    rw [AddBoundLoop, Int.toNat_ofNat, AddVertexLoop_eq aSeq p i vertices (by omega)]
    simp only
    rw [ih (i + p) _ _ h1]
    have h2 : (k + 1) * p = p + k * p := by ring
    rw [h2, List.take_add, List.drop_drop, List.replicate_succ]
    simp [Nat.add_comm]

omit [LinearOrderedField R] in
/-- The polyline construction never reads outside the sequence: it yields
`Length / nbpnts` bounds and the first `(Length / nbpnts) * nbpnts` vertices. -/
theorem PolylinesOf_eq (aSeq : List (gp_Pnt R)) (p : Nat) :
    PolylinesOf aSeq (p : Int)
      = Except.ok (Graphic3d_Array.ArrayOfPolylines
          (List.replicate (aSeq.length / p) (p : Int)) (aSeq.take (aSeq.length / p * p))) := by
  have hdiv : ((aSeq.length : Int) / (p : Int)).toNat = aSeq.length / p := by
    rw [← Int.natCast_div, Int.toNat_ofNat]
  have h := AddBoundLoop_eq aSeq p (aSeq.length / p) 0 [] []
    (by have := Nat.div_mul_le_self aSeq.length p; omega)
  simp only [PolylinesOf, hdiv]
  simp only [Nat.zero_add] at h
  rw [h]
  simp

theorem MajorIndices_succ (k : Nat) :
    Spec.MajorIndices (k + 1) = Spec.MajorIndices k ++ (if k % 10 = 0 then [k] else []) := by
  unfold Spec.MajorIndices
  rw [List.range_succ, List.filter_append]
  by_cases h : k % 10 = 0 <;> simp [h]

theorem MinorIndices_succ (k : Nat) :
    Spec.MinorIndices (k + 1) = Spec.MinorIndices k ++ (if k % 10 = 0 then [] else [k]) := by
  unfold Spec.MinorIndices
  rw [List.range_succ, List.filter_append]
  by_cases h : k % 10 = 0 <;> simp [h]

theorem Rings_append (m : Standard_Math R) (alpha : R) (nbpnts : Int) (aStep myOffSet : R)
    (l1 l2 : List Nat) :
    Spec.Rings m alpha nbpnts aStep myOffSet (l1 ++ l2)
      = Spec.Rings m alpha nbpnts aStep myOffSet l1
        ++ Spec.Rings m alpha nbpnts aStep myOffSet l2 := by
  simp [Spec.Rings]

theorem Rings_singleton (m : Standard_Math R) (alpha : R) (nbpnts : Int) (aStep myOffSet : R)
    (i : Nat) :
    Spec.Rings m alpha nbpnts aStep myOffSet [i]
      = RingVertices m alpha nbpnts (((i : R) + 1) * aStep) myOffSet := by
  simp [Spec.Rings]

theorem Rings_nil (m : Standard_Math R) (alpha : R) (nbpnts : Int) (aStep myOffSet : R) :
    Spec.Rings m alpha nbpnts aStep myOffSet [] = [] := by
  simp [Spec.Rings]

/-- One execution of the body of the ring loop of `DefineLines`, from the state
reached after `k` rings. -/
theorem LinesRingLoop_step (m : Standard_Math R) (alpha : R) (nbpnts : Int)
    (aStep myRadius myOffSet : R) (fuel k : Nat) (h : ((k : R) + 1) * aStep ≤ myRadius) :
    LinesRingLoop m alpha nbpnts aStep myRadius myOffSet (fuel + 1) (((k : R) + 1) * aStep) k
        (Spec.Rings m alpha nbpnts aStep myOffSet (Spec.MinorIndices k))
        (Spec.Rings m alpha nbpnts aStep myOffSet (Spec.MajorIndices k))
      = LinesRingLoop m alpha nbpnts aStep myRadius myOffSet fuel
        ((((k + 1 : Nat) : R) + 1) * aStep) (k + 1)
        (Spec.Rings m alpha nbpnts aStep myOffSet (Spec.MinorIndices (k + 1)))
        (Spec.Rings m alpha nbpnts aStep myOffSet (Spec.MajorIndices (k + 1))) := by
  have hr : ((k : R) + 1) * aStep + aStep = (((k + 1 : Nat) : R) + 1) * aStep := by
    push_cast; ring
  rw [LinesRingLoop, if_pos h, hr, MajorIndices_succ, MinorIndices_succ, Rings_append,
    Rings_append]
  by_cases hk : k % 10 = 0 <;> simp [hk, Rings_singleton, Rings_nil]

/-- The ring loop of `DefineLines` stops in the state reached after `k` rings when the
next radius exceeds the grid radius. -/
theorem LinesRingLoop_stop (m : Standard_Math R) (alpha : R) (nbpnts : Int)
    (aStep myRadius myOffSet : R) (fuel k : Nat) (aSeqLines aSeqTenth : List (gp_Pnt R))
    (h : myRadius < ((k : R) + 1) * aStep) :
    LinesRingLoop m alpha nbpnts aStep myRadius myOffSet fuel (((k : R) + 1) * aStep) k
        aSeqLines aSeqTenth
      = Except.ok (k, aSeqLines, aSeqTenth) := by
  cases fuel <;> simp [LinesRingLoop, not_le.mpr h]

theorem LinesRingLoop_run (m : Standard_Math R) (alpha : R) (nbpnts : Int)
    (aStep myRadius myOffSet : R) (k : Nat) :
    ∀ fuel : Nat, (∀ j : Nat, j < k → ((j : R) + 1) * aStep ≤ myRadius) →
      LinesRingLoop m alpha nbpnts aStep myRadius myOffSet (fuel + k) aStep 0 [] []
        = LinesRingLoop m alpha nbpnts aStep myRadius myOffSet fuel (((k : R) + 1) * aStep) k
          (Spec.Rings m alpha nbpnts aStep myOffSet (Spec.MinorIndices k))
          (Spec.Rings m alpha nbpnts aStep myOffSet (Spec.MajorIndices k)) := by
  induction k with
  | zero =>
    intro fuel _
    simp [Spec.MinorIndices, Spec.MajorIndices, Spec.Rings]
  | succ k ih =>
    intro fuel h
    have h1 := ih (fuel + 1) (fun j hj => h j (by omega))
    rw [show fuel + (k + 1) = fuel + 1 + k by omega, h1]
    exact LinesRingLoop_step m alpha nbpnts aStep myRadius myOffSet fuel k (h k (by omega))

/-- Closed form of the ring loop of `DefineLines`: with `n` the number of rings and
enough fuel, the loop ends with `nblines = n`, the minor rings in `aSeqLines` and the
major rings in `aSeqTenth`. -/
theorem LinesRingLoop_eq (m : Standard_Math R) (alpha : R) (nbpnts : Int)
    (aStep myRadius myOffSet : R) (n fuel : Nat) (hn : Spec.IsRingCount aStep myRadius n)
    (hf : n ≤ fuel) :
    LinesRingLoop m alpha nbpnts aStep myRadius myOffSet fuel aStep 0 [] []
      = Except.ok (n, Spec.Rings m alpha nbpnts aStep myOffSet (Spec.MinorIndices n),
          Spec.Rings m alpha nbpnts aStep myOffSet (Spec.MajorIndices n)) := by
  obtain ⟨f, rfl⟩ : ∃ f, fuel = f + n := ⟨fuel - n, by omega⟩
  rw [LinesRingLoop_run m alpha nbpnts aStep myRadius myOffSet n f hn.1]
  exact LinesRingLoop_stop m alpha nbpnts aStep myRadius myOffSet f n _ _ hn.2

theorem PointsRingLoop_step (m : Standard_Math R) (alpha : R) (nbpnts : Int)
    (aStep myRadius myOffSet : R) (fuel k : Nat) (init : List (gp_Pnt R))
    (h : ((k : R) + 1) * aStep ≤ myRadius) :
    PointsRingLoop m alpha nbpnts aStep myRadius myOffSet (fuel + 1) (((k : R) + 1) * aStep)
        (init ++ Spec.Rings m alpha nbpnts aStep myOffSet (List.range k))
      = PointsRingLoop m alpha nbpnts aStep myRadius myOffSet fuel
        ((((k + 1 : Nat) : R) + 1) * aStep)
        (init ++ Spec.Rings m alpha nbpnts aStep myOffSet (List.range (k + 1))) := by
  have hr : ((k : R) + 1) * aStep + aStep = (((k + 1 : Nat) : R) + 1) * aStep := by
    push_cast; ring
  rw [PointsRingLoop, if_pos h, hr, List.range_succ, Rings_append, Rings_singleton,
    List.append_assoc]

theorem PointsRingLoop_stop (m : Standard_Math R) (alpha : R) (nbpnts : Int)
    (aStep myRadius myOffSet : R) (fuel k : Nat) (aSeqPnts : List (gp_Pnt R))
    (h : myRadius < ((k : R) + 1) * aStep) :
    PointsRingLoop m alpha nbpnts aStep myRadius myOffSet fuel (((k : R) + 1) * aStep) aSeqPnts
      = Except.ok aSeqPnts := by
  cases fuel <;> simp [PointsRingLoop, not_le.mpr h]

theorem PointsRingLoop_run (m : Standard_Math R) (alpha : R) (nbpnts : Int)
    (aStep myRadius myOffSet : R) (init : List (gp_Pnt R)) (k : Nat) :
    ∀ fuel : Nat, (∀ j : Nat, j < k → ((j : R) + 1) * aStep ≤ myRadius) →
      PointsRingLoop m alpha nbpnts aStep myRadius myOffSet (fuel + k) aStep init
        = PointsRingLoop m alpha nbpnts aStep myRadius myOffSet fuel (((k : R) + 1) * aStep)
          (init ++ Spec.Rings m alpha nbpnts aStep myOffSet (List.range k)) := by
  induction k with
  | zero =>
    intro fuel _
    simp [Spec.Rings]
  | succ k ih =>
    intro fuel h
    have h1 := ih (fuel + 1) (fun j hj => h j (by omega))
    rw [show fuel + (k + 1) = fuel + 1 + k by omega, h1]
    exact PointsRingLoop_step m alpha nbpnts aStep myRadius myOffSet fuel k init (h k (by omega))

/-- Closed form of the ring loop of `DefinePoints`: with `n` the number of rings and
enough fuel, the loop appends the `n` rings in order. -/
theorem PointsRingLoop_eq (m : Standard_Math R) (alpha : R) (nbpnts : Int)
    (aStep myRadius myOffSet : R) (init : List (gp_Pnt R)) (n fuel : Nat)
    (hn : Spec.IsRingCount aStep myRadius n) (hf : n ≤ fuel) :
    PointsRingLoop m alpha nbpnts aStep myRadius myOffSet fuel aStep init
      = Except.ok (init ++ Spec.Rings m alpha nbpnts aStep myOffSet (List.range n)) := by
  obtain ⟨f, rfl⟩ : ∃ f, fuel = f + n := ⟨fuel - n, by omega⟩
  rw [PointsRingLoop_run m alpha nbpnts aStep myRadius myOffSet init n f hn.1]
  exact PointsRingLoop_stop m alpha nbpnts aStep myRadius myOffSet f n _ hn.2

/-- For a positive step the number of rings is the integer part of `radius / step`. -/
theorem IsRingCount_floor [FloorRing R] (aStep myRadius : R) (hs : 0 < aStep) :
    Spec.IsRingCount aStep myRadius ⌊myRadius / aStep⌋₊ := by
  constructor
  · intro j hj
    have h1 : j + 1 ≤ ⌊myRadius / aStep⌋₊ := hj
    have h2 : ((j + 1 : Nat) : R) ≤ myRadius / aStep :=
      (Nat.le_floor_iff' (by omega)).mp h1
    have h3 := (le_div_iff₀ hs).mp h2
    push_cast at h3
    exact h3
  · have h1 : myRadius / aStep < (⌊myRadius / aStep⌋₊ : R) + 1 := Nat.lt_floor_add_one _
    exact (div_lt_iff₀ hs).mp h1

theorem MajorIndices_length (n : Nat) : (Spec.MajorIndices n).length = (n + 9) / 10 := by
  induction n with
  | zero => simp [Spec.MajorIndices]
  | succ k ih =>
    rw [MajorIndices_succ, List.length_append, ih]
    by_cases h : k % 10 = 0
    · simp only [h, if_true, List.length_singleton]; omega
    · simp only [h, if_false, List.length_nil]; omega

theorem MinorIndices_length (n : Nat) : (Spec.MinorIndices n).length = n - (n + 9) / 10 := by
  induction n with
  | zero => simp [Spec.MinorIndices]
  | succ k ih =>
    rw [MinorIndices_succ, List.length_append, ih]
    by_cases h : k % 10 = 0
    · simp only [h, if_true, List.length_nil]; omega
    · simp only [h, if_false, List.length_singleton]; omega

theorem RingVertices_length (m : Standard_Math R) (alpha : R) (nbpnts : Int)
    (r myOffSet : R) :
    (RingVertices m alpha nbpnts r myOffSet).length = nbpnts.toNat := by
  simp [RingVertices]

theorem Rings_length (m : Standard_Math R) (alpha : R) (nbpnts : Int) (aStep myOffSet : R)
    (l : List Nat) :
    (Spec.Rings m alpha nbpnts aStep myOffSet l).length = l.length * nbpnts.toNat := by
  induction l with
  | nil => simp [Spec.Rings]
  | cons a l ih =>
    have h : Spec.Rings m alpha nbpnts aStep myOffSet (a :: l)
        = Spec.Rings m alpha nbpnts aStep myOffSet ([a] ++ l) := rfl
    rw [h, Rings_append, List.length_append, ih, Rings_singleton, RingVertices_length,
      List.length_cons, Nat.add_mul, Nat.one_mul, Nat.add_comm]

/-- The polyline array built from the vertices of a list of rings has one bound per
ring and holds every vertex, in order. -/
theorem PolylinesOf_Rings (m : Standard_Math R) (alpha : R) (nbpnts : Int) (aStep myOffSet : R)
    (l : List Nat) (hp : 0 < nbpnts) :
    PolylinesOf (Spec.Rings m alpha nbpnts aStep myOffSet l) nbpnts
      = Except.ok (Graphic3d_Array.ArrayOfPolylines (List.replicate l.length nbpnts)
          (Spec.Rings m alpha nbpnts aStep myOffSet l)) := by
  have hcast : ((nbpnts.toNat : Nat) : Int) = nbpnts := Int.toNat_of_nonneg (le_of_lt hp)
  have hpos : 0 < nbpnts.toNat := by omega
  have h := PolylinesOf_eq (Spec.Rings m alpha nbpnts aStep myOffSet l) nbpnts.toNat
  rw [hcast, Rings_length, Nat.mul_div_cancel _ hpos] at h
  rw [h, ← Rings_length m alpha nbpnts aStep myOffSet l, List.take_length]

theorem ClampedDivision_eq (g : V3d_CircularGrid R) :
    (if ((g.myDivisionNumber : Int) : R) ≥ ((DIVISION : Int) : R) then g.myDivisionNumber
      else DIVISION) = Spec.ClampedDivision g := by
  unfold Spec.ClampedDivision
  by_cases h : DIVISION ≤ g.myDivisionNumber
  · have h2 : ((g.myDivisionNumber : Int) : R) ≥ ((DIVISION : Int) : R) := by
      exact_mod_cast h
    rw [if_pos h2, max_eq_left h]
  · have h2 : ¬ ((g.myDivisionNumber : Int) : R) ≥ ((DIVISION : Int) : R) := by
      intro h3; exact h (by exact_mod_cast h3)
    rw [if_neg h2, max_eq_right (le_of_lt (not_le.mp h))]

omit [LinearOrderedField R] in
theorem ClampedDivision_ge (g : V3d_CircularGrid R) : 8 ≤ Spec.ClampedDivision g := by
  unfold Spec.ClampedDivision DIVISION
  exact le_max_right _ _

theorem MajorIndices_eq_nil_iff (n : Nat) : (Spec.MajorIndices n).length = 0 ↔ n = 0 := by
  rw [MajorIndices_length]; omega

theorem MinorIndices_eq_nil_iff (n : Nat) : (Spec.MinorIndices n).length = 0 ↔ n < 2 := by
  rw [MinorIndices_length]; omega

/-- Closed form of `DefineLines` when the mesh is stale: with `n` the number of rings
and enough fuel, the group is cleared and receives `Spec.LinesContent`, and the
cached step and division are updated. -/
theorem DefineLines_eq (m : Standard_Math R) (g : V3d_CircularGrid R) (n fuel : Nat)
    (hu : DefineLines_toUpdate g = true)
    (hn : Spec.IsRingCount g.myRadiusStep g.myRadius n) (hf : n ≤ fuel) :
    DefineLines m fuel g
      = Except.ok { g with
          myGroup := Spec.RegeneratedGroup g (Spec.LinesContent m g n)
          myCurStep := g.myRadiusStep
          myCurDivi := g.myDivisionNumber } := by
  have hD := ClampedDivision_ge g
  have hp : (0 : Int) < 2 * Spec.ClampedDivision g + 1 := by omega
  have hpn : 0 < (2 * Spec.ClampedDivision g + 1).toNat := by omega
  unfold DefineLines
  simp only [hu, ClampedDivision_eq, Bool.true_eq_false, if_false]
  rw [LinesRingLoop_eq m _ _ _ _ _ n fuel hn hf]
  simp only [Rings_length, PolylinesOf_Rings m _ _ _ _ _ hp]
  by_cases h1 : 1 ≤ n
  · by_cases h2 : 2 ≤ n
    · have e1 : (Spec.MajorIndices n).length * (2 * Spec.ClampedDivision g + 1).toNat ≠ 0 :=
        Nat.mul_ne_zero (by rw [Ne, MajorIndices_eq_nil_iff]; omega) (by omega)
      have e2 : (Spec.MinorIndices n).length * (2 * Spec.ClampedDivision g + 1).toNat ≠ 0 :=
        Nat.mul_ne_zero (by rw [Ne, MinorIndices_eq_nil_iff]; omega) (by omega)
      simp [e1, e2, h1, h2, Spec.LinesContent, Spec.RegeneratedGroup, Spec.LineAspect,
        Graphic3d_Group.Clear, Graphic3d_Group.SetGroupPrimitivesAspect,
        Graphic3d_Group.SetPrimitivesAspect, Graphic3d_Group.AddPrimitiveArray,
        Graphic3d_Group.SetMinMaxValues]
    · have e1 : (Spec.MajorIndices n).length * (2 * Spec.ClampedDivision g + 1).toNat ≠ 0 :=
        Nat.mul_ne_zero (by rw [Ne, MajorIndices_eq_nil_iff]; omega) (by omega)
      have e2 : (Spec.MinorIndices n).length * (2 * Spec.ClampedDivision g + 1).toNat = 0 := by
        rw [(MinorIndices_eq_nil_iff n).mpr (by omega), Nat.zero_mul]
      simp [e1, e2, h1, h2, Spec.LinesContent, Spec.RegeneratedGroup, Spec.LineAspect,
        Graphic3d_Group.Clear, Graphic3d_Group.SetGroupPrimitivesAspect,
        Graphic3d_Group.SetPrimitivesAspect, Graphic3d_Group.AddPrimitiveArray,
        Graphic3d_Group.SetMinMaxValues]
  · have h2 : ¬ 2 ≤ n := by omega
    have e1 : (Spec.MajorIndices n).length * (2 * Spec.ClampedDivision g + 1).toNat = 0 := by
      rw [(MajorIndices_eq_nil_iff n).mpr (by omega), Nat.zero_mul]
    have e2 : (Spec.MinorIndices n).length * (2 * Spec.ClampedDivision g + 1).toNat = 0 := by
      rw [(MinorIndices_eq_nil_iff n).mpr (by omega), Nat.zero_mul]
    simp [e1, e2, h1, h2, Spec.LinesContent, Spec.RegeneratedGroup, Spec.LineAspect,
      Graphic3d_Group.Clear, Graphic3d_Group.SetGroupPrimitivesAspect,
      Graphic3d_Group.SetPrimitivesAspect, Graphic3d_Group.AddPrimitiveArray,
      Graphic3d_Group.SetMinMaxValues]

/-- Closed form of `DefinePoints` when the mesh is stale: with `n` the number of rings
and enough fuel, the group is cleared and receives `Spec.PointsContent`, and the
cached step and division are updated. -/
theorem DefinePoints_eq (m : Standard_Math R) (g : V3d_CircularGrid R) (n fuel : Nat)
    (hu : DefinePoints_toUpdate g = true)
    (hn : Spec.IsRingCount g.myRadiusStep g.myRadius n) (hf : n ≤ fuel) :
    DefinePoints m fuel g
      = Except.ok { g with
          myGroup := Spec.RegeneratedGroup g (Spec.PointsContent m g n)
          myCurStep := g.myRadiusStep
          myCurDivi := g.myDivisionNumber } := by
  unfold DefinePoints
  simp only [hu, Bool.true_eq_false, if_false]
  rw [PointsRingLoop_eq m _ _ _ _ _ _ n fuel hn hf]
  simp only [CopyLoop_all]
  simp [Spec.PointsContent, Spec.PointsVertices, Spec.RegeneratedGroup,
    Graphic3d_Group.Clear, Graphic3d_Group.SetGroupPrimitivesAspect,
    Graphic3d_Group.AddPrimitiveArray, Graphic3d_Group.SetMinMaxValues]

theorem DefineLines_fresh (m : Standard_Math R) (g : V3d_CircularGrid R) (fuel : Nat)
    (hu : DefineLines_toUpdate g = false) : DefineLines m fuel g = Except.ok g := by
  unfold DefineLines
  simp [hu]

theorem DefinePoints_fresh (m : Standard_Math R) (g : V3d_CircularGrid R) (fuel : Nat)
    (hu : DefinePoints_toUpdate g = false) : DefinePoints m fuel g = Except.ok g := by
  unfold DefinePoints
  simp [hu]

/-- When the ring loop of `DefineLines` ends, it has generated a number of rings that
the fuel allows. -/
theorem LinesRingLoop_inv (m : Standard_Math R) (alpha : R) (nbpnts : Int)
    (aStep myRadius myOffSet : R) (fuel : Nat) :
    ∀ (k : Nat) (aSeqLines aSeqTenth : List (gp_Pnt R))
      (res : Nat × List (gp_Pnt R) × List (gp_Pnt R)),
      (∀ j : Nat, j < k → ((j : R) + 1) * aStep ≤ myRadius) →
      LinesRingLoop m alpha nbpnts aStep myRadius myOffSet fuel (((k : R) + 1) * aStep) k
        aSeqLines aSeqTenth = Except.ok res →
      ∃ n : Nat, k ≤ n ∧ n ≤ k + fuel ∧ Spec.IsRingCount aStep myRadius n := by
  induction fuel with
  | zero =>
    intro k aSeqLines aSeqTenth res hk h
    by_cases hr : ((k : R) + 1) * aStep ≤ myRadius
    · simp [LinesRingLoop, hr] at h
    · exact ⟨k, le_refl k, by omega, hk, not_le.mp hr⟩
  | succ fuel ih =>
    intro k aSeqLines aSeqTenth res hk h
    by_cases hr : ((k : R) + 1) * aStep ≤ myRadius
    · have hrk : ((k : R) + 1) * aStep + aStep = (((k + 1 : Nat) : R) + 1) * aStep := by
        push_cast; ring
      have hk1 : ∀ j : Nat, j < k + 1 → ((j : R) + 1) * aStep ≤ myRadius := by
        intro j hj
        rcases Nat.lt_succ_iff_lt_or_eq.mp hj with h1 | h1
        · exact hk j h1
        · rw [h1]; exact hr
      rw [LinesRingLoop, if_pos hr, hrk] at h
      by_cases ht : k % 10 = 0
      · simp only [ht, decide_True, if_true] at h
        obtain ⟨n, h1, h2, h3⟩ := ih (k + 1) _ _ res hk1 h
        exact ⟨n, by omega, by omega, h3⟩
      · simp only [ht, decide_False, Bool.false_eq_true, if_false] at h
        obtain ⟨n, h1, h2, h3⟩ := ih (k + 1) _ _ res hk1 h
        exact ⟨n, by omega, by omega, h3⟩
    · exact ⟨k, le_refl k, by omega, hk, not_le.mp hr⟩

/-- When the ring loop of `DefinePoints` ends, it has generated a number of rings that
the fuel allows. -/
theorem PointsRingLoop_inv (m : Standard_Math R) (alpha : R) (nbpnts : Int)
    (aStep myRadius myOffSet : R) (fuel : Nat) :
    ∀ (k : Nat) (aSeqPnts res : List (gp_Pnt R)),
      (∀ j : Nat, j < k → ((j : R) + 1) * aStep ≤ myRadius) →
      PointsRingLoop m alpha nbpnts aStep myRadius myOffSet fuel (((k : R) + 1) * aStep)
        aSeqPnts = Except.ok res →
      ∃ n : Nat, k ≤ n ∧ n ≤ k + fuel ∧ Spec.IsRingCount aStep myRadius n := by
  induction fuel with
  | zero =>
    intro k aSeqPnts res hk h
    by_cases hr : ((k : R) + 1) * aStep ≤ myRadius
    · simp [PointsRingLoop, hr] at h
    · exact ⟨k, le_refl k, by omega, hk, not_le.mp hr⟩
  | succ fuel ih =>
    intro k aSeqPnts res hk h
    by_cases hr : ((k : R) + 1) * aStep ≤ myRadius
    · have hrk : ((k : R) + 1) * aStep + aStep = (((k + 1 : Nat) : R) + 1) * aStep := by
        push_cast; ring
      have hk1 : ∀ j : Nat, j < k + 1 → ((j : R) + 1) * aStep ≤ myRadius := by
        intro j hj
        rcases Nat.lt_succ_iff_lt_or_eq.mp hj with h1 | h1
        · exact hk j h1
        · rw [h1]; exact hr
      rw [PointsRingLoop, if_pos hr, hrk] at h
      obtain ⟨n, h1, h2, h3⟩ := ih (k + 1) _ res hk1 h
      exact ⟨n, by omega, by omega, h3⟩
    · exact ⟨k, le_refl k, by omega, hk, not_le.mp hr⟩

theorem LinesRingLoop_inv_start (m : Standard_Math R) (alpha : R) (nbpnts : Int)
    (aStep myRadius myOffSet : R) (fuel : Nat)
    (res : Nat × List (gp_Pnt R) × List (gp_Pnt R))
    (h : LinesRingLoop m alpha nbpnts aStep myRadius myOffSet fuel aStep 0 [] []
      = Except.ok res) :
    ∃ n : Nat, n ≤ fuel ∧ Spec.IsRingCount aStep myRadius n := by
  have h0 : aStep = (((0 : Nat) : R) + 1) * aStep := by simp
  have h2 : LinesRingLoop m alpha nbpnts aStep myRadius myOffSet fuel
      ((((0 : Nat) : R) + 1) * aStep) 0 [] [] = Except.ok res := by
    rw [← h0]; exact h
  obtain ⟨n, _, h3, h4⟩ := LinesRingLoop_inv m alpha nbpnts aStep myRadius myOffSet fuel 0 [] []
    res (by intro j hj; omega) h2
  exact ⟨n, by omega, h4⟩

theorem PointsRingLoop_inv_start (m : Standard_Math R) (alpha : R) (nbpnts : Int)
    (aStep myRadius myOffSet : R) (fuel : Nat) (init res : List (gp_Pnt R))
    (h : PointsRingLoop m alpha nbpnts aStep myRadius myOffSet fuel aStep init
      = Except.ok res) :
    ∃ n : Nat, n ≤ fuel ∧ Spec.IsRingCount aStep myRadius n := by
  have h0 : aStep = (((0 : Nat) : R) + 1) * aStep := by simp
  have h2 : PointsRingLoop m alpha nbpnts aStep myRadius myOffSet fuel
      ((((0 : Nat) : R) + 1) * aStep) init = Except.ok res := by
    rw [← h0]; exact h
  obtain ⟨n, _, h3, h4⟩ := PointsRingLoop_inv m alpha nbpnts aStep myRadius myOffSet fuel 0 init
    res (by intro j hj; omega) h2
  exact ⟨n, by omega, h4⟩

/-- When `DefineLines` returns on a stale mesh, the number of rings is within the fuel. -/
theorem DefineLines_inv (m : Standard_Math R) (g g2 : V3d_CircularGrid R) (fuel : Nat)
    (hu : DefineLines_toUpdate g = true) (h : DefineLines m fuel g = Except.ok g2) :
    ∃ n : Nat, n ≤ fuel ∧ Spec.IsRingCount g.myRadiusStep g.myRadius n := by
  unfold DefineLines at h
  simp only [hu, Bool.true_eq_false, if_false] at h
  split at h
  · exact absurd h (by simp)
  · rename_i nb aSeqLines aSeqTenth hloop
    exact LinesRingLoop_inv_start m _ _ _ _ _ fuel _ hloop

/-- When `DefinePoints` returns on a stale mesh, the number of rings is within the fuel. -/
theorem DefinePoints_inv (m : Standard_Math R) (g g2 : V3d_CircularGrid R) (fuel : Nat)
    (hu : DefinePoints_toUpdate g = true) (h : DefinePoints m fuel g = Except.ok g2) :
    ∃ n : Nat, n ≤ fuel ∧ Spec.IsRingCount g.myRadiusStep g.myRadius n := by
  unfold DefinePoints at h
  simp only [hu, Bool.true_eq_false, if_false] at h
  split at h
  · exact absurd h (by simp)
  · rename_i aSeqPnts hloop
    exact PointsRingLoop_inv_start m _ _ _ _ _ fuel _ _ hloop

/-! ## The update of the display -/

@[simp]
theorem AfterTransform_myRotationAngle (m : Standard_Math R) (g : V3d_CircularGrid R) :
    (Spec.AfterTransform m g).myRotationAngle = g.myRotationAngle := by
  unfold Spec.AfterTransform; split <;> rfl

@[simp]
theorem AfterTransform_myXOrigin (m : Standard_Math R) (g : V3d_CircularGrid R) :
    (Spec.AfterTransform m g).myXOrigin = g.myXOrigin := by
  unfold Spec.AfterTransform; split <;> rfl

@[simp]
theorem AfterTransform_myYOrigin (m : Standard_Math R) (g : V3d_CircularGrid R) :
    (Spec.AfterTransform m g).myYOrigin = g.myYOrigin := by
  unfold Spec.AfterTransform; split <;> rfl

@[simp]
theorem AfterTransform_myColor (m : Standard_Math R) (g : V3d_CircularGrid R) :
    (Spec.AfterTransform m g).myColor = g.myColor := by
  unfold Spec.AfterTransform; split <;> rfl

@[simp]
theorem AfterTransform_myTenthColor (m : Standard_Math R) (g : V3d_CircularGrid R) :
    (Spec.AfterTransform m g).myTenthColor = g.myTenthColor := by
  unfold Spec.AfterTransform; split <;> rfl

@[simp]
theorem AfterTransform_myDrawMode (m : Standard_Math R) (g : V3d_CircularGrid R) :
    (Spec.AfterTransform m g).myDrawMode = g.myDrawMode := by
  unfold Spec.AfterTransform; split <;> rfl

@[simp]
theorem AfterTransform_myRadiusStep (m : Standard_Math R) (g : V3d_CircularGrid R) :
    (Spec.AfterTransform m g).myRadiusStep = g.myRadiusStep := by
  unfold Spec.AfterTransform; split <;> rfl

@[simp]
theorem AfterTransform_myDivisionNumber (m : Standard_Math R) (g : V3d_CircularGrid R) :
    (Spec.AfterTransform m g).myDivisionNumber = g.myDivisionNumber := by
  unfold Spec.AfterTransform; split <;> rfl

@[simp]
theorem AfterTransform_myGroup (m : Standard_Math R) (g : V3d_CircularGrid R) :
    (Spec.AfterTransform m g).myGroup = g.myGroup := by
  unfold Spec.AfterTransform; split <;> rfl

@[simp]
theorem AfterTransform_myViewer (m : Standard_Math R) (g : V3d_CircularGrid R) :
    (Spec.AfterTransform m g).myViewer = g.myViewer := by
  unfold Spec.AfterTransform; split <;> rfl

@[simp]
theorem AfterTransform_myCurAreDefined (m : Standard_Math R) (g : V3d_CircularGrid R) :
    (Spec.AfterTransform m g).myCurAreDefined = g.myCurAreDefined := by
  unfold Spec.AfterTransform; split <;> rfl

@[simp]
theorem AfterTransform_myCurDrawMode (m : Standard_Math R) (g : V3d_CircularGrid R) :
    (Spec.AfterTransform m g).myCurDrawMode = g.myCurDrawMode := by
  unfold Spec.AfterTransform; split <;> rfl

@[simp]
theorem AfterTransform_myRadius (m : Standard_Math R) (g : V3d_CircularGrid R) :
    (Spec.AfterTransform m g).myRadius = g.myRadius := by
  unfold Spec.AfterTransform; split <;> rfl

@[simp]
theorem AfterTransform_myOffSet (m : Standard_Math R) (g : V3d_CircularGrid R) :
    (Spec.AfterTransform m g).myOffSet = g.myOffSet := by
  unfold Spec.AfterTransform; split <;> rfl

@[simp]
theorem AfterTransform_myCurStep (m : Standard_Math R) (g : V3d_CircularGrid R) :
    (Spec.AfterTransform m g).myCurStep = g.myCurStep := by
  unfold Spec.AfterTransform; split <;> rfl

@[simp]
theorem AfterTransform_myCurDivi (m : Standard_Math R) (g : V3d_CircularGrid R) :
    (Spec.AfterTransform m g).myCurDivi = g.myCurDivi := by
  unfold Spec.AfterTransform; split <;> rfl

theorem AfterTransform_LinesStale (m : Standard_Math R) (g : V3d_CircularGrid R) :
    DefineLines_toUpdate (Spec.AfterTransform m g) = DefineLines_toUpdate g := by
  simp [DefineLines_toUpdate]

theorem AfterTransform_PointsStale (m : Standard_Math R) (g : V3d_CircularGrid R) :
    DefinePoints_toUpdate (Spec.AfterTransform m g) = DefinePoints_toUpdate g := by
  simp [DefinePoints_toUpdate]

theorem AfterTransform_LinesContent (m : Standard_Math R) (g : V3d_CircularGrid R) (n : Nat) :
    Spec.LinesContent m (Spec.AfterTransform m g) n = Spec.LinesContent m g n := by
  simp [Spec.LinesContent, Spec.ClampedDivision]

theorem AfterTransform_PointsContent (m : Standard_Math R) (g : V3d_CircularGrid R) (n : Nat) :
    Spec.PointsContent m (Spec.AfterTransform m g) n = Spec.PointsContent m g n := by
  simp [Spec.PointsContent, Spec.PointsVertices]

theorem AfterTransform_RegeneratedGroup (m : Standard_Math R) (g : V3d_CircularGrid R)
    (c : List (GroupCall R)) :
    Spec.RegeneratedGroup (Spec.AfterTransform m g) c = Spec.RegeneratedGroup g c := by
  simp [Spec.RegeneratedGroup]

theorem UpdateDisplay_unfold (m : Standard_Math R) (fuel : Nat) (g : V3d_CircularGrid R) :
    UpdateDisplay m fuel g
      = match g.myDrawMode with
        | Aspect_GridDrawMode.Aspect_GDM_Lines =>
          match DefineLines m fuel (Spec.AfterTransform m g) with
          | Except.error e => Except.error e
          | Except.ok g2 =>
            Except.ok { g2 with
              myCurDrawMode := Aspect_GridDrawMode.Aspect_GDM_Lines
              myCurAreDefined := true }
        | _ =>
          match DefinePoints m fuel (Spec.AfterTransform m g) with
          | Except.error e => Except.error e
          | Except.ok g2 =>
            Except.ok { g2 with
              myCurDrawMode := Aspect_GridDrawMode.Aspect_GDM_Points
              myCurAreDefined := true } := by
  have h : (if MakeTransform g = true then RebuildTransform m g else g)
      = Spec.AfterTransform m g := rfl
  unfold UpdateDisplay
  simp only [h]
  have hm := AfterTransform_myDrawMode m g
  cases hmode : g.myDrawMode <;> rw [hmode] at hm <;> simp only [hm]

/-- Closed form of `UpdateDisplay` when the mesh is stale. -/
theorem UpdateDisplay_eq_stale (m : Standard_Math R) (g : V3d_CircularGrid R) (n fuel : Nat)
    (hs : Spec.MeshStale g = true)
    (hn : Spec.IsRingCount g.myRadiusStep g.myRadius n) (hf : n ≤ fuel) :
    UpdateDisplay m fuel g
      = Except.ok { Spec.AfterTransform m g with
          myGroup := Spec.RegeneratedGroup g (Spec.MeshContent m g n)
          myCurStep := g.myRadiusStep
          myCurDivi := g.myDivisionNumber
          myCurDrawMode := Spec.PathMode g
          myCurAreDefined := true } := by
  rw [UpdateDisplay_unfold]
  unfold Spec.MeshStale at hs
  unfold Spec.MeshContent Spec.PathMode
  cases hmode : g.myDrawMode <;> simp only [hmode] at hs ⊢
  · rw [DefineLines_eq m (Spec.AfterTransform m g) n fuel
      (by rw [AfterTransform_LinesStale]; exact hs) (by simpa using hn) hf]
    simp [AfterTransform_LinesContent, AfterTransform_RegeneratedGroup]
  · rw [DefinePoints_eq m (Spec.AfterTransform m g) n fuel
      (by rw [AfterTransform_PointsStale]; exact hs) (by simpa using hn) hf]
    simp [AfterTransform_PointsContent, AfterTransform_RegeneratedGroup]
  · rw [DefinePoints_eq m (Spec.AfterTransform m g) n fuel
      (by rw [AfterTransform_PointsStale]; exact hs) (by simpa using hn) hf]
    simp [AfterTransform_PointsContent, AfterTransform_RegeneratedGroup]

/-- Closed form of `UpdateDisplay` when the mesh is not stale: whatever the fuel, only
the transform stage and the cache flags act. -/
theorem UpdateDisplay_eq_fresh (m : Standard_Math R) (g : V3d_CircularGrid R) (fuel : Nat)
    (hs : Spec.MeshStale g = false) :
    UpdateDisplay m fuel g
      = Except.ok { Spec.AfterTransform m g with
          myCurDrawMode := Spec.PathMode g
          myCurAreDefined := true } := by
  rw [UpdateDisplay_unfold]
  unfold Spec.MeshStale at hs
  unfold Spec.PathMode
  cases hmode : g.myDrawMode <;> simp only [hmode] at hs ⊢
  · rw [DefineLines_fresh m _ fuel (by rw [AfterTransform_LinesStale]; exact hs)]
  · rw [DefinePoints_fresh m _ fuel (by rw [AfterTransform_PointsStale]; exact hs)]
  · rw [DefinePoints_fresh m _ fuel (by rw [AfterTransform_PointsStale]; exact hs)]

/-- When `UpdateDisplay` returns on a stale mesh, the number of rings is within the
fuel. -/
theorem UpdateDisplay_inv (m : Standard_Math R) (g g2 : V3d_CircularGrid R) (fuel : Nat)
    (hs : Spec.MeshStale g = true) (h : UpdateDisplay m fuel g = Except.ok g2) :
    ∃ n : Nat, n ≤ fuel ∧ Spec.IsRingCount g.myRadiusStep g.myRadius n := by
  rw [UpdateDisplay_unfold] at h
  unfold Spec.MeshStale at hs
  cases hmode : g.myDrawMode <;> simp only [hmode] at hs h
  · split at h
    · exact absurd h (by simp)
    · rename_i g3 hd
      have := DefineLines_inv m _ g3 fuel (by rw [AfterTransform_LinesStale]; exact hs) hd
      simpa using this
  · split at h
    · exact absurd h (by simp)
    · rename_i g3 hd
      have := DefinePoints_inv m _ g3 fuel (by rw [AfterTransform_PointsStale]; exact hs) hd
      simpa using this
  · split at h
    · exact absurd h (by simp)
    · rename_i g3 hd
      have := DefinePoints_inv m _ g3 fuel (by rw [AfterTransform_PointsStale]; exact hs) hd
      simpa using this

theorem ceil_div_ten (n : Nat) : (n + 9) / 10 = ⌈(n : ℚ) / 10⌉₊ := by
  apply le_antisymm
  · by_cases hk : (n + 9) / 10 = 0
    · rw [hk]; exact Nat.zero_le _
    · have h1 : (n + 9) / 10 - 1 < ⌈(n : ℚ) / 10⌉₊ := by
        rw [Nat.lt_ceil, lt_div_iff₀ (by norm_num)]
        have h2 : ((n + 9) / 10 - 1) * 10 < n := by omega
        exact_mod_cast h2
      omega
  · rw [Nat.ceil_le, div_le_iff₀ (by norm_num)]
    have h2 : n ≤ (n + 9) / 10 * 10 := by omega
    exact_mod_cast h2

/-! ## Properties of the ring loops -/

theorem IsRingCount_example : Spec.IsRingCount (10 : ℝ) 100 10 := by
  constructor
  · intro j hj
    have h : (j : ℝ) ≤ 9 := by exact_mod_cast (by omega : j ≤ 9)
    linarith
  · norm_num

theorem floor_example : ⌊(100 : ℝ) / 10⌋₊ = 10 := by
  rw [Nat.floor_eq_iff (by norm_num)]
  norm_num

/-! ### The header of the ring loops over an arbitrary arithmetic -/

theorem map_range_shift {α : Type} (f : Nat → α) (k n : Nat) :
    (List.range (n + 1)).map (fun j => f (k + j))
      = f k :: (List.range n).map (fun j => f (k + 1 + j)) := by
  rw [List.range_succ_eq_map, List.map_cons, List.map_map]
  refine congrArg₂ _ rfl (List.map_congr_left fun j _ => ?_)
  show f (k + (j + 1)) = f (k + 1 + j)
  rw [show k + (j + 1) = k + 1 + j by omega]

theorem RingRadii_run {α : Type} (A : RealArith α) (aStep myRadius : α) :
    ∀ (n fuel k : Nat) (radii : List α),
      (∀ j : Nat, j < n → A.IsLessEqual (Spec.Accumulated A aStep (k + j)) myRadius = true) →
      A.IsLessEqual (Spec.Accumulated A aStep (k + n)) myRadius = false → n ≤ fuel →
      RingRadii A aStep myRadius fuel (Spec.Accumulated A aStep k) radii
        = Except.ok (radii ++ (List.range n).map fun j => Spec.Accumulated A aStep (k + j)) := by
  intro n
  induction n with
  | zero =>
    intro fuel k radii _ hstop _
    have hstop2 : A.IsLessEqual (Spec.Accumulated A aStep k) myRadius = false := by
      simpa using hstop
    cases fuel <;> simp [RingRadii, hstop2]
  | succ n ih =>
    intro fuel k radii hin hstop hf
    obtain ⟨f, rfl⟩ : ∃ f, fuel = f + 1 := ⟨fuel - 1, by omega⟩
    have h0 : A.IsLessEqual (Spec.Accumulated A aStep k) myRadius = true := by
      simpa using hin 0 (by omega)
    have hnext : A.Add (Spec.Accumulated A aStep k) aStep = Spec.Accumulated A aStep (k + 1) := rfl
    rw [RingRadii, if_pos h0, hnext,
      ih f (k + 1) (radii ++ [Spec.Accumulated A aStep k])
        (fun j hj => by
          have := hin (j + 1) (by omega)
          rwa [show k + (j + 1) = k + 1 + j by omega] at this)
        (by rwa [show k + (n + 1) = k + 1 + n by omega] at hstop) (by omega)]
    rw [map_range_shift (Spec.Accumulated A aStep) k n]
    simp

theorem RingRadii_inv {α : Type} (A : RealArith α) (aStep myRadius : α) :
    ∀ (fuel k : Nat) (radii result : List α),
      RingRadii A aStep myRadius fuel (Spec.Accumulated A aStep k) radii = Except.ok result →
      ∃ n : Nat, n ≤ fuel
        ∧ (∀ j : Nat, j < n →
            A.IsLessEqual (Spec.Accumulated A aStep (k + j)) myRadius = true)
        ∧ A.IsLessEqual (Spec.Accumulated A aStep (k + n)) myRadius = false
        ∧ result = radii ++ (List.range n).map fun j => Spec.Accumulated A aStep (k + j) := by
  intro fuel
  induction fuel with
  | zero =>
    intro k radii result h
    by_cases hle : A.IsLessEqual (Spec.Accumulated A aStep k) myRadius = true
    · simp [RingRadii, hle] at h
    · have hle2 : A.IsLessEqual (Spec.Accumulated A aStep k) myRadius = false := by
        simpa using hle
      simp only [RingRadii, hle2, Bool.false_eq_true, if_false, Except.ok.injEq] at h
      exact ⟨0, le_refl 0, fun j hj => absurd hj (by omega), by simpa using hle2, by simp [h]⟩
  | succ f ih =>
    intro k radii result h
    by_cases hle : A.IsLessEqual (Spec.Accumulated A aStep k) myRadius = true
    · have hnext : A.Add (Spec.Accumulated A aStep k) aStep
          = Spec.Accumulated A aStep (k + 1) := rfl
      rw [RingRadii, if_pos hle, hnext] at h
      obtain ⟨n, hnf, hin, hstop, hres⟩ := ih (k + 1) _ result h
      refine ⟨n + 1, by omega, ?_, ?_, ?_⟩
      · intro j hj
        cases j with
        | zero => simpa using hle
        | succ j =>
          have := hin j (by omega)
          rwa [show k + 1 + j = k + (j + 1) by omega] at this
      · rwa [show k + 1 + n = k + (n + 1) by omega] at hstop
      · rw [hres, map_range_shift (Spec.Accumulated A aStep) k n]
        simp
    · have hle2 : A.IsLessEqual (Spec.Accumulated A aStep k) myRadius = false := by
        simpa using hle
      simp only [RingRadii, hle2, Bool.false_eq_true, if_false, Except.ok.injEq] at h
      exact ⟨0, by omega, fun j hj => absurd hj (by omega), by simpa using hle2, by simp [h]⟩

/-- Over any arithmetic, the header of the ring loops returns the accumulated values
of `r` up to the first one that fails the test, when the fuel allows it, and returns
nothing else. -/
theorem RingRadii_iff {α : Type} (A : RealArith α) (aStep myRadius : α) (fuel : Nat)
    (radii : List α) :
    RingRadii A aStep myRadius fuel aStep [] = Except.ok radii
      ↔ ∃ n : Nat, n ≤ fuel ∧ Spec.IsAccumulatedCount A aStep myRadius n
          ∧ radii = (List.range n).map (Spec.Accumulated A aStep) := by
  constructor
  · intro h
    obtain ⟨n, hnf, hin, hstop, hres⟩ := RingRadii_inv A aStep myRadius fuel 0 [] radii h
    refine ⟨n, hnf, ⟨fun j hj => by simpa using hin j hj, by simpa using hstop⟩, ?_⟩
    rw [hres]
    simp
  · rintro ⟨n, hnf, ⟨hin, hstop⟩, rfl⟩
    have := RingRadii_run A aStep myRadius n fuel 0 []
      (fun j hj => by simpa using hin j hj) (by simpa using hstop) hnf
    simpa using this

theorem Accumulated_exact (aStep : R) (k : Nat) :
    Spec.Accumulated (ExactArith R) aStep k = ((k : R) + 1) * aStep := by
  induction k with
  | zero => simp [Spec.Accumulated]
  | succ k ih =>
    rw [Spec.Accumulated, ih]
    simp only [ExactArith]
    push_cast
    ring

theorem IsAccumulatedCount_exact (aStep myRadius : R) (n : Nat) :
    Spec.IsAccumulatedCount (ExactArith R) aStep myRadius n ↔ Spec.IsRingCount aStep myRadius n := by
  simp only [Spec.IsAccumulatedCount, Spec.IsRingCount, Accumulated_exact]
  simp [ExactArith]

theorem RingRadii_exact (aStep myRadius : R) (n fuel : Nat)
    (hn : Spec.IsRingCount aStep myRadius n) (hf : n ≤ fuel) :
    RingRadii (ExactArith R) aStep myRadius fuel aStep []
      = Except.ok ((List.range n).map fun (i : Nat) => ((i : R) + 1) * aStep) := by
  rw [RingRadii_iff]
  refine ⟨n, hf, (IsAccumulatedCount_exact aStep myRadius n).mpr hn, ?_⟩
  apply List.map_congr_left
  intro i _
  rw [Accumulated_exact]

/-- Over exact arithmetic the ring loop of `DefinePoints` generates one ring for each
radius that the header of the loop yields. -/
theorem PointsRingLoop_RingRadii (m : Standard_Math R) (alpha : R) (nbpnts : Int)
    (aStep myRadius myOffSet : R) :
    ∀ (fuel : Nat) (r : R) (radii : List R) (init : List (gp_Pnt R)),
      PointsRingLoop m alpha nbpnts aStep myRadius myOffSet fuel r
          (init ++ radii.flatMap fun x => RingVertices m alpha nbpnts x myOffSet)
        = (RingRadii (ExactArith R) aStep myRadius fuel r radii).map fun result =>
            init ++ result.flatMap fun x => RingVertices m alpha nbpnts x myOffSet := by
  intro fuel
  induction fuel with
  | zero =>
    intro r radii init
    by_cases h : r ≤ myRadius
    · simp [PointsRingLoop, RingRadii, ExactArith, h, Except.map]
    · simp [PointsRingLoop, RingRadii, ExactArith, h, Except.map]
  | succ f ih =>
    intro r radii init
    by_cases h : r ≤ myRadius
    · have hA : (ExactArith R).IsLessEqual r myRadius = true := by simp [ExactArith, h]
      have hadd : (ExactArith R).Add r aStep = r + aStep := rfl
      rw [PointsRingLoop, if_pos h, RingRadii, if_pos hA, hadd, ← ih (r + aStep) (radii ++ [r]) init]
      simp [List.flatMap_append]
    · simp [PointsRingLoop, RingRadii, ExactArith, h, Except.map]

/-- Over exact arithmetic the ring loop of `DefineLines` counts one ring for each
radius that the header of the loop yields. -/
theorem LinesRingLoop_RingRadii (m : Standard_Math R) (alpha : R) (nbpnts : Int)
    (aStep myRadius myOffSet : R) :
    ∀ (fuel : Nat) (r : R) (radii : List R) (aSeqLines aSeqTenth : List (gp_Pnt R)),
      (LinesRingLoop m alpha nbpnts aStep myRadius myOffSet fuel r radii.length
          aSeqLines aSeqTenth).map Prod.fst
        = (RingRadii (ExactArith R) aStep myRadius fuel r radii).map List.length := by
  intro fuel
  induction fuel with
  | zero =>
    intro r radii aSeqLines aSeqTenth
    by_cases h : r ≤ myRadius
    · simp [LinesRingLoop, RingRadii, ExactArith, h, Except.map]
    · simp [LinesRingLoop, RingRadii, ExactArith, h, Except.map]
  | succ f ih =>
    intro r radii aSeqLines aSeqTenth
    by_cases h : r ≤ myRadius
    · have hA : (ExactArith R).IsLessEqual r myRadius = true := by simp [ExactArith, h]
      have hadd : (ExactArith R).Add r aStep = r + aStep := rfl
      have hlen : radii.length + 1 = (radii ++ [r]).length := by simp
      rw [RingRadii, if_pos hA, hadd, LinesRingLoop, if_pos h]
      by_cases ht : radii.length % 10 = 0
      · simp only [ht, decide_True, if_true, hlen]
        exact ih _ _ _ _
      · simp only [ht, decide_False, Bool.false_eq_true, if_false, hlen]
        exact ih _ _ _ _
    · simp [LinesRingLoop, RingRadii, ExactArith, h, Except.map]

set_option exponentiation.threshold 4000 in
set_option maxRecDepth 100000 in
/-- The double nearest to 0.1 is `7205759403792794 * 2 ^ (-56)` and the double
nearest to 1.6 is `7205759403792794 * 2 ^ (-52)`: both have 53 significant bits and
lie within half a unit of the last place of the decimal value. -/
theorem Binary64_example_inputs :
    Binary64.RoundNearestEven (7205759403792794 * 2 ^ 1018) = 7205759403792794 * 2 ^ 1018
      ∧ Binary64.RoundNearestEven (7205759403792794 * 2 ^ 1022) = 7205759403792794 * 2 ^ 1022
      ∧ |(7205759403792794 : ℚ) / 2 ^ 56 - 1 / 10| < 1 / 2 ^ 57
      ∧ |(7205759403792794 : ℚ) / 2 ^ 52 - 16 / 10| < 1 / 2 ^ 53 := by
  refine ⟨by decide, by decide, ?_, ?_⟩
  · rw [abs_lt]; constructor <;> norm_num
  · rw [abs_lt]; constructor <;> norm_num

set_option exponentiation.threshold 4000 in
set_option maxRecDepth 100000 in
/-- Counterexample to C1 as stated: in the arithmetic of the doubles, with the step 0.1
(the double `7205759403792794 * 2 ^ (-56)`) and the radius 1.6 (the double
`7205759403792794 * 2 ^ (-52)`, exactly 16 times the step), the header of the ring
loops generates 15 rings, not floor (radius / step) = 16: the value of `r` accumulated
for the sixteenth ring is above the radius (the step is above 0 and at most the
radius, as the claim requires). The ring of index 2 already has a radius
that is not 3 times the step, and the last ring, of radius
`108086391056891920 * 2 ^ (-56)` = 1.5000000000000002, is not at 15 times the step. -/
theorem C1_counterexample :
    Binary64.IsLessEqual (some (7205759403792794 * 2 ^ 1018)) (some 0) = false
      ∧ Binary64.IsLessEqual (some (7205759403792794 * 2 ^ 1018))
          (some (7205759403792794 * 2 ^ 1022)) = true
      ∧ RingRadii Binary64.Arith (some (7205759403792794 * 2 ^ 1018))
          (some (7205759403792794 * 2 ^ 1022)) 16 (some (7205759403792794 * 2 ^ 1018)) []
        = Except.ok ([7205759403792794, 14411518807585588, 21617278211378384,
            28823037615171176, 36028797018963968, 43234556422756760, 50440315826549552,
            57646075230342344, 64851834634135136, 72057594037927928, 79263353441720720,
            86469112845513520, 93674872249306320, 100880631653099120,
            108086391056891920].map fun k => some (k * 2 ^ 1018))
      ∧ Spec.Accumulated Binary64.Arith (some (7205759403792794 * 2 ^ 1018)) 15
        = some (115292150460684720 * 2 ^ 1018)
      ∧ 16 * 7205759403792794 < 115292150460684720
      ∧ ⌊((7205759403792794 * 2 ^ 1022 : Nat) : ℚ) / ((7205759403792794 * 2 ^ 1018 : Nat) : ℚ)⌋₊
        = 16
      ∧ [7205759403792794, 14411518807585588, 21617278211378384,
            28823037615171176, 36028797018963968, 43234556422756760, 50440315826549552,
            57646075230342344, 64851834634135136, 72057594037927928, 79263353441720720,
            86469112845513520, 93674872249306320, 100880631653099120,
            108086391056891920].length = 15
      ∧ 15 ≠ 16
      ∧ 21617278211378384 ≠ 3 * 7205759403792794
      ∧ 108086391056891920 ≠ 15 * 7205759403792794 := by
  refine ⟨by decide, by decide, by rfl, by rfl, by decide, ?_, by decide, by decide, by decide,
    by decide⟩
  rw [Nat.floor_eq_iff (by positivity)]
  constructor <;> norm_num

/-- C1 (amended): the ring loop of `DefineLines` and the ring loop of `DefinePoints`
generate one ring for each value that `r` takes, `aStep` at first and `r + aStep` (an
addition of the arithmetic of `Standard_Real`, rounded in doubles) after each ring, as
long as `r <= myRadius`: over any arithmetic the header returns the radii `radii` iff
they are the accumulated values up to the first one that fails the test (first part).
Over exact arithmetic, where the accumulated value of index `k` is `(k + 1) * aStep`,
for a step > 0 and a radius with step ≤ radius (hence radius > 0) and every division
count (every `alpha` and `nbpnts`), these are exactly floor (radius / step) rings when
the fuel allows that many iterations: the ring of index `i` from 0, the `(i + 1)`-th
ring, has radius `(i + 1) * step`, there is at least one ring and the last one has a
radius that is at most the grid radius; both loops of the source generate the rings of
these radii. -/
theorem C1_ring_radii [FloorRing R] (m : Standard_Math R) (alpha : R) (nbpnts : Int)
    (aStep myRadius myOffSet : R) (init : List (gp_Pnt R)) (fuel : Nat)
    (hs : 0 < aStep) (hle : aStep ≤ myRadius) (hf : ⌊myRadius / aStep⌋₊ ≤ fuel) :
    (∀ (α : Type) (A : RealArith α) (step radius : α) (fuel2 : Nat) (radii : List α),
        RingRadii A step radius fuel2 step [] = Except.ok radii
          ↔ ∃ n : Nat, n ≤ fuel2 ∧ Spec.IsAccumulatedCount A step radius n
              ∧ radii = (List.range n).map (Spec.Accumulated A step))
      ∧ (∀ k : Nat, Spec.Accumulated (ExactArith R) aStep k = ((k : R) + 1) * aStep)
      ∧ RingRadii (ExactArith R) aStep myRadius fuel aStep []
        = Except.ok ((List.range ⌊myRadius / aStep⌋₊).map fun (i : Nat) => ((i : R) + 1) * aStep)
      ∧ (LinesRingLoop m alpha nbpnts aStep myRadius myOffSet fuel aStep 0 [] []).map Prod.fst
        = (RingRadii (ExactArith R) aStep myRadius fuel aStep []).map List.length
      ∧ PointsRingLoop m alpha nbpnts aStep myRadius myOffSet fuel aStep init
        = (RingRadii (ExactArith R) aStep myRadius fuel aStep []).map (fun radii =>
            init ++ radii.flatMap (fun x => RingVertices m alpha nbpnts x myOffSet))
      ∧ LinesRingLoop m alpha nbpnts aStep myRadius myOffSet fuel aStep 0 [] []
        = Except.ok (⌊myRadius / aStep⌋₊,
            (Spec.MinorIndices ⌊myRadius / aStep⌋₊).flatMap (fun (i : Nat) =>
              RingVertices m alpha nbpnts (((i : R) + 1) * aStep) myOffSet),
            (Spec.MajorIndices ⌊myRadius / aStep⌋₊).flatMap (fun (i : Nat) =>
              RingVertices m alpha nbpnts (((i : R) + 1) * aStep) myOffSet))
      ∧ PointsRingLoop m alpha nbpnts aStep myRadius myOffSet fuel aStep init
        = Except.ok (init ++ (List.range ⌊myRadius / aStep⌋₊).flatMap (fun (i : Nat) =>
            RingVertices m alpha nbpnts (((i : R) + 1) * aStep) myOffSet))
      ∧ 1 ≤ ⌊myRadius / aStep⌋₊
      ∧ (⌊myRadius / aStep⌋₊ : R) * aStep ≤ myRadius
      ∧ myRadius < ((⌊myRadius / aStep⌋₊ : R) + 1) * aStep := by
  have hn := IsRingCount_floor aStep myRadius hs
  have h1 : 1 ≤ ⌊myRadius / aStep⌋₊ := by
    rw [Nat.one_le_floor_iff, le_div_iff₀ hs]
    simpa using hle
  refine ⟨fun α A step radius fuel2 radii => RingRadii_iff A step radius fuel2 radii,
    Accumulated_exact aStep, RingRadii_exact aStep myRadius _ fuel hn hf,
    LinesRingLoop_RingRadii m alpha nbpnts aStep myRadius myOffSet fuel aStep [] [] [], ?_,
    LinesRingLoop_eq m alpha nbpnts aStep myRadius myOffSet _ fuel hn hf,
    PointsRingLoop_eq m alpha nbpnts aStep myRadius myOffSet init _ fuel hn hf, h1, ?_, hn.2⟩
  · have := PointsRingLoop_RingRadii m alpha nbpnts aStep myRadius myOffSet fuel aStep [] init
    simpa using this
  · have h2 := hn.1 (⌊myRadius / aStep⌋₊ - 1) (by omega)
    have h3 : ((⌊myRadius / aStep⌋₊ - 1 : Nat) : R) + 1 = (⌊myRadius / aStep⌋₊ : R) := by
      rw [Nat.cast_sub h1]; simp
    rwa [h3] at h2

/-- Witness of C1 (amended): radius 100 and step 10 over the reals give 10 rings, of
radii 10, 20, up to 100. -/
theorem C1_ring_radii_witness :
    (0 : ℝ) < 10 ∧ (10 : ℝ) ≤ 100 ∧ ⌊(100 : ℝ) / 10⌋₊ ≤ 10
      ∧ RingRadii (ExactArith ℝ) 10 100 10 10 []
        = Except.ok ((List.range ⌊(100 : ℝ) / 10⌋₊).map fun (i : Nat) => ((i : ℝ) + 1) * 10)
      ∧ PointsRingLoop (Standard_Math.mk Real.cos Real.sin Real.pi) (Real.pi / 8) 16 10 100 0
          10 10 []
        = Except.ok ([] ++ (List.range ⌊(100 : ℝ) / 10⌋₊).flatMap (fun (i : Nat) =>
            RingVertices (Standard_Math.mk Real.cos Real.sin Real.pi) (Real.pi / 8) 16
              (((i : ℝ) + 1) * 10) 0))
      ∧ ⌊(100 : ℝ) / 10⌋₊ = 10 :=
  ⟨by norm_num, by norm_num, by rw [floor_example],
    (C1_ring_radii (Standard_Math.mk Real.cos Real.sin Real.pi) (Real.pi / 8) 16 10 100 0 [] 10
      (by norm_num) (by norm_num) (by rw [floor_example])).2.2.1,
    (C1_ring_radii (Standard_Math.mk Real.cos Real.sin Real.pi) (Real.pi / 8) 16 10 100 0 [] 10
      (by norm_num) (by norm_num) (by rw [floor_example])).2.2.2.2.2.2.1,
    floor_example⟩

/-- C2: in Lines mode, for every ring count `n` (and enough fuel), the ring loop puts
the ring of index `i` (from 0) in the major sequence `aSeqTenth` iff `i % 10 = 0` and
in the minor sequence `aSeqLines` otherwise; exactly ceil(n / 10) = (n + 9) / 10 rings
are major and n - ceil(n / 10) are minor, also when counted as the source does, by
dividing the length of a sequence by the number of points of a ring. -/
theorem C2_major_minor (m : Standard_Math R) (alpha : R) (nbpnts : Int)
    (aStep myRadius myOffSet : R) (n fuel : Nat)
    (hn : Spec.IsRingCount aStep myRadius n) (hf : n ≤ fuel) (hp : 0 < nbpnts) :
    ∃ aSeqLines aSeqTenth : List (gp_Pnt R),
      LinesRingLoop m alpha nbpnts aStep myRadius myOffSet fuel aStep 0 [] []
        = Except.ok (n, aSeqLines, aSeqTenth)
      ∧ aSeqTenth = ((List.range n).filter (fun i => i % 10 = 0)).flatMap (fun (i : Nat) =>
          RingVertices m alpha nbpnts (((i : R) + 1) * aStep) myOffSet)
      ∧ aSeqLines = ((List.range n).filter (fun i => ¬ i % 10 = 0)).flatMap (fun (i : Nat) =>
          RingVertices m alpha nbpnts (((i : R) + 1) * aStep) myOffSet)
      ∧ ((List.range n).filter (fun i => i % 10 = 0)).length = (n + 9) / 10
      ∧ ((List.range n).filter (fun i => ¬ i % 10 = 0)).length = n - (n + 9) / 10
      ∧ (aSeqTenth.length : Int) / nbpnts = ((n + 9) / 10 : Nat)
      ∧ (aSeqLines.length : Int) / nbpnts = (n - (n + 9) / 10 : Nat)
      ∧ ((n + 9) / 10 : Nat) = ⌈(n : ℚ) / 10⌉₊ := by
  obtain ⟨p, rfl⟩ : ∃ p : Nat, nbpnts = (p : Int) :=
    ⟨nbpnts.toNat, (Int.toNat_of_nonneg (le_of_lt hp)).symm⟩
  have hpos : 0 < p := by exact_mod_cast hp
  refine ⟨_, _, LinesRingLoop_eq m alpha (p : Int) aStep myRadius myOffSet n fuel hn hf, rfl, rfl,
    MajorIndices_length n, MinorIndices_length n, ?_, ?_, ?_⟩
  · rw [Rings_length, MajorIndices_length, Int.toNat_ofNat,
      ← Int.natCast_div, Nat.mul_div_cancel _ hpos]
  · rw [Rings_length, MinorIndices_length, Int.toNat_ofNat,
      ← Int.natCast_div, Nat.mul_div_cancel _ hpos]
  · exact ceil_div_ten n

/-- Witness of C2: division 8 (17 points per ring, angle pi / 8), step 10 and radius
100 over the reals give 10 rings, exactly 1 major and 9 minor. -/
theorem C2_major_minor_witness :
    Spec.IsRingCount (10 : ℝ) 100 10 ∧ (0 : Int) < 17
      ∧ ∃ aSeqLines aSeqTenth : List (gp_Pnt ℝ),
        LinesRingLoop (Standard_Math.mk Real.cos Real.sin Real.pi) (Real.pi / 8) 17 10 100 0
            10 10 0 [] []
          = Except.ok (10, aSeqLines, aSeqTenth)
        ∧ (aSeqTenth.length : Int) / 17 = 1 ∧ (aSeqLines.length : Int) / 17 = 9 :=
  ⟨IsRingCount_example, by norm_num, by
    obtain ⟨aSeqLines, aSeqTenth, h1, _, _, _, _, h6, h7, _⟩ :=
      C2_major_minor (Standard_Math.mk Real.cos Real.sin Real.pi) (Real.pi / 8) 17 10 100 0
        10 10 IsRingCount_example (le_refl 10) (by norm_num)
    exact ⟨aSeqLines, aSeqTenth, h1, by simpa using h6, by simpa using h7⟩⟩

/-! ## Properties of the rings and of the diameters in Lines mode -/

theorem RingVertices_getElem (m : Standard_Math R) (alpha : R) (nbpnts : Int)
    (r myOffSet : R) (j : Nat) (hj : j < nbpnts.toNat) :
    (RingVertices m alpha nbpnts r myOffSet)[j]?
      = some ⟨m.Cos (alpha * (j : R)) * r, m.Sin (alpha * (j : R)) * r, -myOffSet⟩ := by
  simp [RingVertices, List.getElem?_range hj]

/-- Over the reals, a ring sampled at `2 * D + 1` points spaced by `pi / D` is closed:
its first and last points are the same. -/
theorem RingVertices_closed (D : Nat) (hD : 0 < D) (r myOffSet : ℝ) :
    (RingVertices (Standard_Math.mk Real.cos Real.sin Real.pi) (Real.pi / ((D : Int) : ℝ))
        (2 * (D : Int) + 1) r myOffSet).head?
      = (RingVertices (Standard_Math.mk Real.cos Real.sin Real.pi) (Real.pi / ((D : Int) : ℝ))
        (2 * (D : Int) + 1) r myOffSet).getLast? := by
  have hn : (2 * (D : Int) + 1).toNat = 2 * D + 1 := by omega
  have hD0 : (D : ℝ) ≠ 0 := by exact_mod_cast (Nat.pos_iff_ne_zero.mp hD)
  rw [List.getLast?_eq_getElem?, List.head?_eq_getElem?, RingVertices_length, hn,
    RingVertices_getElem _ _ _ _ _ 0 (by omega),
    RingVertices_getElem _ _ _ _ _ (2 * D + 1 - 1) (by omega)]
  have h2 : Real.pi / (D : ℝ) * (2 * (D : ℝ)) = 2 * Real.pi := by
    field_simp
    ring
  simp [h2]

theorem ExampleGrid_LinesStale (myRadius aStep : R) (d : Int) (aMode : Aspect_GridDrawMode)
    (anAngle myOffSet : R) :
    DefineLines_toUpdate (Spec.ExampleGrid myRadius aStep d aMode anAngle myOffSet) = true := by
  simp [DefineLines_toUpdate, Spec.ExampleGrid]

theorem ExampleGrid_PointsStale (myRadius aStep : R) (d : Int) (aMode : Aspect_GridDrawMode)
    (anAngle myOffSet : R) :
    DefinePoints_toUpdate (Spec.ExampleGrid myRadius aStep d aMode anAngle myOffSet) = true := by
  simp [DefinePoints_toUpdate, Spec.ExampleGrid]

theorem RingVertices_head (m : Standard_Math R) (alpha : R) (D : Nat) (r myOffSet : R) :
    (RingVertices m alpha (2 * (D : Int) + 1) r myOffSet).head?
      = some ⟨m.Cos (alpha * 0) * r, m.Sin (alpha * 0) * r, -myOffSet⟩ := by
  rw [List.head?_eq_getElem?, RingVertices_getElem _ _ _ _ _ 0 (by omega)]
  simp

theorem RingVertices_getLast (m : Standard_Math R) (alpha : R) (D : Nat) (r myOffSet : R) :
    (RingVertices m alpha (2 * (D : Int) + 1) r myOffSet).getLast?
      = some ⟨m.Cos (alpha * (2 * (D : R))) * r, m.Sin (alpha * (2 * (D : R))) * r,
          -myOffSet⟩ := by
  have hn : (2 * (D : Int) + 1).toNat = 2 * D + 1 := by omega
  rw [List.getLast?_eq_getElem?, RingVertices_length, hn,
    RingVertices_getElem _ _ _ _ _ (2 * D + 1 - 1) (by omega)]
  simp

/-- The sine of a rational number other than 0 is not 0, since pi is irrational. -/
theorem sin_rat_ne_zero (q : ℚ) (hq : q ≠ 0) : Real.sin (q : ℝ) ≠ 0 := by
  intro h
  rw [Real.sin_eq_zero_iff] at h
  obtain ⟨n, hn⟩ := h
  have hn0 : (n : ℝ) ≠ 0 := by
    intro h0
    rw [h0, zero_mul] at hn
    exact hq (by exact_mod_cast hn.symm)
  refine irrational_pi ⟨q / n, ?_⟩
  push_cast
  rw [div_eq_iff hn0, mul_comm]
  exact hn.symm

/-- With a rational value of `M_PI` other than 0, as every double is, and the exact
cosine and sine, a ring of radius other than 0 is not closed: its last point is not
its first point. -/
theorem RingVertices_not_closed (q : ℚ) (hq : q ≠ 0) (D : Nat) (hD : 0 < D)
    (r myOffSet : ℝ) (hr : r ≠ 0) :
    (RingVertices (Standard_Math.mk Real.cos Real.sin (q : ℝ)) ((q : ℝ) / ((D : Int) : ℝ))
        (2 * (D : Int) + 1) r myOffSet).head?
      ≠ (RingVertices (Standard_Math.mk Real.cos Real.sin (q : ℝ)) ((q : ℝ) / ((D : Int) : ℝ))
        (2 * (D : Int) + 1) r myOffSet).getLast? := by
  rw [RingVertices_head, RingVertices_getLast]
  intro h
  simp only [Option.some.injEq, gp_Pnt.mk.injEq, and_true] at h
  have hy := h.2
  have hD0 : (D : ℝ) ≠ 0 := by exact_mod_cast (Nat.pos_iff_ne_zero.mp hD)
  have hang : (q : ℝ) / ((D : Int) : ℝ) * (2 * (D : ℝ)) = ((2 * q : ℚ) : ℝ) := by
    push_cast
    field_simp
    ring
  rw [hang, mul_zero, Real.sin_zero, zero_mul] at hy
  rcases mul_eq_zero.mp hy.symm with h0 | h0
  · exact sin_rat_ne_zero (2 * q) (by simpa using hq) h0
  · exact hr h0

/-- The sine of twice the double nearest to pi, `884279719003555 / 2 ^ 48`, is
negative: this double is below pi. -/
theorem sin_two_M_PI_neg : Real.sin (2 * (884279719003555 / 2 ^ 48 : ℝ)) < 0 := by
  have h1 := Real.pi_gt_d20
  have h2 := Real.pi_lt_d20
  rw [← Real.sin_sub_two_pi]
  apply Real.sin_neg_of_neg_of_neg_pi_lt
  · norm_num at h1 ⊢
    linarith
  · norm_num at h2 ⊢
    linarith

theorem IsRingCount_one : Spec.IsRingCount (10 : ℝ) 10 1 := by
  constructor
  · intro j hj
    have h : j = 0 := by omega
    subst h
    norm_num
  · norm_num

/-- Counterexample to C3 as stated. First part: with the division number 4, radius 10
and step 10, `DefineLines` generates one ring, and this ring has 17 points, not
2 * 4 + 1 = 9. Second part: with the division number 8, radius 10 and step 10, with
`M_PI` the double of the source, `884279719003555 / 2 ^ 48`, and the exact cosine and
sine, the ring has 2 * 8 + 1 = 17 points but is not closed: its last point, computed at
the angle `M_PI / 8 * 16`, has the ordinate `sin (2 * M_PI) * 10 < 0` (the math library
returns -2.449e-16 for this sine) and its first point has the ordinate
`sin (M_PI / 8 * 0) * 10 = 0`. -/
theorem C3_counterexample :
    (∃ (g2 : V3d_CircularGrid ℝ) (v : List (gp_Pnt ℝ)),
      DefineLines (Standard_Math.mk Real.cos Real.sin Real.pi) 1
          (Spec.ExampleGrid 10 10 4 Aspect_GridDrawMode.Aspect_GDM_Lines 0 0)
        = Except.ok g2
      ∧ (Spec.ExampleGrid (10 : ℝ) 10 4 Aspect_GridDrawMode.Aspect_GDM_Lines 0 0).myDivisionNumber
        = 4
      ∧ g2.myGroup.content[3]?
        = some (GroupCall.AddPrimitiveArray (Graphic3d_Array.ArrayOfPolylines [17] v))
      ∧ g2.myGroup.content.length = 4
      ∧ v.length = 17
      ∧ v.length ≠ 2 * 4 + 1)
    ∧ ∃ (g2 : V3d_CircularGrid ℝ) (v : List (gp_Pnt ℝ)),
      DefineLines (Standard_Math.mk Real.cos Real.sin (884279719003555 / 2 ^ 48)) 1
          (Spec.ExampleGrid 10 10 8 Aspect_GridDrawMode.Aspect_GDM_Lines 0 0)
        = Except.ok g2
      ∧ (Spec.ExampleGrid (10 : ℝ) 10 8 Aspect_GridDrawMode.Aspect_GDM_Lines 0 0).myDivisionNumber
        = 8
      ∧ g2.myGroup.content[3]?
        = some (GroupCall.AddPrimitiveArray (Graphic3d_Array.ArrayOfPolylines [17] v))
      ∧ g2.myGroup.content.length = 4
      ∧ v.length = 2 * 8 + 1
      ∧ v.head? = some ⟨Real.cos (884279719003555 / 2 ^ 48 / 8 * 0) * 10,
          Real.sin (884279719003555 / 2 ^ 48 / 8 * 0) * 10, -0⟩
      ∧ v.getLast? = some ⟨Real.cos (884279719003555 / 2 ^ 48 / 8 * 16) * 10,
          Real.sin (884279719003555 / 2 ^ 48 / 8 * 16) * 10, -0⟩
      ∧ Real.sin (884279719003555 / 2 ^ 48 / 8 * 0) * 10 = 0
      ∧ Real.sin (884279719003555 / 2 ^ 48 / 8 * 16) * 10 < 0
      ∧ v.head? ≠ v.getLast? := by
  have hM : Spec.MajorIndices 1 = [0] := by decide
  have hneg : Real.sin ((884279719003555 : ℝ) / 2 ^ 48 / 8 * 16) * 10 < 0 := by
    have h := sin_two_M_PI_neg
    have he : (884279719003555 : ℝ) / 2 ^ 48 / 8 * 16 = 2 * (884279719003555 / 2 ^ 48) := by
      ring
    rw [he]
    linarith
  have hzero : Real.sin ((884279719003555 : ℝ) / 2 ^ 48 / 8 * 0) * 10 = 0 := by simp
  have hhead := RingVertices_head
    (Standard_Math.mk Real.cos Real.sin ((884279719003555 : ℝ) / 2 ^ 48))
    ((884279719003555 : ℝ) / 2 ^ 48 / 8) 8 10 0
  have hlast := RingVertices_getLast
    (Standard_Math.mk Real.cos Real.sin ((884279719003555 : ℝ) / 2 ^ 48))
    ((884279719003555 : ℝ) / 2 ^ 48 / 8) 8 10 0
  have h16 : (2 : ℝ) * ((8 : Nat) : ℝ) = 16 := by norm_num
  rw [h16] at hlast
  have h17 : 2 * ((8 : Nat) : Int) + 1 = 17 := by norm_num
  rw [h17] at hhead hlast
  constructor
  · have h := DefineLines_eq (Standard_Math.mk Real.cos Real.sin Real.pi)
      (Spec.ExampleGrid 10 10 4 Aspect_GridDrawMode.Aspect_GDM_Lines 0 0) 1 1
      (ExampleGrid_LinesStale _ _ _ _ _ _) IsRingCount_one (le_refl 1)
    have hD : Spec.ClampedDivision
        (Spec.ExampleGrid (10 : ℝ) 10 4 Aspect_GridDrawMode.Aspect_GDM_Lines 0 0) = 8 := by
      simp [Spec.ClampedDivision, Spec.ExampleGrid, DIVISION]
    refine ⟨_, RingVertices (Standard_Math.mk Real.cos Real.sin Real.pi) (Real.pi / 8) 17
      (10 : ℝ) 0, h, rfl, ?_, ?_, ?_, ?_⟩
    · simp only [Spec.RegeneratedGroup, Spec.LinesContent, hD, hM]
      norm_num [Spec.Rings, Spec.ExampleGrid]
    · simp [Spec.RegeneratedGroup, Spec.LinesContent]
    · simp [RingVertices]
    · simp [RingVertices]
  · have h := DefineLines_eq
      (Standard_Math.mk Real.cos Real.sin ((884279719003555 : ℝ) / 2 ^ 48))
      (Spec.ExampleGrid 10 10 8 Aspect_GridDrawMode.Aspect_GDM_Lines 0 0) 1 1
      (ExampleGrid_LinesStale _ _ _ _ _ _) IsRingCount_one (le_refl 1)
    have hD : Spec.ClampedDivision
        (Spec.ExampleGrid (10 : ℝ) 10 8 Aspect_GridDrawMode.Aspect_GDM_Lines 0 0) = 8 := by
      simp [Spec.ClampedDivision, Spec.ExampleGrid, DIVISION]
    refine ⟨_, RingVertices
      (Standard_Math.mk Real.cos Real.sin ((884279719003555 : ℝ) / 2 ^ 48))
      ((884279719003555 : ℝ) / 2 ^ 48 / 8) 17 (10 : ℝ) 0, h, rfl, ?_, ?_, ?_, hhead, hlast,
      hzero, hneg, ?_⟩
    · simp only [Spec.RegeneratedGroup, Spec.LinesContent, hD, hM]
      norm_num [Spec.Rings, Spec.ExampleGrid]
    · simp [Spec.RegeneratedGroup, Spec.LinesContent]
    · simp [RingVertices]
    · rw [hhead, hlast]
      intro heq
      simp only [Option.some.injEq, gp_Pnt.mk.injEq, and_true] at heq
      have hy := heq.2
      rw [hzero] at hy
      rw [← hy] at hneg
      exact lt_irrefl _ hneg

/-- C3 (amended): in Lines mode, with `D` the clamped division count, the larger of
the division number and 8, a regeneration generates rings (the rings of
`Spec.LinesContent`) of exactly `2 * D + 1` points each; the point of index `j`, for
`j` from 0 to `2 * D`, of the ring of radius `r` is computed as
`(Cos (alpha * j) * r, Sin (alpha * j) * r, - offset)` with `alpha = M_PI / D`. The
last point is the point of index `2 * D`, computed like the others at the angle
`alpha * (2 * D)`, not copied from the first point: the ring is closed, its first and
last points identical, iff the cosine and the sine at that angle, times `r`, are those
at the angle `alpha * 0`. This holds over the reals with the real cosine and sine and
`M_PI` the number pi; it does not hold for a radius other than 0 when `M_PI` is a
rational number other than 0, as every double is (with the exact cosine and sine). -/
theorem C3_ring_points (m : Standard_Math R) (g : V3d_CircularGrid R) (n fuel : Nat)
    (hu : DefineLines_toUpdate g = true)
    (hn : Spec.IsRingCount g.myRadiusStep g.myRadius n) (hf : n ≤ fuel) :
    ∃ g2 : V3d_CircularGrid R,
      DefineLines m fuel g = Except.ok g2
      ∧ g2.myGroup.content = Spec.LinesContent m g n
      ∧ Spec.ClampedDivision g = max g.myDivisionNumber 8
      ∧ (∀ r : R,
        ((RingVertices m (m.M_PI / ((Spec.ClampedDivision g : Int) : R))
            (2 * Spec.ClampedDivision g + 1) r g.myOffSet).length : Int)
          = 2 * Spec.ClampedDivision g + 1
        ∧ (∀ j : Nat, (j : Int) ≤ 2 * Spec.ClampedDivision g →
            (RingVertices m (m.M_PI / ((Spec.ClampedDivision g : Int) : R))
              (2 * Spec.ClampedDivision g + 1) r g.myOffSet)[j]?
            = some ⟨m.Cos (m.M_PI / ((Spec.ClampedDivision g : Int) : R) * (j : R)) * r,
                m.Sin (m.M_PI / ((Spec.ClampedDivision g : Int) : R) * (j : R)) * r,
                -g.myOffSet⟩)
        ∧ (RingVertices m (m.M_PI / ((Spec.ClampedDivision g : Int) : R))
            (2 * Spec.ClampedDivision g + 1) r g.myOffSet).head?
          = some ⟨m.Cos (m.M_PI / ((Spec.ClampedDivision g : Int) : R) * 0) * r,
              m.Sin (m.M_PI / ((Spec.ClampedDivision g : Int) : R) * 0) * r, -g.myOffSet⟩
        ∧ (RingVertices m (m.M_PI / ((Spec.ClampedDivision g : Int) : R))
            (2 * Spec.ClampedDivision g + 1) r g.myOffSet).getLast?
          = some ⟨m.Cos (m.M_PI / ((Spec.ClampedDivision g : Int) : R)
                * (2 * ((Spec.ClampedDivision g : Int) : R))) * r,
              m.Sin (m.M_PI / ((Spec.ClampedDivision g : Int) : R)
                * (2 * ((Spec.ClampedDivision g : Int) : R))) * r, -g.myOffSet⟩
        ∧ ((RingVertices m (m.M_PI / ((Spec.ClampedDivision g : Int) : R))
              (2 * Spec.ClampedDivision g + 1) r g.myOffSet).head?
            = (RingVertices m (m.M_PI / ((Spec.ClampedDivision g : Int) : R))
              (2 * Spec.ClampedDivision g + 1) r g.myOffSet).getLast?
          ↔ m.Cos (m.M_PI / ((Spec.ClampedDivision g : Int) : R) * 0) * r
              = m.Cos (m.M_PI / ((Spec.ClampedDivision g : Int) : R)
                * (2 * ((Spec.ClampedDivision g : Int) : R))) * r
            ∧ m.Sin (m.M_PI / ((Spec.ClampedDivision g : Int) : R) * 0) * r
              = m.Sin (m.M_PI / ((Spec.ClampedDivision g : Int) : R)
                * (2 * ((Spec.ClampedDivision g : Int) : R))) * r))
      ∧ (∀ (D : Nat), 0 < D → ∀ r myOffSet : ℝ,
          (RingVertices (Standard_Math.mk Real.cos Real.sin Real.pi)
              (Real.pi / ((D : Int) : ℝ)) (2 * (D : Int) + 1) r myOffSet).head?
            = (RingVertices (Standard_Math.mk Real.cos Real.sin Real.pi)
              (Real.pi / ((D : Int) : ℝ)) (2 * (D : Int) + 1) r myOffSet).getLast?)
      ∧ (∀ (q : ℚ) (D : Nat), q ≠ 0 → 0 < D → ∀ r myOffSet : ℝ, r ≠ 0 →
          (RingVertices (Standard_Math.mk Real.cos Real.sin (q : ℝ))
              ((q : ℝ) / ((D : Int) : ℝ)) (2 * (D : Int) + 1) r myOffSet).head?
            ≠ (RingVertices (Standard_Math.mk Real.cos Real.sin (q : ℝ))
              ((q : ℝ) / ((D : Int) : ℝ)) (2 * (D : Int) + 1) r myOffSet).getLast?) := by
  have hD := ClampedDivision_ge g
  refine ⟨_, DefineLines_eq _ g n fuel hu hn hf, rfl, rfl, ?_,
    fun D hD0 r myOffSet => RingVertices_closed D hD0 r myOffSet,
    fun q D hq hD0 r myOffSet hr => RingVertices_not_closed q hq D hD0 r myOffSet hr⟩
  intro r
  obtain ⟨D, hDn⟩ : ∃ D : Nat, Spec.ClampedDivision g = (D : Int) :=
    ⟨(Spec.ClampedDivision g).toNat, (Int.toNat_of_nonneg (by omega)).symm⟩
  rw [hDn] at hD ⊢
  have hD8 : 8 ≤ D := by exact_mod_cast hD
  have hcast : (((D : Int) : R)) = (D : R) := Int.cast_natCast D
  refine ⟨?_, ?_, RingVertices_head _ _ D r _, ?_, ?_⟩
  · rw [RingVertices_length]; omega
  · intro j hj
    rw [RingVertices_getElem _ _ _ _ _ j (by omega)]
  · rw [RingVertices_getLast, hcast]
  · rw [RingVertices_head, RingVertices_getLast, hcast]
    simp only [Option.some.injEq, gp_Pnt.mk.injEq, and_true]

/-- Witness of C3 (amended): the grid of radius 100, step 10 and division number 4, in
Lines mode, over the reals. -/
theorem C3_ring_points_witness :
    DefineLines_toUpdate
        (Spec.ExampleGrid (100 : ℝ) 10 4 Aspect_GridDrawMode.Aspect_GDM_Lines 0 0) = true
      ∧ Spec.IsRingCount (10 : ℝ) 100 10
      ∧ ∃ g2 : V3d_CircularGrid ℝ,
        DefineLines (Standard_Math.mk Real.cos Real.sin Real.pi) 10
            (Spec.ExampleGrid 100 10 4 Aspect_GridDrawMode.Aspect_GDM_Lines 0 0)
          = Except.ok g2
        ∧ g2.myGroup.content
          = Spec.LinesContent (Standard_Math.mk Real.cos Real.sin Real.pi)
            (Spec.ExampleGrid 100 10 4 Aspect_GridDrawMode.Aspect_GDM_Lines 0 0) 10 :=
  ⟨ExampleGrid_LinesStale _ _ _ _ _ _, IsRingCount_example, by
    obtain ⟨g2, h1, h2, _⟩ := C3_ring_points (Standard_Math.mk Real.cos Real.sin Real.pi)
      (Spec.ExampleGrid 100 10 4 Aspect_GridDrawMode.Aspect_GDM_Lines 0 0) 10 10
      (ExampleGrid_LinesStale _ _ _ _ _ _) IsRingCount_example (le_refl 10)
    exact ⟨g2, h1, h2⟩⟩

theorem range_one_sixteen :
    List.range' 1 16 = [1, 2, 3, 4, 5, 6, 7, 8, 9, 10, 11, 12, 13, 14, 15, 16] := by
  decide

omit [LinearOrderedField R] in
theorem flatMap_pair_getElem {α : Type} (f h : α → gp_Pnt R) (l : List α) :
    ∀ j : Nat, (l.flatMap fun a => [f a, h a])[2 * j]? = l[j]?.map f
      ∧ (l.flatMap fun a => [f a, h a])[2 * j + 1]? = l[j]?.map h := by
  induction l with
  | nil => intro j; simp
  | cons a l ih =>
    intro j
    cases j with
    | zero => simp
    | succ j =>
      have e1 : 2 * (j + 1) = 2 * j + 1 + 1 := by ring
      have e2 : 2 * (j + 1) + 1 = 2 * j + 1 + 1 + 1 := by ring
      have h1 := (ih j).1
      have h2 := (ih j).2
      constructor
      · rw [e1]; simpa using h1
      · rw [e2]; simpa using h2

omit [LinearOrderedField R] in
theorem flatMap_pair_length {α : Type} (f h : α → gp_Pnt R) (l : List α) :
    (l.flatMap fun a => [f a, h a]).length = 2 * l.length := by
  induction l with
  | nil => simp
  | cons a l ih =>
    rw [List.flatMap_cons, List.length_append, ih]
    simp only [List.length_cons, List.length_nil]
    ring

theorem DiameterVertices_length (m : Standard_Math R) (alpha : R) (nbpnts : Int)
    (myRadius myOffSet : R) :
    (DiameterVertices m alpha nbpnts myRadius myOffSet).length = 2 * nbpnts.toNat := by
  unfold DiameterVertices
  rw [flatMap_pair_length, List.length_range']

/-- The diameter of index `j` from 0, the `(j + 1)`-th one, goes from the centre to the
point of angle `alpha * (j + 1)` at distance `myRadius`. -/
theorem DiameterVertices_getElem (m : Standard_Math R) (alpha : R) (nbpnts : Int)
    (myRadius myOffSet : R) (j : Nat) (hj : j < nbpnts.toNat) :
    (DiameterVertices m alpha nbpnts myRadius myOffSet)[2 * j]? = some ⟨0, 0, -myOffSet⟩
      ∧ (DiameterVertices m alpha nbpnts myRadius myOffSet)[2 * j + 1]?
        = some ⟨m.Cos (alpha * ((j : R) + 1)) * myRadius,
            m.Sin (alpha * ((j : R) + 1)) * myRadius, -myOffSet⟩ := by
  unfold DiameterVertices
  have h := flatMap_pair_getElem (fun (_ : Nat) => (⟨0, 0, -myOffSet⟩ : gp_Pnt R))
    (fun (i : Nat) => (⟨m.Cos (alpha * (i : R)) * myRadius,
      m.Sin (alpha * (i : R)) * myRadius, -myOffSet⟩ : gp_Pnt R)) (List.range' 1 nbpnts.toNat) j
  have hr : (List.range' 1 nbpnts.toNat)[j]? = some (1 + j) := by
    rw [List.getElem?_range' _ _ hj]
    simp
  rw [hr] at h
  constructor
  · exact h.1
  · rw [h.2]
    simp [add_comm]

/-- Counterexample to C4 as stated: at the division number 4 (radius 100, step 10,
offset 0, real cosine and sine) `DefineLines` emits 16 diameters, whose end points lie
at the angles `k * pi / 4`. The fourth diameter ends at (-100, 0, 0), angle pi, where
the claim places it at (0, 100, 0), angle `4 * pi / 8`; the first and the ninth diameter
are the same segment. -/
theorem C4_counterexample :
    ∃ (g2 : V3d_CircularGrid ℝ) (v : List (gp_Pnt ℝ)),
      DefineLines (Standard_Math.mk Real.cos Real.sin Real.pi) 10
          (Spec.ExampleGrid 100 10 4 Aspect_GridDrawMode.Aspect_GDM_Lines 0 0)
        = Except.ok g2
      ∧ g2.myGroup.content[1]?
        = some (GroupCall.AddPrimitiveArray (Graphic3d_Array.ArrayOfSegments v))
      ∧ v.length = 2 * 16
      ∧ v[6]? = some ⟨0, 0, 0⟩
      ∧ v[7]? = some ⟨-100, 0, 0⟩
      ∧ (⟨100 * Real.cos (4 * Real.pi / 8), 100 * Real.sin (4 * Real.pi / 8), 0⟩ : gp_Pnt ℝ)
        = ⟨0, 100, 0⟩
      ∧ v[1]? = v[17]? := by
  have h := DefineLines_eq (Standard_Math.mk Real.cos Real.sin Real.pi)
    (Spec.ExampleGrid 100 10 4 Aspect_GridDrawMode.Aspect_GDM_Lines 0 0) 10 10
    (ExampleGrid_LinesStale _ _ _ _ _ _) IsRingCount_example (le_refl 10)
  have hD : Spec.ClampedDivision
      (Spec.ExampleGrid (100 : ℝ) 10 4 Aspect_GridDrawMode.Aspect_GDM_Lines 0 0) = 8 := by
    simp [Spec.ClampedDivision, Spec.ExampleGrid, DIVISION]
  have hv : DiameterVertices (Standard_Math.mk Real.cos Real.sin Real.pi)
      (Real.pi / ((4 : Int) : ℝ)) (2 * 8) (100 : ℝ) 0
      = (List.range' 1 16).flatMap fun (i : Nat) =>
        [⟨0, 0, -0⟩, ⟨Real.cos (Real.pi / ((4 : Int) : ℝ) * (i : ℝ)) * 100,
          Real.sin (Real.pi / ((4 : Int) : ℝ) * (i : ℝ)) * 100, -0⟩] := rfl
  have h4 : Real.pi / 4 * 4 = Real.pi := by ring
  have h9 : Real.pi / 4 * 9 = Real.pi / 4 + 2 * Real.pi := by ring
  have h8 : 4 * Real.pi / 8 = Real.pi / 2 := by ring
  refine ⟨_, DiameterVertices (Standard_Math.mk Real.cos Real.sin Real.pi)
    (Real.pi / ((4 : Int) : ℝ)) (2 * 8) (100 : ℝ) 0, h, ?_, ?_, ?_, ?_, ?_, ?_⟩
  · simp only [Spec.RegeneratedGroup, Spec.LinesContent, hD]
    simp [Spec.ExampleGrid]
  · rw [hv, range_one_sixteen]; simp
  · rw [hv, range_one_sixteen]; simp
  · rw [hv, range_one_sixteen]; simp [h4]
  · rw [h8]; simp
  · rw [hv, range_one_sixteen]; simp [h9]

/-- C4 (amended): in Lines mode a regeneration puts in the group, right after the line
aspect of the major colour, one segment array that holds exactly `2 * division`
diameters, where `division` is the clamped division count, the larger of the division
number `d` and 8. The diameter of index `j` from 0, that is the `k`-th one with
`k = j + 1` from 1 to `2 * division`, is the 2-point segment from the centre
`(0, 0, - offset)` to `(radius * cos (k * pi / d), radius * sin (k * pi / d), - offset)`,
where `d` is the division number itself, not clamped: the end points are spaced by
`pi / d`. For `d` at least 8 the clamped count is `d`, and `k` runs from 1 to `2 * d`,
once round the circle. -/
theorem C4_diameters (m : Standard_Math R) (g : V3d_CircularGrid R) (n fuel : Nat)
    (hu : DefineLines_toUpdate g = true)
    (hn : Spec.IsRingCount g.myRadiusStep g.myRadius n) (hf : n ≤ fuel) :
    ∃ (g1 : V3d_CircularGrid R) (v : List (gp_Pnt R)),
      DefineLines m fuel g = Except.ok g1
      ∧ g1.myGroup.content[0]?
        = some (GroupCall.SetGroupPrimitivesAspect (Graphic3d_Aspect.AspectLine3d g.myTenthColor
            Aspect_TypeOfLine.Aspect_TOL_SOLID 1))
      ∧ g1.myGroup.content[1]?
        = some (GroupCall.AddPrimitiveArray (Graphic3d_Array.ArrayOfSegments v))
      ∧ (v.length : Int) = 2 * (2 * max g.myDivisionNumber 8)
      ∧ (∀ j : Nat, (j : Int) < 2 * max g.myDivisionNumber 8 →
          v[2 * j]? = some ⟨0, 0, -g.myOffSet⟩
          ∧ v[2 * j + 1]?
            = some ⟨g.myRadius * m.Cos (((j : R) + 1) * m.M_PI / (g.myDivisionNumber : R)),
                g.myRadius * m.Sin (((j : R) + 1) * m.M_PI / (g.myDivisionNumber : R)),
                -g.myOffSet⟩)
      ∧ (8 ≤ g.myDivisionNumber → max g.myDivisionNumber 8 = g.myDivisionNumber) := by
  have hD : Spec.ClampedDivision g = max g.myDivisionNumber 8 := rfl
  have hge := ClampedDivision_ge g
  refine ⟨_, DiameterVertices m (m.M_PI / (g.myDivisionNumber : R))
    (2 * Spec.ClampedDivision g) g.myRadius g.myOffSet, DefineLines_eq m g n fuel hu hn hf,
    ?_, ?_, ?_, ?_, ?_⟩
  · simp [Spec.RegeneratedGroup, Spec.LinesContent, Spec.LineAspect]
  · simp [Spec.RegeneratedGroup, Spec.LinesContent]
  · rw [DiameterVertices_length, ← hD]
    push_cast
    rw [Int.toNat_of_nonneg (by omega)]
  · intro j hj
    rw [← hD] at hj
    obtain ⟨h1, h2⟩ := DiameterVertices_getElem m (m.M_PI / (g.myDivisionNumber : R))
      (2 * Spec.ClampedDivision g) g.myRadius g.myOffSet j (by omega)
    refine ⟨h1, ?_⟩
    rw [h2]
    simp only [Option.some.injEq, gp_Pnt.mk.injEq, and_true]
    constructor
    · rw [mul_comm]; congr 2; ring
    · rw [mul_comm]; congr 2; ring
  · intro h8
    exact max_eq_left h8

/-- Witness of C4 (amended): the grid of radius 100, step 10 and division number 4, in
Lines mode. -/
theorem C4_diameters_witness :
    Spec.IsRingCount (10 : ℝ) 100 10
      ∧ ∃ (g1 : V3d_CircularGrid ℝ) (v : List (gp_Pnt ℝ)),
        DefineLines (Standard_Math.mk Real.cos Real.sin Real.pi) 10
            (Spec.ExampleGrid 100 10 4 Aspect_GridDrawMode.Aspect_GDM_Lines 0 0)
          = Except.ok g1
        ∧ g1.myGroup.content[1]?
          = some (GroupCall.AddPrimitiveArray (Graphic3d_Array.ArrayOfSegments v))
        ∧ (v.length : Int) = 32 :=
  ⟨IsRingCount_example, by
    obtain ⟨g1, v, h1, _, h3, h4, _⟩ := C4_diameters
      (Standard_Math.mk Real.cos Real.sin Real.pi)
      (Spec.ExampleGrid 100 10 4 Aspect_GridDrawMode.Aspect_GDM_Lines 0 0) 10 10
      (ExampleGrid_LinesStale _ _ _ _ _ _) IsRingCount_example (le_refl 10)
    refine ⟨g1, v, h1, h3, ?_⟩
    rw [h4]
    simp [Spec.ExampleGrid]⟩

/-! ## Properties of the cache -/

omit [LinearOrderedField R] in
/-- Two planes are equal iff their twelve components are equal. -/
theorem gp_Ax3_eq_iff (a b : gp_Ax3 R) :
    a = b ↔
      a.Location.x = b.Location.x ∧ a.Location.y = b.Location.y ∧ a.Location.z = b.Location.z
      ∧ a.XDirection.x = b.XDirection.x ∧ a.XDirection.y = b.XDirection.y
      ∧ a.XDirection.z = b.XDirection.z
      ∧ a.YDirection.x = b.YDirection.x ∧ a.YDirection.y = b.YDirection.y
      ∧ a.YDirection.z = b.YDirection.z
      ∧ a.Direction.x = b.Direction.x ∧ a.Direction.y = b.Direction.y
      ∧ a.Direction.z = b.Direction.z := by
  rcases a with ⟨⟨a1, a2, a3⟩, ⟨a4, a5, a6⟩, ⟨a7, a8, a9⟩, ⟨a10, a11, a12⟩⟩
  rcases b with ⟨⟨b1, b2, b3⟩, ⟨b4, b5, b6⟩, ⟨b7, b8, b9⟩, ⟨b10, b11, b12⟩⟩
  simp [and_assoc]

/-- The transform is not rebuilt iff the cache is defined and the cached angle, origin
and plane are the current ones. -/
theorem MakeTransform_eq_false_iff (g : V3d_CircularGrid R) :
    MakeTransform g = false ↔
      g.myCurAreDefined = true ∧ g.myRotationAngle = g.myCurAngle
      ∧ g.myXOrigin = g.myCurXo ∧ g.myYOrigin = g.myCurYo
      ∧ g.myViewer.PrivilegedPlane = g.myCurViewPlane := by
  rw [gp_Ax3_eq_iff]
  unfold MakeTransform
  cases hd : g.myCurAreDefined
  · simp
  · by_cases h2 : g.myRotationAngle ≠ g.myCurAngle ∨ g.myXOrigin ≠ g.myCurXo
        ∨ g.myYOrigin ≠ g.myCurYo
    · rw [if_neg (by simp), if_pos h2]
      simp only [ne_eq] at h2
      constructor
      · intro h; exact absurd h (by simp)
      · rintro ⟨_, h3, h4, h5, _⟩
        rcases h2 with h | h | h
        · exact absurd h3 h
        · exact absurd h4 h
        · exact absurd h5 h
    · rw [if_neg (by simp), if_neg h2]
      simp only [ne_eq, not_or, Decidable.not_not] at h2
      simp [h2, not_or]

/-- After the transform stage the cached angle, origin and plane are the current ones. -/
theorem AfterTransform_coherent (m : Standard_Math R) (g : V3d_CircularGrid R) :
    (Spec.AfterTransform m g).myCurAngle = g.myRotationAngle
      ∧ (Spec.AfterTransform m g).myCurXo = g.myXOrigin
      ∧ (Spec.AfterTransform m g).myCurYo = g.myYOrigin
      ∧ (Spec.AfterTransform m g).myCurViewPlane = g.myViewer.PrivilegedPlane := by
  unfold Spec.AfterTransform
  by_cases h : MakeTransform g = true
  · rw [if_pos h]
    exact ⟨rfl, rfl, rfl, rfl⟩
  · rw [if_neg h]
    rw [Bool.not_eq_true, MakeTransform_eq_false_iff] at h
    exact ⟨h.2.1.symm, h.2.2.1.symm, h.2.2.2.1.symm, h.2.2.2.2.symm⟩

/-- The mesh is not stale iff the cache is defined, the cached draw mode is the mode of
the selected generation path and the cached step and division are the current ones. -/
theorem MeshStale_eq_false_iff (g : V3d_CircularGrid R) :
    Spec.MeshStale g = false ↔
      g.myCurAreDefined = true ∧ g.myCurDrawMode = Spec.PathMode g
      ∧ g.myDivisionNumber = g.myCurDivi ∧ g.myRadiusStep = g.myCurStep := by
  unfold Spec.MeshStale Spec.PathMode
  cases g.myDrawMode <;>
    simp [DefineLines_toUpdate, DefinePoints_toUpdate, and_assoc]

/-- A grid whose transform and mesh are not stale is left unchanged by `UpdateDisplay`,
whatever the fuel. -/
theorem UpdateDisplay_fixed (m : Standard_Math R) (g : V3d_CircularGrid R) (fuel : Nat)
    (ht : MakeTransform g = false) (hs : Spec.MeshStale g = false) :
    UpdateDisplay m fuel g = Except.ok g := by
  rw [UpdateDisplay_eq_fresh m g fuel hs]
  have ha : Spec.AfterTransform m g = g := by
    unfold Spec.AfterTransform; simp [ht]
  rw [MeshStale_eq_false_iff] at hs
  rw [ha, ← hs.2.1, ← hs.1]

/-- Whenever `UpdateDisplay` returns, neither the transform nor the mesh is stale in
the state it returns. -/
theorem UpdateDisplay_post (m : Standard_Math R) (g g1 : V3d_CircularGrid R) (fuel : Nat)
    (h : UpdateDisplay m fuel g = Except.ok g1) :
    MakeTransform g1 = false ∧ Spec.MeshStale g1 = false := by
  obtain ⟨c1, c2, c3, c4⟩ := AfterTransform_coherent m g
  by_cases hs : Spec.MeshStale g = true
  · obtain ⟨n, hf, hn⟩ := UpdateDisplay_inv m g g1 fuel hs h
    rw [UpdateDisplay_eq_stale m g n fuel hs hn hf] at h
    injection h with h
    subst h
    constructor
    · rw [MakeTransform_eq_false_iff]
      simp [c1, c2, c3, c4]
    · rw [MeshStale_eq_false_iff]
      simp [Spec.PathMode]
  · rw [Bool.not_eq_true] at hs
    rw [UpdateDisplay_eq_fresh m g fuel hs] at h
    injection h with h
    subst h
    rw [MeshStale_eq_false_iff] at hs
    constructor
    · rw [MakeTransform_eq_false_iff]
      simp [c1, c2, c3, c4]
    · rw [MeshStale_eq_false_iff]
      simp [Spec.PathMode, hs.2.2.1, hs.2.2.2]

/-- `UpdateDisplay` returns as soon as the fuel allows the number of rings. -/
theorem UpdateDisplay_returns (m : Standard_Math R) (g : V3d_CircularGrid R) (n fuel : Nat)
    (hn : Spec.IsRingCount g.myRadiusStep g.myRadius n) (hf : n ≤ fuel) :
    ∃ g1 : V3d_CircularGrid R, UpdateDisplay m fuel g = Except.ok g1 := by
  by_cases hs : Spec.MeshStale g = true
  · exact ⟨_, UpdateDisplay_eq_stale m g n fuel hs hn hf⟩
  · rw [Bool.not_eq_true] at hs
    exact ⟨_, UpdateDisplay_eq_fresh m g fuel hs⟩

/-- C5: idempotence of `UpdateDisplay`. From every grid state (the viewer plane is part
of it), when a first call returns the state `g1`, a second call in succession, with
nothing changed in between, finds neither the transform nor the mesh stale (no call of
`SetTransform`, the group neither cleared nor repopulated), returns whatever the fuel
and leaves the whole state, counters of calls included, equal to `g1`. The first call
does return for every positive step, once the fuel allows floor(radius / step) rings. -/
theorem C5_update_idempotent [FloorRing R] (m : Standard_Math R) (g : V3d_CircularGrid R) :
    (∀ (fuel : Nat) (g1 : V3d_CircularGrid R), UpdateDisplay m fuel g = Except.ok g1 →
        MakeTransform g1 = false ∧ Spec.MeshStale g1 = false
        ∧ ∀ fuel2 : Nat, UpdateDisplay m fuel2 g1 = Except.ok g1)
      ∧ (0 < g.myRadiusStep → ∀ fuel : Nat, ⌊g.myRadius / g.myRadiusStep⌋₊ ≤ fuel →
          ∃ g1 : V3d_CircularGrid R, UpdateDisplay m fuel g = Except.ok g1) := by
  constructor
  · intro fuel g1 h
    obtain ⟨h1, h2⟩ := UpdateDisplay_post m g g1 fuel h
    exact ⟨h1, h2, fun fuel2 => UpdateDisplay_fixed m g1 fuel2 h1 h2⟩
  · intro hs fuel hf
    exact UpdateDisplay_returns m g _ fuel (IsRingCount_floor _ _ hs) hf

/-- Witness of C5: the grid of radius 100, step 10, division 8 in Lines mode, over the
reals: the first call returns with fuel 10, the second one with no fuel at all. -/
theorem C5_update_idempotent_witness :
    ∃ g1 : V3d_CircularGrid ℝ,
      UpdateDisplay (Standard_Math.mk Real.cos Real.sin Real.pi) 10
          (Spec.ExampleGrid 100 10 8 Aspect_GridDrawMode.Aspect_GDM_Lines 0 0)
        = Except.ok g1
      ∧ UpdateDisplay (Standard_Math.mk Real.cos Real.sin Real.pi) 0 g1 = Except.ok g1
      ∧ g1.myGroup.nbClear = 1 ∧ g1.myStructure.nbSetTransform = 2 := by
  obtain ⟨g1, h1⟩ := (C5_update_idempotent (Standard_Math.mk Real.cos Real.sin Real.pi)
    (Spec.ExampleGrid 100 10 8 Aspect_GridDrawMode.Aspect_GDM_Lines 0 0)).2
    (by norm_num [Spec.ExampleGrid]) 10 (by rw [show (Spec.ExampleGrid (100 : ℝ) 10 8
      Aspect_GridDrawMode.Aspect_GDM_Lines 0 0).myRadius / (Spec.ExampleGrid (100 : ℝ) 10 8
      Aspect_GridDrawMode.Aspect_GDM_Lines 0 0).myRadiusStep = 100 / 10 from rfl, floor_example])
  have h2 := ((C5_update_idempotent (Standard_Math.mk Real.cos Real.sin Real.pi)
    (Spec.ExampleGrid 100 10 8 Aspect_GridDrawMode.Aspect_GDM_Lines 0 0)).1 10 g1 h1).2.2 0
  refine ⟨g1, h1, h2, ?_, ?_⟩
  · rw [UpdateDisplay_eq_stale _ _ 10 10 (by simp [Spec.MeshStale, Spec.ExampleGrid,
      DefineLines_toUpdate]) IsRingCount_example (le_refl 10)] at h1
    injection h1 with h1
    subst h1
    simp [Spec.RegeneratedGroup, Spec.ExampleGrid]
  · rw [UpdateDisplay_eq_stale _ _ 10 10 (by simp [Spec.MeshStale, Spec.ExampleGrid,
      DefineLines_toUpdate]) IsRingCount_example (le_refl 10)] at h1
    injection h1 with h1
    subst h1
    simp [Spec.AfterTransform, MakeTransform, Spec.ExampleGrid, RebuildTransform,
      Graphic3d_Structure.SetTransform]

/-- The two ways in which `UpdateDisplay` returns: after a regeneration of a stale mesh
that generates a number of rings within the fuel, or without touching the group. -/
theorem UpdateDisplay_cases (m : Standard_Math R) (g g1 : V3d_CircularGrid R) (fuel : Nat)
    (h : UpdateDisplay m fuel g = Except.ok g1) :
    (Spec.MeshStale g = true
        ∧ ∃ n : Nat, n ≤ fuel ∧ Spec.IsRingCount g.myRadiusStep g.myRadius n
          ∧ g1 = { Spec.AfterTransform m g with
              myGroup := Spec.RegeneratedGroup g (Spec.MeshContent m g n)
              myCurStep := g.myRadiusStep
              myCurDivi := g.myDivisionNumber
              myCurDrawMode := Spec.PathMode g
              myCurAreDefined := true })
      ∨ (Spec.MeshStale g = false
        ∧ g1 = { Spec.AfterTransform m g with
            myCurDrawMode := Spec.PathMode g
            myCurAreDefined := true }) := by
  by_cases hs : Spec.MeshStale g = true
  · left
    obtain ⟨n, hf, hn⟩ := UpdateDisplay_inv m g g1 fuel hs h
    rw [UpdateDisplay_eq_stale m g n fuel hs hn hf] at h
    injection h with h
    exact ⟨hs, n, hf, hn, h.symm⟩
  · right
    rw [Bool.not_eq_true] at hs
    rw [UpdateDisplay_eq_fresh m g fuel hs] at h
    injection h with h
    exact ⟨hs, h.symm⟩

/-- The structure returned by `UpdateDisplay` is the one left by the transform stage. -/
theorem UpdateDisplay_myStructure (m : Standard_Math R) (g g1 : V3d_CircularGrid R)
    (fuel : Nat) (h : UpdateDisplay m fuel g = Except.ok g1) :
    g1.myStructure = (Spec.AfterTransform m g).myStructure := by
  rcases UpdateDisplay_cases m g g1 fuel h with ⟨_, n, _, _, h1⟩ | ⟨_, h1⟩ <;> rw [h1]

/-- C6: `UpdateDisplay` rebuilds the transform of the structure (two calls of
`SetTransform`) iff the cache is undefined, or the rotation angle, the origin X or the
origin Y differs from the cached value, or one of the twelve components of the plane
(location, X direction, Y direction, normal) differs from the cached plane, by exact
comparison. Otherwise the structure is left as it is; this is the case when the cache
is defined and plane, angle and origin are equal to the cached values. A plane whose
normal differs from the cached one triggers a rebuild, whatever the other components. -/
theorem C6_transform_rebuild (m : Standard_Math R) (g : V3d_CircularGrid R) :
    (MakeTransform g = true ↔
        g.myCurAreDefined = false ∨ g.myRotationAngle ≠ g.myCurAngle
        ∨ g.myXOrigin ≠ g.myCurXo ∨ g.myYOrigin ≠ g.myCurYo
        ∨ g.myViewer.PrivilegedPlane.Location.x ≠ g.myCurViewPlane.Location.x
        ∨ g.myViewer.PrivilegedPlane.Location.y ≠ g.myCurViewPlane.Location.y
        ∨ g.myViewer.PrivilegedPlane.Location.z ≠ g.myCurViewPlane.Location.z
        ∨ g.myViewer.PrivilegedPlane.XDirection.x ≠ g.myCurViewPlane.XDirection.x
        ∨ g.myViewer.PrivilegedPlane.XDirection.y ≠ g.myCurViewPlane.XDirection.y
        ∨ g.myViewer.PrivilegedPlane.XDirection.z ≠ g.myCurViewPlane.XDirection.z
        ∨ g.myViewer.PrivilegedPlane.YDirection.x ≠ g.myCurViewPlane.YDirection.x
        ∨ g.myViewer.PrivilegedPlane.YDirection.y ≠ g.myCurViewPlane.YDirection.y
        ∨ g.myViewer.PrivilegedPlane.YDirection.z ≠ g.myCurViewPlane.YDirection.z
        ∨ g.myViewer.PrivilegedPlane.Direction.x ≠ g.myCurViewPlane.Direction.x
        ∨ g.myViewer.PrivilegedPlane.Direction.y ≠ g.myCurViewPlane.Direction.y
        ∨ g.myViewer.PrivilegedPlane.Direction.z ≠ g.myCurViewPlane.Direction.z)
      ∧ (∀ (fuel : Nat) (g1 : V3d_CircularGrid R), UpdateDisplay m fuel g = Except.ok g1 →
          (MakeTransform g = true →
            g1.myStructure = (RebuildTransform m g).myStructure
            ∧ g1.myStructure.nbSetTransform = g.myStructure.nbSetTransform + 2)
          ∧ (MakeTransform g = false → g1.myStructure = g.myStructure))
      ∧ (g.myCurAreDefined = true ∧ g.myRotationAngle = g.myCurAngle
          ∧ g.myXOrigin = g.myCurXo ∧ g.myYOrigin = g.myCurYo
          ∧ g.myViewer.PrivilegedPlane = g.myCurViewPlane → MakeTransform g = false)
      ∧ (g.myViewer.PrivilegedPlane.Direction ≠ g.myCurViewPlane.Direction →
          MakeTransform g = true) := by
  have hiff := MakeTransform_eq_false_iff g
  refine ⟨?_, ?_, hiff.mpr, ?_⟩
  · rw [← Bool.not_eq_false, hiff, gp_Ax3_eq_iff]
    simp only [ne_eq, not_and_or, Bool.not_eq_true]
  · intro fuel g1 h
    rw [UpdateDisplay_myStructure m g g1 fuel h]
    unfold Spec.AfterTransform
    constructor
    · intro ht
      rw [if_pos ht]
      exact ⟨rfl, rfl⟩
    · intro ht
      rw [if_neg (by simp [ht])]
  · intro hne
    rw [← Bool.not_eq_false, hiff]
    rintro ⟨_, _, _, _, hp⟩
    exact hne (by rw [hp])

theorem ExampleGrid_MeshStale (myRadius aStep : R) (d : Int) (aMode : Aspect_GridDrawMode)
    (anAngle myOffSet : R) :
    Spec.MeshStale (Spec.ExampleGrid myRadius aStep d aMode anAngle myOffSet) = true := by
  unfold Spec.MeshStale
  cases aMode <;> simp [Spec.ExampleGrid, DefineLines_toUpdate, DefinePoints_toUpdate]

/-- Witness of C6: on the example grid (undefined cache) the first update rebuilds the
transform with two calls of `SetTransform`; afterwards the transform is not stale, and
it is stale again as soon as the normal of the viewer plane is reversed. -/
theorem C6_transform_rebuild_witness :
    ∃ g1 : V3d_CircularGrid ℝ,
      UpdateDisplay (Standard_Math.mk Real.cos Real.sin Real.pi) 10
          (Spec.ExampleGrid 100 10 8 Aspect_GridDrawMode.Aspect_GDM_Lines 0 0)
        = Except.ok g1
      ∧ g1.myStructure.nbSetTransform = 2
      ∧ MakeTransform g1 = false
      ∧ MakeTransform { g1 with
          myViewer := ⟨{ (Spec.XOY : gp_Ax3 ℝ) with Direction := ⟨0, 0, -1⟩ }⟩ } = true := by
  have h1 := UpdateDisplay_eq_stale (Standard_Math.mk Real.cos Real.sin Real.pi)
    (Spec.ExampleGrid 100 10 8 Aspect_GridDrawMode.Aspect_GDM_Lines 0 0) 10 10
    (ExampleGrid_MeshStale _ _ _ _ _ _) IsRingCount_example (le_refl 10)
  have ht : MakeTransform
      (Spec.ExampleGrid (100 : ℝ) 10 8 Aspect_GridDrawMode.Aspect_GDM_Lines 0 0) = true := by
    simp [MakeTransform, Spec.ExampleGrid]
  have hc := AfterTransform_coherent (Standard_Math.mk Real.cos Real.sin Real.pi)
    (Spec.ExampleGrid 100 10 8 Aspect_GridDrawMode.Aspect_GDM_Lines 0 0)
  refine ⟨_, h1, ?_, (UpdateDisplay_post _ _ _ _ h1).1, ?_⟩
  · have h2 := (((C6_transform_rebuild (Standard_Math.mk Real.cos Real.sin Real.pi)
      (Spec.ExampleGrid 100 10 8 Aspect_GridDrawMode.Aspect_GDM_Lines 0 0)).2.1 10 _ h1).1
      ht).2
    simpa [Spec.ExampleGrid] using h2
  · apply (C6_transform_rebuild (Standard_Math.mk Real.cos Real.sin Real.pi) _).2.2.2
    simp only [hc.2.2.2]
    norm_num [Spec.ExampleGrid, Spec.XOY]

/-! ## Properties of the setters -/

theorem Invalidated_MeshStale (g : V3d_CircularGrid R) (hd : g.myCurAreDefined = false) :
    Spec.MeshStale g = true := by
  unfold Spec.MeshStale
  cases g.myDrawMode <;> simp [DefineLines_toUpdate, DefinePoints_toUpdate, hd]

theorem Invalidated_MakeTransform (g : V3d_CircularGrid R) (hd : g.myCurAreDefined = false) :
    MakeTransform g = true := by
  simp [MakeTransform, hd]

/-- What `UpdateDisplay` returns on a grid whose cache is undefined. -/
theorem UpdateDisplay_invalidated (m : Standard_Math R) (g g1 : V3d_CircularGrid R)
    (fuel : Nat) (hd : g.myCurAreDefined = false) (h : UpdateDisplay m fuel g = Except.ok g1) :
    ∃ n : Nat, n ≤ fuel ∧ Spec.IsRingCount g.myRadiusStep g.myRadius n
      ∧ g1.myGroup = Spec.RegeneratedGroup g (Spec.MeshContent m g n)
      ∧ g1.myStructure = (RebuildTransform m g).myStructure
      ∧ g1.myCurAreDefined = true
      ∧ g1.myColor = g.myColor ∧ g1.myTenthColor = g.myTenthColor
      ∧ g1.myRadius = g.myRadius ∧ g1.myOffSet = g.myOffSet := by
  have hst := UpdateDisplay_myStructure m g g1 fuel h
  have ha : Spec.AfterTransform m g = RebuildTransform m g := by
    unfold Spec.AfterTransform
    rw [if_pos (Invalidated_MakeTransform g hd)]
  rcases UpdateDisplay_cases m g g1 fuel h with ⟨_, n, hf, hn, h1⟩ | ⟨hs, _⟩
  · refine ⟨n, hf, hn, ?_, ?_, ?_, ?_, ?_, ?_, ?_⟩
    · rw [h1]
    · rw [hst, ha]
    · rw [h1]
    · rw [h1]; simp
    · rw [h1]; simp
    · rw [h1]; simp
    · rw [h1]; simp
  · rw [Invalidated_MeshStale g hd] at hs
    exact absurd hs (by simp)

/-- C7: `SetColors (primary, major)` changes the grid iff one of the two colours
differs from the current one. When both are the current colours, the call returns the
grid unchanged, whatever the fuel: no field changes, nothing is rebuilt. When one
differs, the call stores both colours, invalidates the cache and runs `UpdateDisplay`:
it returns as soon as the fuel allows the number of rings, and whenever it returns the
colours are the new ones, the transform has been rebuilt, the group has been cleared
once and holds the mesh generated with the new colours, the cache is defined again,
and the grid differs from the one before the call. -/
theorem C7_SetColors (m : Standard_Math R) (g : V3d_CircularGrid R)
    (aColor aTenthColor : Quantity_Color R) :
    (g.myColor = aColor ∧ g.myTenthColor = aTenthColor →
        ∀ fuel : Nat, SetColors m fuel aColor aTenthColor g = Except.ok g)
      ∧ (g.myColor ≠ aColor ∨ g.myTenthColor ≠ aTenthColor →
        (∀ fuel : Nat, SetColors m fuel aColor aTenthColor g
          = UpdateDisplay m fuel { g with
              myColor := aColor
              myTenthColor := aTenthColor
              myCurAreDefined := false })
        ∧ (∀ n fuel : Nat, Spec.IsRingCount g.myRadiusStep g.myRadius n → n ≤ fuel →
            ∃ g1 : V3d_CircularGrid R, SetColors m fuel aColor aTenthColor g = Except.ok g1)
        ∧ (∀ (fuel : Nat) (g1 : V3d_CircularGrid R),
            SetColors m fuel aColor aTenthColor g = Except.ok g1 →
            g1.myColor = aColor ∧ g1.myTenthColor = aTenthColor
            ∧ g1.myCurAreDefined = true
            ∧ g1.myStructure.nbSetTransform = g.myStructure.nbSetTransform + 2
            ∧ g1.myGroup.nbClear = g.myGroup.nbClear + 1
            ∧ (∃ n : Nat, n ≤ fuel ∧ Spec.IsRingCount g.myRadiusStep g.myRadius n
              ∧ g1.myGroup.content
                = Spec.MeshContent m { g with
                    myColor := aColor
                    myTenthColor := aTenthColor
                    myCurAreDefined := false } n)
            ∧ g1 ≠ g)) := by
  constructor
  · rintro ⟨h1, h2⟩ fuel
    simp [SetColors, h1, h2]
  · intro hne
    have hset : ∀ fuel : Nat, SetColors m fuel aColor aTenthColor g
        = UpdateDisplay m fuel { g with
            myColor := aColor
            myTenthColor := aTenthColor
            myCurAreDefined := false } := by
      intro fuel
      unfold SetColors
      rw [if_pos hne]
    refine ⟨hset, ?_, ?_⟩
    · intro n fuel hn hf
      rw [hset]
      exact UpdateDisplay_returns m _ n fuel hn hf
    · intro fuel g1 h
      rw [hset] at h
      obtain ⟨n, hf, hn, hg, hst, hd, hc, htc, _, _⟩ :=
        UpdateDisplay_invalidated m _ g1 fuel rfl h
      refine ⟨hc, htc, hd, ?_, ?_, ⟨n, hf, hn, ?_⟩, ?_⟩
      · rw [hst]; rfl
      · rw [hg]; rfl
      · rw [hg]; rfl
      · intro heq
        rw [heq] at hc htc
        rcases hne with h1 | h1
        · exact h1 hc
        · exact h1 htc

/-- Witness of C7: on the example grid, whose colours are red and blue, setting red and
blue again returns the grid unchanged without any fuel; setting green and blue returns
a grid with the new colour, a defined cache and a group cleared once. -/
theorem C7_SetColors_witness :
    SetColors (Standard_Math.mk Real.cos Real.sin Real.pi) 0 ⟨1, 0, 0⟩ ⟨0, 0, 1⟩
        (Spec.ExampleGrid 100 10 8 Aspect_GridDrawMode.Aspect_GDM_Lines 0 0)
      = Except.ok (Spec.ExampleGrid 100 10 8 Aspect_GridDrawMode.Aspect_GDM_Lines 0 0)
    ∧ ∃ g1 : V3d_CircularGrid ℝ,
      SetColors (Standard_Math.mk Real.cos Real.sin Real.pi) 10 ⟨0, 1, 0⟩ ⟨0, 0, 1⟩
          (Spec.ExampleGrid 100 10 8 Aspect_GridDrawMode.Aspect_GDM_Lines 0 0)
        = Except.ok g1
      ∧ g1.myColor = ⟨0, 1, 0⟩ ∧ g1.myCurAreDefined = true ∧ g1.myGroup.nbClear = 1 := by
  have hne : (Spec.ExampleGrid (100 : ℝ) 10 8 Aspect_GridDrawMode.Aspect_GDM_Lines 0 0).myColor
        ≠ ⟨0, 1, 0⟩
      ∨ (Spec.ExampleGrid (100 : ℝ) 10 8 Aspect_GridDrawMode.Aspect_GDM_Lines 0 0).myTenthColor
        ≠ ⟨0, 0, 1⟩ := by
    left
    simp [Spec.ExampleGrid]
  constructor
  · exact (C7_SetColors (Standard_Math.mk Real.cos Real.sin Real.pi)
      (Spec.ExampleGrid 100 10 8 Aspect_GridDrawMode.Aspect_GDM_Lines 0 0) ⟨1, 0, 0⟩
      ⟨0, 0, 1⟩).1 ⟨rfl, rfl⟩ 0
  · obtain ⟨_, h2, h3⟩ := (C7_SetColors (Standard_Math.mk Real.cos Real.sin Real.pi)
      (Spec.ExampleGrid 100 10 8 Aspect_GridDrawMode.Aspect_GDM_Lines 0 0) ⟨0, 1, 0⟩
      ⟨0, 0, 1⟩).2 hne
    obtain ⟨g1, hg1⟩ := h2 10 10 IsRingCount_example (le_refl 10)
    obtain ⟨c1, _, c3, _, c5, _, _⟩ := h3 10 g1 hg1
    exact ⟨g1, hg1, c1, c3, by simpa [Spec.ExampleGrid] using c5⟩

/-- C8: `SetGraphicValues (r, o)`. The call runs `UpdateDisplay`, on the grid with the
radius `r`, the offset `o` and an undefined cache, iff the cache was undefined on entry
or `r` differs from the stored radius or `o` differs from the stored offset; otherwise
it returns the grid unchanged. Whenever it returns, `GraphicValues` gives exactly
`(r, o)`, and the group has been cleared (once) iff that condition held. It returns as
soon as the fuel allows the number of rings for the radius `r`. -/
theorem C8_SetGraphicValues (m : Standard_Math R) (g : V3d_CircularGrid R)
    (theRadius theOffSet : R) :
    (∀ fuel : Nat, SetGraphicValues m fuel theRadius theOffSet g
        = if g.myCurAreDefined = false ∨ g.myRadius ≠ theRadius ∨ g.myOffSet ≠ theOffSet then
            UpdateDisplay m fuel { g with
              myRadius := theRadius
              myOffSet := theOffSet
              myCurAreDefined := false }
          else Except.ok g)
      ∧ (∀ (fuel : Nat) (g1 : V3d_CircularGrid R),
          SetGraphicValues m fuel theRadius theOffSet g = Except.ok g1 →
          GraphicValues g1 = (theRadius, theOffSet)
          ∧ (g1.myGroup.nbClear = g.myGroup.nbClear + 1 ↔
              (g.myCurAreDefined = false ∨ g.myRadius ≠ theRadius ∨ g.myOffSet ≠ theOffSet))
          ∧ (g.myCurAreDefined = true ∧ g.myRadius = theRadius ∧ g.myOffSet = theOffSet →
              g1 = g))
      ∧ (g.myCurAreDefined = true ∧ g.myRadius = theRadius ∧ g.myOffSet = theOffSet →
          ∀ fuel : Nat, SetGraphicValues m fuel theRadius theOffSet g = Except.ok g)
      ∧ (∀ n fuel : Nat, Spec.IsRingCount g.myRadiusStep theRadius n → n ≤ fuel →
          ∃ g1 : V3d_CircularGrid R,
            SetGraphicValues m fuel theRadius theOffSet g = Except.ok g1) := by
  have hset : ∀ fuel : Nat, SetGraphicValues m fuel theRadius theOffSet g
      = if g.myCurAreDefined = false ∨ g.myRadius ≠ theRadius ∨ g.myOffSet ≠ theOffSet then
          UpdateDisplay m fuel { g with
            myRadius := theRadius
            myOffSet := theOffSet
            myCurAreDefined := false }
        else Except.ok g := by
    intro fuel
    unfold SetGraphicValues
    cases hd : g.myCurAreDefined
    · simp [hd]
    · by_cases hr : g.myRadius = theRadius <;> by_cases ho : g.myOffSet = theOffSet <;>
        simp [hd, hr, ho]
  have hno : (g.myCurAreDefined = true ∧ g.myRadius = theRadius ∧ g.myOffSet = theOffSet) →
      ¬ (g.myCurAreDefined = false ∨ g.myRadius ≠ theRadius ∨ g.myOffSet ≠ theOffSet) := by
    rintro ⟨h1, h2, h3⟩ h
    rcases h with h | h | h
    · rw [h1] at h; exact absurd h (by simp)
    · exact h h2
    · exact h h3
  refine ⟨hset, ?_, ?_, ?_⟩
  · intro fuel g1 h
    rw [hset] at h
    by_cases hc : g.myCurAreDefined = false ∨ g.myRadius ≠ theRadius ∨ g.myOffSet ≠ theOffSet
    · rw [if_pos hc] at h
      obtain ⟨n, _, _, hg, _, _, _, _, hr, ho⟩ := UpdateDisplay_invalidated m _ g1 fuel rfl h
      refine ⟨?_, ?_, ?_⟩
      · unfold GraphicValues; rw [hr, ho]
      · constructor
        · intro _; exact hc
        · intro _; rw [hg]; rfl
      · intro h3; exact absurd hc (hno h3)
    · rw [if_neg hc] at h
      injection h with h
      subst h
      have hr : g.myRadius = theRadius := by
        by_contra h1; exact hc (Or.inr (Or.inl h1))
      have ho : g.myOffSet = theOffSet := by
        by_contra h1; exact hc (Or.inr (Or.inr h1))
      refine ⟨?_, ?_, fun _ => rfl⟩
      · unfold GraphicValues; rw [hr, ho]
      · constructor
        · intro h1; omega
        · intro h1; exact absurd h1 hc
  · intro h3 fuel
    rw [hset, if_neg (hno h3)]
  · intro n fuel hn hf
    rw [hset]
    by_cases hc : g.myCurAreDefined = false ∨ g.myRadius ≠ theRadius ∨ g.myOffSet ≠ theOffSet
    · rw [if_pos hc]
      exact UpdateDisplay_returns m _ n fuel hn hf
    · rw [if_neg hc]
      exact ⟨g, rfl⟩

/-- Witness of C8: on the example grid (undefined cache, radius 100) the call
`SetGraphicValues (50, 1)` runs the update and returns a grid whose graphic values are
(50, 1), with the group cleared once; the same call on the grid it returns changes
nothing and needs no fuel. -/
theorem C8_SetGraphicValues_witness :
    ∃ g1 : V3d_CircularGrid ℝ,
      SetGraphicValues (Standard_Math.mk Real.cos Real.sin Real.pi) 5 50 1
          (Spec.ExampleGrid 100 10 8 Aspect_GridDrawMode.Aspect_GDM_Lines 0 0)
        = Except.ok g1
      ∧ GraphicValues g1 = (50, 1)
      ∧ g1.myGroup.nbClear = 1
      ∧ SetGraphicValues (Standard_Math.mk Real.cos Real.sin Real.pi) 0 50 1 g1
        = Except.ok g1 := by
  have hn : Spec.IsRingCount (10 : ℝ) 50 5 := by
    constructor
    · intro j hj
      have h : (j : ℝ) ≤ 4 := by exact_mod_cast (by omega : j ≤ 4)
      linarith
    · norm_num
  obtain ⟨g1, hg1⟩ := (C8_SetGraphicValues (Standard_Math.mk Real.cos Real.sin Real.pi)
    (Spec.ExampleGrid 100 10 8 Aspect_GridDrawMode.Aspect_GDM_Lines 0 0) 50 1).2.2.2 5 5 hn
    (le_refl 5)
  obtain ⟨c1, c2, _⟩ := (C8_SetGraphicValues (Standard_Math.mk Real.cos Real.sin Real.pi)
    (Spec.ExampleGrid 100 10 8 Aspect_GridDrawMode.Aspect_GDM_Lines 0 0) 50 1).2.1 5 g1 hg1
  have hd : g1.myCurAreDefined = true := by
    have hcond : (Spec.ExampleGrid (100 : ℝ) 10 8 Aspect_GridDrawMode.Aspect_GDM_Lines 0
          0).myCurAreDefined = false
        ∨ (Spec.ExampleGrid (100 : ℝ) 10 8 Aspect_GridDrawMode.Aspect_GDM_Lines 0 0).myRadius
          ≠ 50
        ∨ (Spec.ExampleGrid (100 : ℝ) 10 8 Aspect_GridDrawMode.Aspect_GDM_Lines 0 0).myOffSet
          ≠ 1 := Or.inl rfl
    rw [(C8_SetGraphicValues (Standard_Math.mk Real.cos Real.sin Real.pi)
      (Spec.ExampleGrid 100 10 8 Aspect_GridDrawMode.Aspect_GDM_Lines 0 0) 50 1).1 5,
      if_pos hcond] at hg1
    obtain ⟨_, _, _, _, _, hd, _⟩ := UpdateDisplay_invalidated _ _ g1 5 rfl hg1
    exact hd
  have c3 : g1.myRadius = 50 ∧ g1.myOffSet = 1 := by
    simpa [GraphicValues] using c1
  refine ⟨g1, hg1, c1, ?_, ?_⟩
  · have := c2.mpr (Or.inl rfl)
    simpa [Spec.ExampleGrid] using this
  · exact (C8_SetGraphicValues (Standard_Math.mk Real.cos Real.sin Real.pi) g1 50 1).2.2.1
      ⟨hd, c3.1, c3.2⟩ 0

/-! ## The transform -/

/-- The first matrix of `UpdateDisplay`: the columns are the X direction, the Y
direction, the normal and the location of the plane; the last row is (0, 0, 0, 1). -/
theorem PlaneTrsf_eq (P : gp_Ax3 R) :
    PlaneTrsf P
      = !![P.XDirection.x, P.YDirection.x, P.Direction.x, P.Location.x;
           P.XDirection.y, P.YDirection.y, P.Direction.y, P.Location.y;
           P.XDirection.z, P.YDirection.z, P.Direction.z, P.Location.z;
           0, 0, 0, 1] := by
  have h3 : ((3 : Fin 4) : Nat) = 3 := rfl
  ext i j
  fin_cases i <;> fin_cases j <;> simp [PlaneTrsf, TColStd_Array2OfReal.SetValue, h3]

/-- The second matrix of `UpdateDisplay`, built in the array that holds the first one. -/
theorem OriginTrsf_eq (m : Standard_Math R) (P : gp_Ax3 R) (a xo yo : R) :
    OriginTrsf m (PlaneTrsf P) a xo yo
      = !![m.Cos a, m.Sin a, 0, -xo;
           -m.Sin a, m.Cos a, 0, -yo;
           0, 0, 1, 0;
           0, 0, 0, 1] := by
  have h3 : ((3 : Fin 4) : Nat) = 3 := rfl
  ext i j
  fin_cases i <;> fin_cases j <;>
    simp [OriginTrsf, PlaneTrsf, TColStd_Array2OfReal.SetValue, h3] <;> rfl

theorem RebuildTransform_Transformation (m : Standard_Math R) (g : V3d_CircularGrid R) :
    (RebuildTransform m g).myStructure.Transformation
      = PlaneTrsf g.myViewer.PrivilegedPlane
        * OriginTrsf m (PlaneTrsf g.myViewer.PrivilegedPlane) g.myRotationAngle g.myXOrigin
          g.myYOrigin := rfl

/-- Counterexample to C9 as stated: with the rotation angle pi / 2 (plane XOY, origin
(0, 0), real cosine and sine) the update rebuilds the transform, and the transform
bound to the structure is not the product of the plane matrix by the rotation of angle
a about Z with rows (cos a, - sin a, 0), (sin a, cos a, 0), (0, 0, 1): its entry of
row 1 and column 2 is sin (pi / 2) = 1, where that product has - sin (pi / 2) = -1. -/
theorem C9_counterexample :
    ∃ g1 : V3d_CircularGrid ℝ,
      UpdateDisplay (Standard_Math.mk Real.cos Real.sin Real.pi) 10
          (Spec.ExampleGrid 100 10 8 Aspect_GridDrawMode.Aspect_GDM_Lines (Real.pi / 2) 0)
        = Except.ok g1
      ∧ MakeTransform
          (Spec.ExampleGrid 100 10 8 Aspect_GridDrawMode.Aspect_GDM_Lines (Real.pi / 2) 0) = true
      ∧ g1.myStructure.Transformation 0 1 = 1
      ∧ ((!![1, 0, 0, 0; 0, 1, 0, 0; 0, 0, 1, 0; 0, 0, 0, 1] : Matrix (Fin 4) (Fin 4) ℝ)
          * !![Real.cos (Real.pi / 2), -Real.sin (Real.pi / 2), 0, -0;
               Real.sin (Real.pi / 2), Real.cos (Real.pi / 2), 0, -0;
               0, 0, 1, 0;
               0, 0, 0, 1]) 0 1 = -1
      ∧ g1.myStructure.Transformation
        ≠ (!![1, 0, 0, 0; 0, 1, 0, 0; 0, 0, 1, 0; 0, 0, 0, 1] : Matrix (Fin 4) (Fin 4) ℝ)
          * !![Real.cos (Real.pi / 2), -Real.sin (Real.pi / 2), 0, -0;
               Real.sin (Real.pi / 2), Real.cos (Real.pi / 2), 0, -0;
               0, 0, 1, 0;
               0, 0, 0, 1] := by
  have h1 := UpdateDisplay_eq_stale (Standard_Math.mk Real.cos Real.sin Real.pi)
    (Spec.ExampleGrid 100 10 8 Aspect_GridDrawMode.Aspect_GDM_Lines (Real.pi / 2) 0) 10 10
    (ExampleGrid_MeshStale _ _ _ _ _ _) IsRingCount_example (le_refl 10)
  have ht : MakeTransform (Spec.ExampleGrid (100 : ℝ) 10 8
      Aspect_GridDrawMode.Aspect_GDM_Lines (Real.pi / 2) 0) = true := by
    simp [MakeTransform, Spec.ExampleGrid]
  have hst := UpdateDisplay_myStructure _ _ _ _ h1
  have e1 : (Spec.AfterTransform (Standard_Math.mk Real.cos Real.sin Real.pi)
      (Spec.ExampleGrid 100 10 8 Aspect_GridDrawMode.Aspect_GDM_Lines (Real.pi / 2)
        0)).myStructure.Transformation 0 1 = 1 := by
    unfold Spec.AfterTransform
    rw [if_pos ht, RebuildTransform_Transformation, OriginTrsf_eq, PlaneTrsf_eq]
    simp [Matrix.mul_apply, Fin.sum_univ_four, Spec.ExampleGrid, Spec.XOY]
  have e2 : ((!![1, 0, 0, 0; 0, 1, 0, 0; 0, 0, 1, 0; 0, 0, 0, 1] : Matrix (Fin 4) (Fin 4) ℝ)
      * !![Real.cos (Real.pi / 2), -Real.sin (Real.pi / 2), 0, -0;
           Real.sin (Real.pi / 2), Real.cos (Real.pi / 2), 0, -0;
           0, 0, 1, 0;
           0, 0, 0, 1]) 0 1 = -1 := by
    simp [Matrix.mul_apply, Fin.sum_univ_four]
  refine ⟨_, h1, ht, ?_, e2, ?_⟩
  · rw [hst]; exact e1
  · intro heq
    have h3 := congrFun (congrFun heq 0) 1
    rw [e2, hst, e1] at h3
    norm_num at h3

/-- C9 (amended): whenever `UpdateDisplay` rebuilds the transform for the plane
(origin O, X direction X, Y direction Y, normal N), the angle a and the origin
(xo, yo), the transform bound to the structure is the product M1 * M2 of two 4 x 4
matrices with last row (0, 0, 0, 1): M1 has the rotation columns X, Y, N and the
translation column O; M2 has the translation column (- xo, - yo, 0) and the rotation
block with rows (cos a, sin a, 0), (- sin a, cos a, 0), (0, 0, 1), the rotation of
angle a about the axis - Z. This is the transformation left by the rebuild
(`RebuildTransform`), and the one of the state returned by `UpdateDisplay`. -/
theorem C9_transform_product (m : Standard_Math R) (g : V3d_CircularGrid R) :
    (RebuildTransform m g).myStructure.Transformation
        = !![g.myViewer.PrivilegedPlane.XDirection.x, g.myViewer.PrivilegedPlane.YDirection.x,
              g.myViewer.PrivilegedPlane.Direction.x, g.myViewer.PrivilegedPlane.Location.x;
             g.myViewer.PrivilegedPlane.XDirection.y, g.myViewer.PrivilegedPlane.YDirection.y,
              g.myViewer.PrivilegedPlane.Direction.y, g.myViewer.PrivilegedPlane.Location.y;
             g.myViewer.PrivilegedPlane.XDirection.z, g.myViewer.PrivilegedPlane.YDirection.z,
              g.myViewer.PrivilegedPlane.Direction.z, g.myViewer.PrivilegedPlane.Location.z;
             0, 0, 0, 1]
          * !![m.Cos g.myRotationAngle, m.Sin g.myRotationAngle, 0, -g.myXOrigin;
               -m.Sin g.myRotationAngle, m.Cos g.myRotationAngle, 0, -g.myYOrigin;
               0, 0, 1, 0;
               0, 0, 0, 1]
      ∧ ∀ (fuel : Nat) (g1 : V3d_CircularGrid R), MakeTransform g = true →
          UpdateDisplay m fuel g = Except.ok g1 →
          g1.myStructure.Transformation = (RebuildTransform m g).myStructure.Transformation
          ∧ g1.myStructure.nbSetTransform = g.myStructure.nbSetTransform + 2 := by
  constructor
  · rw [RebuildTransform_Transformation, OriginTrsf_eq, PlaneTrsf_eq]
  · intro fuel g1 ht h
    rw [UpdateDisplay_myStructure m g g1 fuel h]
    unfold Spec.AfterTransform
    rw [if_pos ht]
    exact ⟨rfl, rfl⟩

/-- Witness of C9 (amended): the update of the example grid with the rotation angle
pi / 2 rebuilds the transform. -/
theorem C9_transform_product_witness :
    ∃ g1 : V3d_CircularGrid ℝ,
      UpdateDisplay (Standard_Math.mk Real.cos Real.sin Real.pi) 10
          (Spec.ExampleGrid 100 10 8 Aspect_GridDrawMode.Aspect_GDM_Lines (Real.pi / 2) 0)
        = Except.ok g1
      ∧ g1.myStructure.Transformation
        = (RebuildTransform (Standard_Math.mk Real.cos Real.sin Real.pi)
          (Spec.ExampleGrid 100 10 8 Aspect_GridDrawMode.Aspect_GDM_Lines (Real.pi / 2)
            0)).myStructure.Transformation
      ∧ g1.myStructure.nbSetTransform = 2 := by
  have h1 := UpdateDisplay_eq_stale (Standard_Math.mk Real.cos Real.sin Real.pi)
    (Spec.ExampleGrid 100 10 8 Aspect_GridDrawMode.Aspect_GDM_Lines (Real.pi / 2) 0) 10 10
    (ExampleGrid_MeshStale _ _ _ _ _ _) IsRingCount_example (le_refl 10)
  have ht : MakeTransform (Spec.ExampleGrid (100 : ℝ) 10 8
      Aspect_GridDrawMode.Aspect_GDM_Lines (Real.pi / 2) 0) = true := by
    simp [MakeTransform, Spec.ExampleGrid]
  obtain ⟨c1, c2⟩ := (C9_transform_product (Standard_Math.mk Real.cos Real.sin Real.pi)
    (Spec.ExampleGrid 100 10 8 Aspect_GridDrawMode.Aspect_GDM_Lines (Real.pi / 2) 0)).2 10 _
    ht h1
  exact ⟨_, h1, c1, by simpa [Spec.ExampleGrid] using c2⟩

/-! ## The mesh in Points mode -/

theorem Arrays_PointsContent (m : Standard_Math R) (g : V3d_CircularGrid R) (n : Nat) :
    Spec.Arrays (Spec.PointsContent m g n)
      = [Graphic3d_Array.ArrayOfPoints (Spec.PointsVertices m g n)] := by
  simp [Spec.Arrays, Spec.PointsContent]

theorem PointsVertices_length (m : Standard_Math R) (g : V3d_CircularGrid R) (n : Nat) :
    (Spec.PointsVertices m g n).length = 1 + n * (2 * g.myDivisionNumber).toNat := by
  unfold Spec.PointsVertices
  rw [List.length_cons, Rings_length, List.length_range]
  ring

/-- Counterexample to C11 as stated: on the example grid in the draw mode None (cache
undefined, radius 100, step 10, division 8) `UpdateDisplay` generates the mesh of the
points: the group is cleared and receives one primitive array, of 161 points. -/
theorem C11_counterexample :
    ∃ (g1 : V3d_CircularGrid ℝ) (v : List (gp_Pnt ℝ)),
      (Spec.ExampleGrid (100 : ℝ) 10 8 Aspect_GridDrawMode.Aspect_GDM_None 0 0).myDrawMode
        = Aspect_GridDrawMode.Aspect_GDM_None
      ∧ UpdateDisplay (Standard_Math.mk Real.cos Real.sin Real.pi) 10
          (Spec.ExampleGrid 100 10 8 Aspect_GridDrawMode.Aspect_GDM_None 0 0)
        = Except.ok g1
      ∧ Spec.Arrays g1.myGroup.content = [Graphic3d_Array.ArrayOfPoints v]
      ∧ v.length = 161
      ∧ g1.myGroup.nbClear = 1 := by
  have h1 := UpdateDisplay_eq_stale (Standard_Math.mk Real.cos Real.sin Real.pi)
    (Spec.ExampleGrid 100 10 8 Aspect_GridDrawMode.Aspect_GDM_None 0 0) 10 10
    (ExampleGrid_MeshStale _ _ _ _ _ _) IsRingCount_example (le_refl 10)
  refine ⟨_, Spec.PointsVertices (Standard_Math.mk Real.cos Real.sin Real.pi)
    (Spec.ExampleGrid 100 10 8 Aspect_GridDrawMode.Aspect_GDM_None 0 0) 10, rfl, h1, ?_, ?_,
    rfl⟩
  · exact Arrays_PointsContent _ _ _
  · rw [PointsVertices_length]
    simp [Spec.ExampleGrid]

/-- C11 (amended): when the draw mode is None, `UpdateDisplay` takes the default branch
of its switch, the one of the draw mode Points (the case of None is compiled out): it
runs `DefinePoints` and records Points as cached draw mode. It performs no mesh
generation, and leaves the group as it is, exactly when the test of `DefinePoints`
finds the mesh up to date; when that test finds it stale (undefined cache, cached draw
mode other than Points, changed step or division), every call that returns has cleared
the group and added exactly one primitive array, the point array. The call returns as
soon as the fuel allows the number of rings. -/
theorem C11_none_mode (m : Standard_Math R) (g : V3d_CircularGrid R)
    (hmode : g.myDrawMode = Aspect_GridDrawMode.Aspect_GDM_None) :
    (∀ (fuel : Nat) (g1 : V3d_CircularGrid R), UpdateDisplay m fuel g = Except.ok g1 →
        g1.myCurDrawMode = Aspect_GridDrawMode.Aspect_GDM_Points
        ∧ (DefinePoints_toUpdate g = false → g1.myGroup = g.myGroup)
        ∧ (DefinePoints_toUpdate g = true →
            ∃ n : Nat, n ≤ fuel ∧ Spec.IsRingCount g.myRadiusStep g.myRadius n
              ∧ g1.myGroup.nbClear = g.myGroup.nbClear + 1
              ∧ g1.myGroup.content = Spec.PointsContent m g n
              ∧ Spec.Arrays g1.myGroup.content
                = [Graphic3d_Array.ArrayOfPoints (Spec.PointsVertices m g n)]))
      ∧ (DefinePoints_toUpdate g = false →
          ∀ fuel : Nat, ∃ g1 : V3d_CircularGrid R,
            UpdateDisplay m fuel g = Except.ok g1 ∧ g1.myGroup = g.myGroup)
      ∧ (∀ n fuel : Nat, Spec.IsRingCount g.myRadiusStep g.myRadius n → n ≤ fuel →
          ∃ g1 : V3d_CircularGrid R, UpdateDisplay m fuel g = Except.ok g1) := by
  have hst : Spec.MeshStale g = DefinePoints_toUpdate g := by
    unfold Spec.MeshStale; rw [hmode]
  have hpm : Spec.PathMode g = Aspect_GridDrawMode.Aspect_GDM_Points := by
    unfold Spec.PathMode; rw [hmode]
  have hmc : ∀ n : Nat, Spec.MeshContent m g n = Spec.PointsContent m g n := by
    intro n; unfold Spec.MeshContent; rw [hmode]
  refine ⟨?_, ?_, fun n fuel hn hf => UpdateDisplay_returns m g n fuel hn hf⟩
  · intro fuel g1 h
    rcases UpdateDisplay_cases m g g1 fuel h with ⟨hs, n, hf, hn, h1⟩ | ⟨hs, h1⟩
    · rw [hst] at hs
      refine ⟨by rw [h1, hpm], ?_, ?_⟩
      · intro h2; rw [hs] at h2; exact absurd h2 (by simp)
      · intro _
        refine ⟨n, hf, hn, by rw [h1]; rfl, by rw [h1, hmc]; rfl, ?_⟩
        rw [h1]
        simp only [hmc, Spec.RegeneratedGroup]
        exact Arrays_PointsContent m g n
    · rw [hst] at hs
      refine ⟨by rw [h1, hpm], ?_, ?_⟩
      · intro _; rw [h1]; simp
      · intro h2; rw [hs] at h2; exact absurd h2 (by simp)
  · intro hs fuel
    rw [← hst] at hs
    exact ⟨_, UpdateDisplay_eq_fresh m g fuel hs, by simp⟩

/-- Witness of C11 (amended): the example grid in the draw mode None. -/
theorem C11_none_mode_witness :
    (Spec.ExampleGrid (100 : ℝ) 10 8 Aspect_GridDrawMode.Aspect_GDM_None 0 0).myDrawMode
        = Aspect_GridDrawMode.Aspect_GDM_None
      ∧ ∃ g1 : V3d_CircularGrid ℝ,
        UpdateDisplay (Standard_Math.mk Real.cos Real.sin Real.pi) 10
            (Spec.ExampleGrid 100 10 8 Aspect_GridDrawMode.Aspect_GDM_None 0 0)
          = Except.ok g1
        ∧ g1.myCurDrawMode = Aspect_GridDrawMode.Aspect_GDM_Points :=
  ⟨rfl, by
    obtain ⟨h1, _, h3⟩ := C11_none_mode (Standard_Math.mk Real.cos Real.sin Real.pi)
      (Spec.ExampleGrid 100 10 8 Aspect_GridDrawMode.Aspect_GDM_None 0 0) rfl
    obtain ⟨g1, hg1⟩ := h3 10 10 IsRingCount_example (le_refl 10)
    exact ⟨g1, hg1, (h1 10 g1 hg1).1⟩⟩

/-! ## The clamping of the division count -/

/-- Counterexample to C12 as stated: with radius 100, step 10 and offset 0, the
diameter segments generated for the division number 4 are not those generated for the
division number 8: the fourth diameter ends at (-100, 0, 0) for 4 and at (0, 100, 0)
for 8. -/
theorem C12_counterexample :
    ∃ (g4 g8 : V3d_CircularGrid ℝ) (v4 v8 : List (gp_Pnt ℝ)),
      DefineLines (Standard_Math.mk Real.cos Real.sin Real.pi) 10
          (Spec.ExampleGrid 100 10 4 Aspect_GridDrawMode.Aspect_GDM_Lines 0 0)
        = Except.ok g4
      ∧ DefineLines (Standard_Math.mk Real.cos Real.sin Real.pi) 10
          (Spec.ExampleGrid 100 10 8 Aspect_GridDrawMode.Aspect_GDM_Lines 0 0)
        = Except.ok g8
      ∧ g4.myGroup.content[1]?
        = some (GroupCall.AddPrimitiveArray (Graphic3d_Array.ArrayOfSegments v4))
      ∧ g8.myGroup.content[1]?
        = some (GroupCall.AddPrimitiveArray (Graphic3d_Array.ArrayOfSegments v8))
      ∧ v4[7]? = some ⟨-100, 0, 0⟩
      ∧ v8[7]? = some ⟨0, 100, 0⟩
      ∧ v4 ≠ v8
      ∧ g4.myGroup.content ≠ g8.myGroup.content := by
  have h4 := DefineLines_eq (Standard_Math.mk Real.cos Real.sin Real.pi)
    (Spec.ExampleGrid 100 10 4 Aspect_GridDrawMode.Aspect_GDM_Lines 0 0) 10 10
    (ExampleGrid_LinesStale _ _ _ _ _ _) IsRingCount_example (le_refl 10)
  have h8 := DefineLines_eq (Standard_Math.mk Real.cos Real.sin Real.pi)
    (Spec.ExampleGrid 100 10 8 Aspect_GridDrawMode.Aspect_GDM_Lines 0 0) 10 10
    (ExampleGrid_LinesStale _ _ _ _ _ _) IsRingCount_example (le_refl 10)
  have e4 := (DiameterVertices_getElem (Standard_Math.mk Real.cos Real.sin Real.pi)
    (Real.pi / ((4 : Int) : ℝ)) (2 * 8) (100 : ℝ) 0 3 (by decide)).2
  have e8 := (DiameterVertices_getElem (Standard_Math.mk Real.cos Real.sin Real.pi)
    (Real.pi / ((8 : Int) : ℝ)) (2 * 8) (100 : ℝ) 0 3 (by decide)).2
  have a4 : Real.pi / ((4 : Int) : ℝ) * (((3 : Nat) : ℝ) + 1) = Real.pi := by
    push_cast; ring
  have a8 : Real.pi / ((8 : Int) : ℝ) * (((3 : Nat) : ℝ) + 1) = Real.pi / 2 := by
    push_cast; ring
  rw [a4] at e4
  rw [a8] at e8
  have f4 : (DiameterVertices (Standard_Math.mk Real.cos Real.sin Real.pi)
      (Real.pi / ((4 : Int) : ℝ)) (2 * 8) (100 : ℝ) 0)[7]? = some ⟨-100, 0, 0⟩ := by
    rw [show (7 : Nat) = 2 * 3 + 1 from rfl, e4]; simp
  have f8 : (DiameterVertices (Standard_Math.mk Real.cos Real.sin Real.pi)
      (Real.pi / ((8 : Int) : ℝ)) (2 * 8) (100 : ℝ) 0)[7]? = some ⟨0, 100, 0⟩ := by
    rw [show (7 : Nat) = 2 * 3 + 1 from rfl, e8]; simp
  have hne : DiameterVertices (Standard_Math.mk Real.cos Real.sin Real.pi)
      (Real.pi / ((4 : Int) : ℝ)) (2 * 8) (100 : ℝ) 0
      ≠ DiameterVertices (Standard_Math.mk Real.cos Real.sin Real.pi)
        (Real.pi / ((8 : Int) : ℝ)) (2 * 8) (100 : ℝ) 0 := by
    intro heq
    rw [heq, f8] at f4
    norm_num at f4
  have hD4 : Spec.ClampedDivision
      (Spec.ExampleGrid (100 : ℝ) 10 4 Aspect_GridDrawMode.Aspect_GDM_Lines 0 0) = 8 := by
    simp [Spec.ClampedDivision, Spec.ExampleGrid, DIVISION]
  have hD8 : Spec.ClampedDivision
      (Spec.ExampleGrid (100 : ℝ) 10 8 Aspect_GridDrawMode.Aspect_GDM_Lines 0 0) = 8 := by
    simp [Spec.ClampedDivision, Spec.ExampleGrid, DIVISION]
  have c4 : (Spec.LinesContent (Standard_Math.mk Real.cos Real.sin Real.pi)
      (Spec.ExampleGrid 100 10 4 Aspect_GridDrawMode.Aspect_GDM_Lines 0 0) 10)[1]?
      = some (GroupCall.AddPrimitiveArray (Graphic3d_Array.ArrayOfSegments
        (DiameterVertices (Standard_Math.mk Real.cos Real.sin Real.pi)
          (Real.pi / ((4 : Int) : ℝ)) (2 * 8) (100 : ℝ) 0))) := by
    simp only [Spec.LinesContent, hD4]
    simp [Spec.ExampleGrid]
  have c8 : (Spec.LinesContent (Standard_Math.mk Real.cos Real.sin Real.pi)
      (Spec.ExampleGrid 100 10 8 Aspect_GridDrawMode.Aspect_GDM_Lines 0 0) 10)[1]?
      = some (GroupCall.AddPrimitiveArray (Graphic3d_Array.ArrayOfSegments
        (DiameterVertices (Standard_Math.mk Real.cos Real.sin Real.pi)
          (Real.pi / ((8 : Int) : ℝ)) (2 * 8) (100 : ℝ) 0))) := by
    simp only [Spec.LinesContent, hD8]
    simp [Spec.ExampleGrid]
  refine ⟨_, _, _, _, h4, h8, c4, c8, f4, f8, hne, ?_⟩
  intro heq
  have h1 : (Spec.LinesContent (Standard_Math.mk Real.cos Real.sin Real.pi)
      (Spec.ExampleGrid 100 10 4 Aspect_GridDrawMode.Aspect_GDM_Lines 0 0) 10)[1]?
      = (Spec.LinesContent (Standard_Math.mk Real.cos Real.sin Real.pi)
      (Spec.ExampleGrid 100 10 8 Aspect_GridDrawMode.Aspect_GDM_Lines 0 0) 10)[1]? := by
    have h2 := congrArg (fun l => l[1]?) heq
    exact h2
  rw [c4, c8] at h1
  injection h1 with h1
  injection h1 with h1
  injection h1 with h1
  exact hne h1

/-- C12 (amended): silent clamping of the division count in Lines mode. For every
division number `d` below 8 (and every radius, step, offset) a regeneration by
`DefineLines` raises no error and returns as soon as the fuel allows the number of
rings, like the regeneration for the division number 8; the ring polylines, with their
aspects, and the bounding box are identical to those generated for 8. The segment
array holds 16 diameters in both cases, but the `k`-th diameter ends at the angle
`k * pi / d` for `d` and at `k * pi / 8` for 8. -/
theorem C12_clamped_rings (m : Standard_Math R) (g : V3d_CircularGrid R) (n fuel : Nat)
    (hd : g.myDivisionNumber < 8)
    (hu : DefineLines_toUpdate g = true)
    (hu8 : DefineLines_toUpdate { g with myDivisionNumber := 8 } = true)
    (hn : Spec.IsRingCount g.myRadiusStep g.myRadius n) (hf : n ≤ fuel) :
    ∃ (g1 g2 : V3d_CircularGrid R) (v1 v2 : List (gp_Pnt R)),
      DefineLines m fuel g = Except.ok g1
      ∧ DefineLines m fuel { g with myDivisionNumber := 8 } = Except.ok g2
      ∧ g1.myGroup.content.drop 2 = g2.myGroup.content.drop 2
      ∧ g1.myGroup.content[0]? = g2.myGroup.content[0]?
      ∧ g1.myGroup.minMax = g2.myGroup.minMax
      ∧ g1.myGroup.content[1]?
        = some (GroupCall.AddPrimitiveArray (Graphic3d_Array.ArrayOfSegments v1))
      ∧ g2.myGroup.content[1]?
        = some (GroupCall.AddPrimitiveArray (Graphic3d_Array.ArrayOfSegments v2))
      ∧ v1.length = 2 * 16 ∧ v2.length = 2 * 16
      ∧ ∀ j : Nat, j < 16 →
          v1[2 * j]? = some ⟨0, 0, -g.myOffSet⟩
          ∧ v2[2 * j]? = some ⟨0, 0, -g.myOffSet⟩
          ∧ v1[2 * j + 1]?
            = some ⟨g.myRadius * m.Cos (((j : R) + 1) * m.M_PI / (g.myDivisionNumber : R)),
                g.myRadius * m.Sin (((j : R) + 1) * m.M_PI / (g.myDivisionNumber : R)),
                -g.myOffSet⟩
          ∧ v2[2 * j + 1]?
            = some ⟨g.myRadius * m.Cos (((j : R) + 1) * m.M_PI / 8),
                g.myRadius * m.Sin (((j : R) + 1) * m.M_PI / 8), -g.myOffSet⟩ := by
  have hD : Spec.ClampedDivision g = 8 := by
    unfold Spec.ClampedDivision DIVISION
    exact max_eq_right (le_of_lt hd)
  have hD8 : Spec.ClampedDivision { g with myDivisionNumber := 8 } = 8 := by
    unfold Spec.ClampedDivision DIVISION
    simp
  refine ⟨_, _, DiameterVertices m (m.M_PI / (g.myDivisionNumber : R)) (2 * 8) g.myRadius
      g.myOffSet,
    DiameterVertices m (m.M_PI / ((8 : Int) : R)) (2 * 8) g.myRadius g.myOffSet,
    DefineLines_eq m g n fuel hu hn hf,
    DefineLines_eq m { g with myDivisionNumber := 8 } n fuel hu8 hn hf,
    ?_, ?_, rfl, ?_, ?_, ?_, ?_, ?_⟩
  · simp only [Spec.RegeneratedGroup, Spec.LinesContent, hD, hD8]
    simp
  · simp [Spec.RegeneratedGroup, Spec.LinesContent]
  · simp only [Spec.RegeneratedGroup, Spec.LinesContent, hD]
    simp
  · simp only [Spec.RegeneratedGroup, Spec.LinesContent, hD8]
    simp
  · rw [DiameterVertices_length]; rfl
  · rw [DiameterVertices_length]; rfl
  · intro j hj
    obtain ⟨h1, h2⟩ := DiameterVertices_getElem m (m.M_PI / (g.myDivisionNumber : R))
      (2 * 8) g.myRadius g.myOffSet j (by omega)
    obtain ⟨h3, h4⟩ := DiameterVertices_getElem m (m.M_PI / ((8 : Int) : R))
      (2 * 8) g.myRadius g.myOffSet j (by omega)
    refine ⟨h1, h3, ?_, ?_⟩
    · rw [h2]
      simp only [Option.some.injEq, gp_Pnt.mk.injEq, and_true]
      constructor
      · rw [mul_comm]; congr 2; ring
      · rw [mul_comm]; congr 2; ring
    · rw [h4]
      simp only [Option.some.injEq, gp_Pnt.mk.injEq, and_true]
      constructor
      · rw [mul_comm]; congr 2; push_cast; ring
      · rw [mul_comm]; congr 2; push_cast; ring

/-- Witness of C12 (amended): the example grid with the division number 4. -/
theorem C12_clamped_rings_witness :
    Spec.IsRingCount (10 : ℝ) 100 10
      ∧ ∃ g1 g2 : V3d_CircularGrid ℝ,
        DefineLines (Standard_Math.mk Real.cos Real.sin Real.pi) 10
            (Spec.ExampleGrid 100 10 4 Aspect_GridDrawMode.Aspect_GDM_Lines 0 0)
          = Except.ok g1
        ∧ DefineLines (Standard_Math.mk Real.cos Real.sin Real.pi) 10
            { Spec.ExampleGrid (100 : ℝ) 10 4 Aspect_GridDrawMode.Aspect_GDM_Lines 0 0 with
              myDivisionNumber := 8 }
          = Except.ok g2
        ∧ g1.myGroup.content.drop 2 = g2.myGroup.content.drop 2 :=
  ⟨IsRingCount_example, by
    obtain ⟨g1, g2, _, _, h1, h2, h3, _⟩ := C12_clamped_rings
      (Standard_Math.mk Real.cos Real.sin Real.pi)
      (Spec.ExampleGrid 100 10 4 Aspect_GridDrawMode.Aspect_GDM_Lines 0 0) 10 10
      (by simp [Spec.ExampleGrid]) (ExampleGrid_LinesStale _ _ _ _ _ _)
      (by simp [DefineLines_toUpdate, Spec.ExampleGrid]) IsRingCount_example (le_refl 10)
    exact ⟨g1, g2, h1, h2, h3⟩⟩

/-! ## The layout of the group -/

theorem MajorIndices_ten : Spec.MajorIndices 10 = [0] := by decide

theorem MinorIndices_ten : Spec.MinorIndices 10 = [1, 2, 3, 4, 5, 6, 7, 8, 9] := by decide

/-- C13: end to end, for the grid with radius 100, offset 0.2, step 10, division 8, the
draw mode Lines and the colours primary red, major blue (over the reals, cache
undefined): the update returns with fuel 10 and the group holds the blue line aspect
and the segment array of 16 diameters, the blue line aspect and the polyline array of
the one major ring (one bound of 17 vertices, the ring of radius 10), the red line
aspect and the polyline array of the 9 minor rings (9 bounds of 17 vertices, the rings
of radius 20 to 100): 10 rings in total. The bounding box is (-100, -100, 0) -
(100, 100, 0). -/
theorem C13_end_to_end :
    ∃ (g1 : V3d_CircularGrid ℝ) (v major minor : List (gp_Pnt ℝ)),
      UpdateDisplay (Standard_Math.mk Real.cos Real.sin Real.pi) 10
          (Spec.ExampleGrid 100 10 8 Aspect_GridDrawMode.Aspect_GDM_Lines 0 (1 / 5))
        = Except.ok g1
      ∧ g1.myGroup.content
        = [GroupCall.SetGroupPrimitivesAspect
            (Graphic3d_Aspect.AspectLine3d ⟨0, 0, 1⟩ Aspect_TypeOfLine.Aspect_TOL_SOLID 1),
          GroupCall.AddPrimitiveArray (Graphic3d_Array.ArrayOfSegments v),
          GroupCall.SetGroupPrimitivesAspect
            (Graphic3d_Aspect.AspectLine3d ⟨0, 0, 1⟩ Aspect_TypeOfLine.Aspect_TOL_SOLID 1),
          GroupCall.AddPrimitiveArray (Graphic3d_Array.ArrayOfPolylines [17] major),
          GroupCall.SetPrimitivesAspect
            (Graphic3d_Aspect.AspectLine3d ⟨1, 0, 0⟩ Aspect_TypeOfLine.Aspect_TOL_SOLID 1),
          GroupCall.AddPrimitiveArray
            (Graphic3d_Array.ArrayOfPolylines [17, 17, 17, 17, 17, 17, 17, 17, 17] minor)]
      ∧ v = DiameterVertices (Standard_Math.mk Real.cos Real.sin Real.pi) (Real.pi / 8) 16
          100 (1 / 5)
      ∧ v.length = 2 * 16
      ∧ major = RingVertices (Standard_Math.mk Real.cos Real.sin Real.pi) (Real.pi / 8) 17
          10 (1 / 5)
      ∧ major.length = 17
      ∧ minor = [1, 2, 3, 4, 5, 6, 7, 8, 9].flatMap (fun (i : Nat) =>
          RingVertices (Standard_Math.mk Real.cos Real.sin Real.pi) (Real.pi / 8) 17
            (((i : ℝ) + 1) * 10) (1 / 5))
      ∧ minor.length = 9 * 17
      ∧ g1.myGroup.minMax = some ⟨-100, -100, 0, 100, 100, 0⟩
      ∧ g1.myGroup.nbClear = 1 := by
  have h1 := UpdateDisplay_eq_stale (Standard_Math.mk Real.cos Real.sin Real.pi)
    (Spec.ExampleGrid 100 10 8 Aspect_GridDrawMode.Aspect_GDM_Lines 0 (1 / 5)) 10 10
    (ExampleGrid_MeshStale _ _ _ _ _ _) IsRingCount_example (le_refl 10)
  have hD : Spec.ClampedDivision
      (Spec.ExampleGrid (100 : ℝ) 10 8 Aspect_GridDrawMode.Aspect_GDM_Lines 0 (1 / 5)) = 8 := by
    simp [Spec.ClampedDivision, Spec.ExampleGrid, DIVISION]
  refine ⟨_, _, _, _, h1, ?_, rfl, ?_, rfl, ?_, rfl, ?_, rfl, rfl⟩
  · have hc : Spec.MeshContent (Standard_Math.mk Real.cos Real.sin Real.pi)
        (Spec.ExampleGrid 100 10 8 Aspect_GridDrawMode.Aspect_GDM_Lines 0 (1 / 5)) 10
        = Spec.LinesContent (Standard_Math.mk Real.cos Real.sin Real.pi)
        (Spec.ExampleGrid 100 10 8 Aspect_GridDrawMode.Aspect_GDM_Lines 0 (1 / 5)) 10 := rfl
    simp only [Spec.RegeneratedGroup, hc, Spec.LinesContent, hD, MajorIndices_ten,
      MinorIndices_ten]
    norm_num [Spec.Rings, Spec.ExampleGrid, Spec.LineAspect]
    rfl
  · rw [DiameterVertices_length]; rfl
  · rw [RingVertices_length]; rfl
  · simp [RingVertices]

/-- What `DefineLines` returns on a stale mesh. -/
theorem DefineLines_cases (m : Standard_Math R) (g g1 : V3d_CircularGrid R) (fuel : Nat)
    (hu : DefineLines_toUpdate g = true) (h : DefineLines m fuel g = Except.ok g1) :
    ∃ n : Nat, n ≤ fuel ∧ Spec.IsRingCount g.myRadiusStep g.myRadius n
      ∧ g1 = { g with
          myGroup := Spec.RegeneratedGroup g (Spec.LinesContent m g n)
          myCurStep := g.myRadiusStep
          myCurDivi := g.myDivisionNumber } := by
  obtain ⟨n, hf, hn⟩ := DefineLines_inv m g g1 fuel hu h
  rw [DefineLines_eq m g n fuel hu hn hf] at h
  injection h with h
  exact ⟨n, hf, hn, h.symm⟩

/-- What `DefinePoints` returns on a stale mesh. -/
theorem DefinePoints_cases (m : Standard_Math R) (g g1 : V3d_CircularGrid R) (fuel : Nat)
    (hu : DefinePoints_toUpdate g = true) (h : DefinePoints m fuel g = Except.ok g1) :
    ∃ n : Nat, n ≤ fuel ∧ Spec.IsRingCount g.myRadiusStep g.myRadius n
      ∧ g1 = { g with
          myGroup := Spec.RegeneratedGroup g (Spec.PointsContent m g n)
          myCurStep := g.myRadiusStep
          myCurDivi := g.myDivisionNumber } := by
  obtain ⟨n, hf, hn⟩ := DefinePoints_inv m g g1 fuel hu h
  rw [DefinePoints_eq m g n fuel hu hn hf] at h
  injection h with h
  exact ⟨n, hf, hn, h.symm⟩

theorem DefineLines_returns (m : Standard_Math R) (g : V3d_CircularGrid R) (n fuel : Nat)
    (hn : Spec.IsRingCount g.myRadiusStep g.myRadius n) (hf : n ≤ fuel) :
    ∃ g1 : V3d_CircularGrid R, DefineLines m fuel g = Except.ok g1 := by
  by_cases hu : DefineLines_toUpdate g = true
  · exact ⟨_, DefineLines_eq m g n fuel hu hn hf⟩
  · rw [Bool.not_eq_true] at hu
    exact ⟨_, DefineLines_fresh m g fuel hu⟩

theorem DefinePoints_returns (m : Standard_Math R) (g : V3d_CircularGrid R) (n fuel : Nat)
    (hn : Spec.IsRingCount g.myRadiusStep g.myRadius n) (hf : n ≤ fuel) :
    ∃ g1 : V3d_CircularGrid R, DefinePoints m fuel g = Except.ok g1 := by
  by_cases hu : DefinePoints_toUpdate g = true
  · exact ⟨_, DefinePoints_eq m g n fuel hu hn hf⟩
  · rw [Bool.not_eq_true] at hu
    exact ⟨_, DefinePoints_fresh m g fuel hu⟩

/-- C14: after every mesh regeneration, by `DefineLines` (Lines mode) and by
`DefinePoints` (Points mode) alike, hence after every update that finds the mesh stale,
the bounding box of the group is exactly (- radius, - radius, 0) - (radius, radius, 0)
for the current radius, whatever the offset, the step and the division are. Both
functions return as soon as the fuel allows the number of rings. -/
theorem C14_bounding_box (m : Standard_Math R) (g : V3d_CircularGrid R) :
    (∀ (fuel : Nat) (g1 : V3d_CircularGrid R), DefineLines_toUpdate g = true →
        DefineLines m fuel g = Except.ok g1 →
        g1.myGroup.minMax = some ⟨-g.myRadius, -g.myRadius, 0, g.myRadius, g.myRadius, 0⟩
        ∧ g1.myRadius = g.myRadius)
      ∧ (∀ (fuel : Nat) (g1 : V3d_CircularGrid R), DefinePoints_toUpdate g = true →
        DefinePoints m fuel g = Except.ok g1 →
        g1.myGroup.minMax = some ⟨-g.myRadius, -g.myRadius, 0, g.myRadius, g.myRadius, 0⟩
        ∧ g1.myRadius = g.myRadius)
      ∧ (∀ (fuel : Nat) (g1 : V3d_CircularGrid R), Spec.MeshStale g = true →
        UpdateDisplay m fuel g = Except.ok g1 →
        g1.myGroup.minMax = some ⟨-g1.myRadius, -g1.myRadius, 0, g1.myRadius, g1.myRadius, 0⟩)
      ∧ (∀ n fuel : Nat, Spec.IsRingCount g.myRadiusStep g.myRadius n → n ≤ fuel →
        (∃ g1 : V3d_CircularGrid R, DefineLines m fuel g = Except.ok g1)
        ∧ (∃ g1 : V3d_CircularGrid R, DefinePoints m fuel g = Except.ok g1)) := by
  refine ⟨?_, ?_, ?_, ?_⟩
  · intro fuel g1 hu h
    obtain ⟨n, _, _, h1⟩ := DefineLines_cases m g g1 fuel hu h
    rw [h1]
    exact ⟨rfl, rfl⟩
  · intro fuel g1 hu h
    obtain ⟨n, _, _, h1⟩ := DefinePoints_cases m g g1 fuel hu h
    rw [h1]
    exact ⟨rfl, rfl⟩
  · intro fuel g1 hs h
    rcases UpdateDisplay_cases m g g1 fuel h with ⟨_, n, _, _, h1⟩ | ⟨hs2, _⟩
    · rw [h1]
      simp [Spec.RegeneratedGroup]
    · rw [hs] at hs2
      exact absurd hs2 (by simp)
  · intro n fuel hn hf
    exact ⟨DefineLines_returns m g n fuel hn hf, DefinePoints_returns m g n fuel hn hf⟩

/-- Witness of C14: the example grid with radius 100 and offset 0.2, in Points mode. -/
theorem C14_bounding_box_witness :
    ∃ g1 : V3d_CircularGrid ℝ,
      DefinePoints (Standard_Math.mk Real.cos Real.sin Real.pi) 10
          (Spec.ExampleGrid 100 10 8 Aspect_GridDrawMode.Aspect_GDM_Points 0 (1 / 5))
        = Except.ok g1
      ∧ g1.myGroup.minMax = some ⟨-100, -100, 0, 100, 100, 0⟩ := by
  obtain ⟨_, h2, _, h4⟩ := C14_bounding_box (Standard_Math.mk Real.cos Real.sin Real.pi)
    (Spec.ExampleGrid 100 10 8 Aspect_GridDrawMode.Aspect_GDM_Points 0 (1 / 5))
  obtain ⟨g1, hg1⟩ := (h4 10 10 IsRingCount_example (le_refl 10)).2
  exact ⟨g1, hg1, (h2 10 g1 (ExampleGrid_PointsStale _ _ _ _ _ _) hg1).1⟩

theorem Arrays_LinesContent_length (m : Standard_Math R) (g : V3d_CircularGrid R) (n : Nat) :
    (Spec.Arrays (Spec.LinesContent m g n)).length
      = 1 + (if 1 ≤ n then 1 else 0) + (if 2 ≤ n then 1 else 0) := by
  unfold Spec.LinesContent Spec.Arrays
  by_cases h1 : 1 ≤ n <;> by_cases h2 : 2 ≤ n <;> simp [h1, h2]

/-- C15: layout of the group after a regeneration. In Lines mode, when `DefineLines`
regenerates and returns, with `n` the number of rings, the group has been cleared once
and holds, in this order: the line aspect (major colour, solid, width 1) and the
segment array; then, iff `n` is at least 1, the line aspect of the major colour and the
polyline array of the major rings; then, iff `n` is at least 2, the line aspect of the
primary colour and the polyline array of the minor rings; at most three arrays, at most
two of them polyline arrays, and nothing else. In Points mode, when `DefinePoints`
regenerates and returns, the group has been cleared once and holds the marker aspect
and exactly one point array. Nothing of the previous content remains. -/
theorem C15_group_layout (m : Standard_Math R) (g : V3d_CircularGrid R) :
    (∀ (fuel : Nat) (g1 : V3d_CircularGrid R), DefineLines_toUpdate g = true →
        DefineLines m fuel g = Except.ok g1 →
        ∃ (n : Nat) (segments major minor : Graphic3d_Array R),
          n ≤ fuel ∧ Spec.IsRingCount g.myRadiusStep g.myRadius n
          ∧ g1.myGroup.nbClear = g.myGroup.nbClear + 1
          ∧ segments = Graphic3d_Array.ArrayOfSegments
              (DiameterVertices m (m.M_PI / (g.myDivisionNumber : R))
                (2 * Spec.ClampedDivision g) g.myRadius g.myOffSet)
          ∧ major = Graphic3d_Array.ArrayOfPolylines
              (List.replicate (Spec.MajorIndices n).length (2 * Spec.ClampedDivision g + 1))
              (Spec.Rings m (m.M_PI / (Spec.ClampedDivision g : R))
                (2 * Spec.ClampedDivision g + 1) g.myRadiusStep g.myOffSet
                (Spec.MajorIndices n))
          ∧ minor = Graphic3d_Array.ArrayOfPolylines
              (List.replicate (Spec.MinorIndices n).length (2 * Spec.ClampedDivision g + 1))
              (Spec.Rings m (m.M_PI / (Spec.ClampedDivision g : R))
                (2 * Spec.ClampedDivision g + 1) g.myRadiusStep g.myOffSet
                (Spec.MinorIndices n))
          ∧ g1.myGroup.content
            = [GroupCall.SetGroupPrimitivesAspect (Graphic3d_Aspect.AspectLine3d
                  g.myTenthColor Aspect_TypeOfLine.Aspect_TOL_SOLID 1),
                GroupCall.AddPrimitiveArray segments]
              ++ (if 1 ≤ n then
                  [GroupCall.SetGroupPrimitivesAspect (Graphic3d_Aspect.AspectLine3d
                      g.myTenthColor Aspect_TypeOfLine.Aspect_TOL_SOLID 1),
                    GroupCall.AddPrimitiveArray major]
                else [])
              ++ (if 2 ≤ n then
                  [GroupCall.SetPrimitivesAspect (Graphic3d_Aspect.AspectLine3d
                      g.myColor Aspect_TypeOfLine.Aspect_TOL_SOLID 1),
                    GroupCall.AddPrimitiveArray minor]
                else [])
          ∧ Spec.Arrays g1.myGroup.content
            = [segments] ++ (if 1 ≤ n then [major] else []) ++ (if 2 ≤ n then [minor] else [])
          ∧ (Spec.Arrays g1.myGroup.content).length ≤ 3)
      ∧ (∀ (fuel : Nat) (g1 : V3d_CircularGrid R), DefinePoints_toUpdate g = true →
        DefinePoints m fuel g = Except.ok g1 →
        ∃ (n : Nat) (v : List (gp_Pnt R)),
          n ≤ fuel ∧ Spec.IsRingCount g.myRadiusStep g.myRadius n
          ∧ g1.myGroup.nbClear = g.myGroup.nbClear + 1
          ∧ g1.myGroup.content
            = [GroupCall.SetGroupPrimitivesAspect (Graphic3d_Aspect.AspectMarker3d
                  g.myColor Aspect_TypeOfMarker.Aspect_TOM_POINT 3),
                GroupCall.AddPrimitiveArray (Graphic3d_Array.ArrayOfPoints v)]
          ∧ Spec.Arrays g1.myGroup.content = [Graphic3d_Array.ArrayOfPoints v])
      ∧ (∀ n fuel : Nat, Spec.IsRingCount g.myRadiusStep g.myRadius n → n ≤ fuel →
        (∃ g1 : V3d_CircularGrid R, DefineLines m fuel g = Except.ok g1)
        ∧ (∃ g1 : V3d_CircularGrid R, DefinePoints m fuel g = Except.ok g1)) := by
  refine ⟨?_, ?_, ?_⟩
  · intro fuel g1 hu h
    obtain ⟨n, hf, hn, h1⟩ := DefineLines_cases m g g1 fuel hu h
    refine ⟨n, _, _, _, hf, hn, by rw [h1]; rfl, rfl, rfl, rfl, by rw [h1]; rfl, ?_, ?_⟩
    · rw [h1]
      simp only [Spec.RegeneratedGroup, Spec.LinesContent, Spec.Arrays, Spec.LineAspect]
      by_cases c1 : 1 ≤ n <;> by_cases c2 : 2 ≤ n <;> simp [c1, c2]
    · rw [h1]
      simp only [Spec.RegeneratedGroup, Arrays_LinesContent_length]
      split_ifs <;> omega
  · intro fuel g1 hu h
    obtain ⟨n, hf, hn, h1⟩ := DefinePoints_cases m g g1 fuel hu h
    refine ⟨n, Spec.PointsVertices m g n, hf, hn, by rw [h1]; rfl, by rw [h1]; rfl, ?_⟩
    rw [h1]
    exact Arrays_PointsContent m g n
  · intro n fuel hn hf
    exact ⟨DefineLines_returns m g n fuel hn hf, DefinePoints_returns m g n fuel hn hf⟩

/-- Witness of C15: the example grid in Lines mode, radius 100, step 10: three arrays. -/
theorem C15_group_layout_witness :
    ∃ g1 : V3d_CircularGrid ℝ,
      DefineLines (Standard_Math.mk Real.cos Real.sin Real.pi) 10
          (Spec.ExampleGrid 100 10 8 Aspect_GridDrawMode.Aspect_GDM_Lines 0 0)
        = Except.ok g1
      ∧ (Spec.Arrays g1.myGroup.content).length ≤ 3
      ∧ g1.myGroup.nbClear = 1 := by
  obtain ⟨h1, _, h3⟩ := C15_group_layout (Standard_Math.mk Real.cos Real.sin Real.pi)
    (Spec.ExampleGrid 100 10 8 Aspect_GridDrawMode.Aspect_GDM_Lines 0 0)
  obtain ⟨g1, hg1⟩ := (h3 10 10 IsRingCount_example (le_refl 10)).1
  obtain ⟨n, _, _, _, _, _, c3, _, _, _, _, _, c9⟩ :=
    h1 10 g1 (ExampleGrid_LinesStale _ _ _ _ _ _) hg1
  exact ⟨g1, hg1, c9, by simpa [Spec.ExampleGrid] using c3⟩

/-! ## The staleness of the mesh and the state of the cache -/

/-- The mesh is stale iff the cache is undefined, or the cached draw mode is not the
mode of the selected generation path, or the step or the division changed. -/
theorem MeshStale_iff (g : V3d_CircularGrid R) :
    Spec.MeshStale g = true ↔
      g.myCurAreDefined = false ∨ g.myCurDrawMode ≠ Spec.PathMode g
      ∨ g.myRadiusStep ≠ g.myCurStep ∨ g.myDivisionNumber ≠ g.myCurDivi := by
  rw [← Bool.not_eq_false, MeshStale_eq_false_iff]
  cases g.myCurAreDefined
  · simp
  · simp only [true_and, Bool.true_eq_false, false_or, ne_eq]
    tauto

/-- C16: the staleness check of the mesh is independent of the transform cache.
`UpdateDisplay` regenerates the mesh (clears the group once and repopulates it) iff
the cache is undefined, or the cached draw mode differs from the mode of the selected
generation path (Lines for the draw mode Lines, Points otherwise), or the step differs
from the cached step, or the division differs from the cached division; the rotation
angle, the origin and the plane play no part in that test. Otherwise the group is left
untouched: with a defined cache and unchanged step, division and draw mode, an update
after a change of the angle, the origin or the plane returns whatever the fuel,
rebuilds the transform and leaves the group as it is. -/
theorem C16_mesh_staleness (m : Standard_Math R) (g : V3d_CircularGrid R) :
    (Spec.MeshStale g = true ↔
        g.myCurAreDefined = false ∨ g.myCurDrawMode ≠ Spec.PathMode g
        ∨ g.myRadiusStep ≠ g.myCurStep ∨ g.myDivisionNumber ≠ g.myCurDivi)
      ∧ (g.myDrawMode = Aspect_GridDrawMode.Aspect_GDM_Lines →
          Spec.PathMode g = Aspect_GridDrawMode.Aspect_GDM_Lines)
      ∧ (g.myDrawMode ≠ Aspect_GridDrawMode.Aspect_GDM_Lines →
          Spec.PathMode g = Aspect_GridDrawMode.Aspect_GDM_Points)
      ∧ (∀ (anAngle anXOrigin anYOrigin : R) (aPlane : gp_Ax3 R),
          Spec.MeshStale { g with
            myRotationAngle := anAngle
            myXOrigin := anXOrigin
            myYOrigin := anYOrigin
            myViewer := ⟨aPlane⟩ } = Spec.MeshStale g)
      ∧ (∀ (fuel : Nat) (g1 : V3d_CircularGrid R), UpdateDisplay m fuel g = Except.ok g1 →
          (Spec.MeshStale g = true →
            g1.myGroup.nbClear = g.myGroup.nbClear + 1
            ∧ ∃ n : Nat, n ≤ fuel ∧ Spec.IsRingCount g.myRadiusStep g.myRadius n
              ∧ g1.myGroup.content = Spec.MeshContent m g n)
          ∧ (Spec.MeshStale g = false → g1.myGroup = g.myGroup))
      ∧ (Spec.MeshStale g = false → MakeTransform g = true →
          ∀ fuel : Nat, ∃ g1 : V3d_CircularGrid R,
            UpdateDisplay m fuel g = Except.ok g1
            ∧ g1.myGroup = g.myGroup
            ∧ g1.myStructure.nbSetTransform = g.myStructure.nbSetTransform + 2) := by
  refine ⟨MeshStale_iff g, ?_, ?_, ?_, ?_, ?_⟩
  · intro h; unfold Spec.PathMode; rw [h]
  · intro h; unfold Spec.PathMode
    cases hm : g.myDrawMode
    · exact absurd hm h
    · rfl
    · rfl
  · intro anAngle anXOrigin anYOrigin aPlane
    rfl
  · intro fuel g1 h
    rcases UpdateDisplay_cases m g g1 fuel h with ⟨hs, n, hf, hn, h1⟩ | ⟨hs, h1⟩
    · constructor
      · intro _
        exact ⟨by rw [h1]; rfl, n, hf, hn, by rw [h1]; rfl⟩
      · intro h2; rw [hs] at h2; exact absurd h2 (by simp)
    · constructor
      · intro h2; rw [hs] at h2; exact absurd h2 (by simp)
      · intro _; rw [h1]; simp
  · intro hs ht fuel
    refine ⟨_, UpdateDisplay_eq_fresh m g fuel hs, by simp, ?_⟩
    show (Spec.AfterTransform m g).myStructure.nbSetTransform = _
    unfold Spec.AfterTransform
    rw [if_pos ht]
    rfl

/-- Witness of C16: after a first update of the example grid, a change of the rotation
angle from 0 to 1 followed by an update, with no fuel, rebuilds the transform and
leaves the group untouched. -/
theorem C16_mesh_staleness_witness :
    ∃ g1 g2 : V3d_CircularGrid ℝ,
      UpdateDisplay (Standard_Math.mk Real.cos Real.sin Real.pi) 10
          (Spec.ExampleGrid 100 10 8 Aspect_GridDrawMode.Aspect_GDM_Lines 0 0)
        = Except.ok g1
      ∧ UpdateDisplay (Standard_Math.mk Real.cos Real.sin Real.pi) 0
          { g1 with myRotationAngle := 1 }
        = Except.ok g2
      ∧ g2.myGroup = g1.myGroup
      ∧ g2.myStructure.nbSetTransform = g1.myStructure.nbSetTransform + 2 := by
  obtain ⟨g1, h1⟩ := UpdateDisplay_returns (Standard_Math.mk Real.cos Real.sin Real.pi)
    (Spec.ExampleGrid 100 10 8 Aspect_GridDrawMode.Aspect_GDM_Lines 0 0) 10 10
    IsRingCount_example (le_refl 10)
  obtain ⟨p1, p2⟩ := UpdateDisplay_post _ _ _ _ h1
  have hs : Spec.MeshStale { g1 with myRotationAngle := 1 } = false := p2
  rw [MakeTransform_eq_false_iff] at p1
  have hang : g1.myCurAngle = 0 := by rw [← p1.2.1]; rcases UpdateDisplay_cases _ _ _ _ h1 with
    ⟨_, n, _, _, e⟩ | ⟨_, e⟩ <;> rw [e] <;> simp <;> rfl
  have ht : MakeTransform { g1 with myRotationAngle := 1 } = true := by
    rw [← Bool.not_eq_false, MakeTransform_eq_false_iff]
    rintro ⟨_, h, _⟩
    have h2 : (1 : ℝ) = g1.myCurAngle := h
    rw [hang] at h2
    norm_num at h2
  obtain ⟨g2, c1, c2, c3⟩ := (C16_mesh_staleness
    (Standard_Math.mk Real.cos Real.sin Real.pi) { g1 with myRotationAngle := 1 }).2.2.2.2.2
    hs ht 0
  exact ⟨g1, g2, h1, c1, c2, c3⟩

/-- Counterexample to C17 as stated: after the update of the example grid in the draw
mode None, the cached draw mode is Points, not the current draw mode None. -/
theorem C17_counterexample :
    ∃ g1 : V3d_CircularGrid ℝ,
      UpdateDisplay (Standard_Math.mk Real.cos Real.sin Real.pi) 10
          (Spec.ExampleGrid 100 10 8 Aspect_GridDrawMode.Aspect_GDM_None 0 0)
        = Except.ok g1
      ∧ g1.myDrawMode = Aspect_GridDrawMode.Aspect_GDM_None
      ∧ g1.myCurDrawMode = Aspect_GridDrawMode.Aspect_GDM_Points
      ∧ g1.myCurDrawMode ≠ g1.myDrawMode := by
  have h1 := UpdateDisplay_eq_stale (Standard_Math.mk Real.cos Real.sin Real.pi)
    (Spec.ExampleGrid 100 10 8 Aspect_GridDrawMode.Aspect_GDM_None 0 0) 10 10
    (ExampleGrid_MeshStale _ _ _ _ _ _) IsRingCount_example (le_refl 10)
  refine ⟨_, h1, ?_, rfl, ?_⟩
  · simp [Spec.ExampleGrid]
  · simp [Spec.PathMode, Spec.ExampleGrid]

/-- C17 (amended): post-state of the cache. After every call of `UpdateDisplay` that
returns, from any grid state and for every draw mode, the grid parameters are those on
entry, the cache is defined, and the cached rotation angle, origin X and Y, plane
snapshot, step and division count equal the current values; the cached draw mode is
the mode of the generation path that ran: it equals the current draw mode for Lines
and Points, and it is Points when the current draw mode is None. The call returns as
soon as the fuel allows the number of rings. -/
theorem C17_cache_post_state (m : Standard_Math R) (g : V3d_CircularGrid R) :
    (∀ (fuel : Nat) (g1 : V3d_CircularGrid R), UpdateDisplay m fuel g = Except.ok g1 →
        g1.myCurAreDefined = true
        ∧ g1.myCurAngle = g1.myRotationAngle
        ∧ g1.myCurXo = g1.myXOrigin ∧ g1.myCurYo = g1.myYOrigin
        ∧ g1.myCurViewPlane = g1.myViewer.PrivilegedPlane
        ∧ g1.myCurStep = g1.myRadiusStep
        ∧ g1.myCurDivi = g1.myDivisionNumber
        ∧ g1.myCurDrawMode = Spec.PathMode g1
        ∧ (g1.myDrawMode ≠ Aspect_GridDrawMode.Aspect_GDM_None →
            g1.myCurDrawMode = g1.myDrawMode)
        ∧ (g1.myDrawMode = Aspect_GridDrawMode.Aspect_GDM_None →
            g1.myCurDrawMode = Aspect_GridDrawMode.Aspect_GDM_Points)
        ∧ g1.myRotationAngle = g.myRotationAngle
        ∧ g1.myXOrigin = g.myXOrigin ∧ g1.myYOrigin = g.myYOrigin
        ∧ g1.myViewer = g.myViewer
        ∧ g1.myRadiusStep = g.myRadiusStep
        ∧ g1.myDivisionNumber = g.myDivisionNumber
        ∧ g1.myDrawMode = g.myDrawMode)
      ∧ (∀ n fuel : Nat, Spec.IsRingCount g.myRadiusStep g.myRadius n → n ≤ fuel →
          ∃ g1 : V3d_CircularGrid R, UpdateDisplay m fuel g = Except.ok g1) := by
  refine ⟨?_, fun n fuel hn hf => UpdateDisplay_returns m g n fuel hn hf⟩
  intro fuel g1 h
  obtain ⟨p1, p2⟩ := UpdateDisplay_post m g g1 fuel h
  rw [MakeTransform_eq_false_iff] at p1
  rw [MeshStale_eq_false_iff] at p2
  obtain ⟨d1, a1, a2, a3, a4⟩ := p1
  obtain ⟨_, b2, b3, b4⟩ := p2
  have hpm : ∀ md : Aspect_GridDrawMode, g1.myDrawMode = md →
      (md ≠ Aspect_GridDrawMode.Aspect_GDM_None → Spec.PathMode g1 = md)
      ∧ (md = Aspect_GridDrawMode.Aspect_GDM_None →
        Spec.PathMode g1 = Aspect_GridDrawMode.Aspect_GDM_Points) := by
    intro md hmd
    unfold Spec.PathMode
    rw [hmd]
    cases md <;> simp
  refine ⟨d1, a1.symm, a2.symm, a3.symm, a4.symm, b4.symm, b3.symm, b2, ?_, ?_, ?_⟩
  · intro hne; rw [b2]; exact (hpm _ rfl).1 hne
  · intro he; rw [b2]; exact (hpm _ rfl).2 he
  · rcases UpdateDisplay_cases m g g1 fuel h with ⟨_, n, _, _, e⟩ | ⟨_, e⟩ <;> rw [e] <;> simp

/-- Witness of C17 (amended): the example grid in Lines mode. -/
theorem C17_cache_post_state_witness :
    ∃ g1 : V3d_CircularGrid ℝ,
      UpdateDisplay (Standard_Math.mk Real.cos Real.sin Real.pi) 10
          (Spec.ExampleGrid 100 10 8 Aspect_GridDrawMode.Aspect_GDM_Lines 0 0)
        = Except.ok g1
      ∧ g1.myCurAreDefined = true
      ∧ g1.myCurDrawMode = g1.myDrawMode := by
  obtain ⟨h1, h2⟩ := C17_cache_post_state (Standard_Math.mk Real.cos Real.sin Real.pi)
    (Spec.ExampleGrid 100 10 8 Aspect_GridDrawMode.Aspect_GDM_Lines 0 0)
  obtain ⟨g1, hg1⟩ := h2 10 10 IsRingCount_example (le_refl 10)
  obtain ⟨c1, _, _, _, _, _, _, _, c9, _, _, _, _, _, _, _, c17⟩ := h1 10 g1 hg1
  refine ⟨g1, hg1, c1, c9 ?_⟩
  rw [c17]
  simp [Spec.ExampleGrid]

/-! ## Bounds and termination -/

/-- The ring loop of `DefineLines` indexes no sequence: it never reports an index out
of range. -/
theorem LinesRingLoop_no_range (m : Standard_Math R) (alpha : R) (nbpnts : Int)
    (aStep myRadius myOffSet : R) (fuel : Nat) :
    ∀ (r : R) (nblines : Nat) (aSeqLines aSeqTenth : List (gp_Pnt R)),
      LinesRingLoop m alpha nbpnts aStep myRadius myOffSet fuel r nblines aSeqLines aSeqTenth
        ≠ Except.error Fault.outOfRange := by
  induction fuel with
  | zero =>
    intro r nblines aSeqLines aSeqTenth
    unfold LinesRingLoop
    split <;> simp
  | succ fuel ih =>
    intro r nblines aSeqLines aSeqTenth
    unfold LinesRingLoop
    by_cases hr : r ≤ myRadius
    · rw [if_pos hr]
      by_cases ht : nblines % 10 = 0
      · simp only [ht, decide_True, if_true]
        exact ih _ _ _ _
      · simp only [ht, decide_False, Bool.false_eq_true, if_false]
        exact ih _ _ _ _
    · rw [if_neg hr]; simp

theorem PointsRingLoop_no_range (m : Standard_Math R) (alpha : R) (nbpnts : Int)
    (aStep myRadius myOffSet : R) (fuel : Nat) :
    ∀ (r : R) (aSeqPnts : List (gp_Pnt R)),
      PointsRingLoop m alpha nbpnts aStep myRadius myOffSet fuel r aSeqPnts
        ≠ Except.error Fault.outOfRange := by
  induction fuel with
  | zero =>
    intro r aSeqPnts
    unfold PointsRingLoop
    split <;> simp
  | succ fuel ih =>
    intro r aSeqPnts
    unfold PointsRingLoop
    by_cases hr : r ≤ myRadius
    · rw [if_pos hr]; exact ih _ _
    · rw [if_neg hr]; simp

/-- When the fuel allows no number of rings, the ring loop of `DefineLines` runs out
of fuel. -/
theorem LinesRingLoop_outOfFuel (m : Standard_Math R) (alpha : R) (nbpnts : Int)
    (aStep myRadius myOffSet : R) (fuel : Nat)
    (h : ¬ ∃ n : Nat, n ≤ fuel ∧ Spec.IsRingCount aStep myRadius n) :
    LinesRingLoop m alpha nbpnts aStep myRadius myOffSet fuel aStep 0 [] []
      = Except.error Fault.outOfFuel := by
  cases hl : LinesRingLoop m alpha nbpnts aStep myRadius myOffSet fuel aStep 0 [] [] with
  | error e =>
    cases e with
    | outOfFuel => rfl
    | outOfRange => exact absurd hl (LinesRingLoop_no_range m alpha nbpnts aStep myRadius
        myOffSet fuel aStep 0 [] [])
  | ok res =>
    exact absurd (LinesRingLoop_inv_start m alpha nbpnts aStep myRadius myOffSet fuel res hl) h

theorem PointsRingLoop_outOfFuel (m : Standard_Math R) (alpha : R) (nbpnts : Int)
    (aStep myRadius myOffSet : R) (init : List (gp_Pnt R)) (fuel : Nat)
    (h : ¬ ∃ n : Nat, n ≤ fuel ∧ Spec.IsRingCount aStep myRadius n) :
    PointsRingLoop m alpha nbpnts aStep myRadius myOffSet fuel aStep init
      = Except.error Fault.outOfFuel := by
  cases hl : PointsRingLoop m alpha nbpnts aStep myRadius myOffSet fuel aStep init with
  | error e =>
    cases e with
    | outOfFuel => rfl
    | outOfRange => exact absurd hl (PointsRingLoop_no_range m alpha nbpnts aStep myRadius
        myOffSet fuel aStep init)
  | ok res =>
    exact absurd (PointsRingLoop_inv_start m alpha nbpnts aStep myRadius myOffSet fuel init res
      hl) h

/-- For a step that is not positive and a radius that is not below the step, there is
no number of rings: every ring lies within the radius. -/
theorem IsRingCount_none (aStep myRadius : R) (hs : aStep ≤ 0) (hle : aStep ≤ myRadius)
    (n : Nat) : ¬ Spec.IsRingCount aStep myRadius n := by
  rintro ⟨_, h2⟩
  have h3 : ((n : R) + 1) * aStep ≤ aStep := by
    have hn : (0 : R) ≤ (n : R) := Nat.cast_nonneg n
    nlinarith
  exact absurd (lt_of_lt_of_le h2 (le_trans h3 hle)) (lt_irrefl _)

/-- `DefineLines` yields either a grid or the report that the fuel is exhausted: it
never reports an index out of range. -/
theorem DefineLines_no_range (m : Standard_Math R) (g : V3d_CircularGrid R) (fuel : Nat) :
    DefineLines m fuel g ≠ Except.error Fault.outOfRange := by
  by_cases hu : DefineLines_toUpdate g = true
  · by_cases hn : ∃ n : Nat, n ≤ fuel ∧ Spec.IsRingCount g.myRadiusStep g.myRadius n
    · obtain ⟨n, hf, hn⟩ := hn
      rw [DefineLines_eq m g n fuel hu hn hf]
      simp
    · unfold DefineLines
      simp only [hu, Bool.true_eq_false, if_false]
      rw [LinesRingLoop_outOfFuel m _ _ _ _ _ fuel hn]
      simp
  · rw [Bool.not_eq_true] at hu
    rw [DefineLines_fresh m g fuel hu]
    simp

theorem DefinePoints_no_range (m : Standard_Math R) (g : V3d_CircularGrid R) (fuel : Nat) :
    DefinePoints m fuel g ≠ Except.error Fault.outOfRange := by
  by_cases hu : DefinePoints_toUpdate g = true
  · by_cases hn : ∃ n : Nat, n ≤ fuel ∧ Spec.IsRingCount g.myRadiusStep g.myRadius n
    · obtain ⟨n, hf, hn⟩ := hn
      rw [DefinePoints_eq m g n fuel hu hn hf]
      simp
    · unfold DefinePoints
      simp only [hu, Bool.true_eq_false, if_false]
      rw [PointsRingLoop_outOfFuel m _ _ _ _ _ _ fuel hn]
      simp
  · rw [Bool.not_eq_true] at hu
    rw [DefinePoints_fresh m g fuel hu]
    simp

theorem Indices_length_add (n : Nat) :
    (Spec.MajorIndices n).length + (Spec.MinorIndices n).length = n := by
  rw [MajorIndices_length, MinorIndices_length]; omega

/-- C18: one bounded sub-polyline per ring. In Lines mode, with `D` the clamped division
count, the larger of the division number and 8, and `p = 2 * D + 1` points per ring,
the ring loop (with enough fuel, `n` rings) ends with a major sequence and a minor
sequence whose lengths are the number of major rings times `p` and the number of minor
rings times `p`; so the bound count that the source infers, length / `p`, is the number
of rings of that class. The polyline construction then reads no index out of range and
yields that many bounds of `p` vertices each and, as vertices, the whole sequence in
the order of generation. `DefineLines` never reports an index out of range, whatever
the fuel, and on a stale mesh it returns the group made of these arrays. -/
theorem C18_polyline_bounds (m : Standard_Math R) (g : V3d_CircularGrid R) (n fuel : Nat)
    (hn : Spec.IsRingCount g.myRadiusStep g.myRadius n) (hf : n ≤ fuel) :
    ∃ aSeqLines aSeqTenth : List (gp_Pnt R),
      LinesRingLoop m (m.M_PI / ((max g.myDivisionNumber 8 : Int) : R))
          (2 * max g.myDivisionNumber 8 + 1) g.myRadiusStep g.myRadius g.myOffSet fuel
          g.myRadiusStep 0 [] []
        = Except.ok (n, aSeqLines, aSeqTenth)
      ∧ (aSeqTenth.length : Int)
        = ((Spec.MajorIndices n).length : Int) * (2 * max g.myDivisionNumber 8 + 1)
      ∧ (aSeqLines.length : Int)
        = ((Spec.MinorIndices n).length : Int) * (2 * max g.myDivisionNumber 8 + 1)
      ∧ (aSeqTenth.length : Int) / (2 * max g.myDivisionNumber 8 + 1)
        = ((Spec.MajorIndices n).length : Int)
      ∧ (aSeqLines.length : Int) / (2 * max g.myDivisionNumber 8 + 1)
        = ((Spec.MinorIndices n).length : Int)
      ∧ (Spec.MajorIndices n).length + (Spec.MinorIndices n).length = n
      ∧ PolylinesOf aSeqTenth (2 * max g.myDivisionNumber 8 + 1)
        = Except.ok (Graphic3d_Array.ArrayOfPolylines
            (List.replicate (Spec.MajorIndices n).length (2 * max g.myDivisionNumber 8 + 1))
            aSeqTenth)
      ∧ PolylinesOf aSeqLines (2 * max g.myDivisionNumber 8 + 1)
        = Except.ok (Graphic3d_Array.ArrayOfPolylines
            (List.replicate (Spec.MinorIndices n).length (2 * max g.myDivisionNumber 8 + 1))
            aSeqLines)
      ∧ (∀ fuel2 : Nat, DefineLines m fuel2 g ≠ Except.error Fault.outOfRange)
      ∧ (DefineLines_toUpdate g = true →
          ∃ g1 : V3d_CircularGrid R, DefineLines m fuel g = Except.ok g1
            ∧ g1.myGroup.content = Spec.LinesContent m g n) := by
  have hD : Spec.ClampedDivision g = max g.myDivisionNumber 8 := rfl
  have hge := ClampedDivision_ge g
  rw [hD] at hge
  have hp : (0 : Int) < 2 * max g.myDivisionNumber 8 + 1 := by omega
  obtain ⟨p, hpe⟩ : ∃ p : Nat, 2 * max g.myDivisionNumber 8 + 1 = (p : Int) :=
    ⟨(2 * max g.myDivisionNumber 8 + 1).toNat, (Int.toNat_of_nonneg (le_of_lt hp)).symm⟩
  have hpos : 0 < p := by omega
  refine ⟨_, _, LinesRingLoop_eq m _ _ _ _ _ n fuel hn hf, ?_, ?_, ?_, ?_,
    Indices_length_add n, PolylinesOf_Rings m _ _ _ _ _ hp, PolylinesOf_Rings m _ _ _ _ _ hp,
    fun fuel2 => DefineLines_no_range m g fuel2, ?_⟩
  · rw [Rings_length, hpe]; simp
  · rw [Rings_length, hpe]; simp
  · rw [Rings_length, hpe, Int.toNat_ofNat, ← Int.natCast_div, Nat.mul_div_cancel _ hpos]
  · rw [Rings_length, hpe, Int.toNat_ofNat, ← Int.natCast_div, Nat.mul_div_cancel _ hpos]
  · intro hu
    exact ⟨_, DefineLines_eq m g n fuel hu hn hf, rfl⟩

/-- Witness of C18: the example grid, radius 100, step 10, division 8: 17 points per
ring. -/
theorem C18_polyline_bounds_witness :
    Spec.IsRingCount (10 : ℝ) 100 10
      ∧ ∃ aSeqLines aSeqTenth : List (gp_Pnt ℝ),
        LinesRingLoop (Standard_Math.mk Real.cos Real.sin Real.pi)
            (Real.pi / ((max 8 8 : Int) : ℝ)) (2 * max 8 8 + 1) 10 100 0 10 10 0 [] []
          = Except.ok (10, aSeqLines, aSeqTenth)
        ∧ (aSeqTenth.length : Int) / 17 = 1
        ∧ (aSeqLines.length : Int) / 17 = 9 :=
  ⟨IsRingCount_example, by
    obtain ⟨aSeqLines, aSeqTenth, h1, _, _, h4, h5, _⟩ := C18_polyline_bounds
      (Standard_Math.mk Real.cos Real.sin Real.pi)
      (Spec.ExampleGrid 100 10 8 Aspect_GridDrawMode.Aspect_GDM_Lines 0 0) 10 10
      IsRingCount_example (le_refl 10)
    refine ⟨aSeqLines, aSeqTenth, h1, ?_, ?_⟩
    · rw [MajorIndices_ten] at h4; exact h4
    · rw [MinorIndices_ten] at h5; exact h5⟩

theorem VertexCount_LinesContent (m : Standard_Math R) (g : V3d_CircularGrid R) (n : Nat) :
    Spec.VertexCount (Spec.LinesContent m g n)
      = 2 * (2 * Spec.ClampedDivision g).toNat
        + n * (2 * Spec.ClampedDivision g + 1).toNat := by
  have hadd := Indices_length_add n
  have hmaj := MajorIndices_length n
  unfold Spec.VertexCount Spec.LinesContent Spec.Arrays
  by_cases h1 : 1 ≤ n
  · by_cases h2 : 2 ≤ n
    · simp [h1, h2, Spec.ArrayVertexCount, DiameterVertices_length, Rings_length]
      rw [← Nat.add_mul, hadd]
    · have hn1 : n = 1 := by omega
      subst hn1
      simp [Spec.ArrayVertexCount, DiameterVertices_length, Rings_length, hmaj]
  · have hn0 : n = 0 := by omega
    subst hn0
    simp [Spec.ArrayVertexCount, DiameterVertices_length]

theorem VertexCount_PointsContent (m : Standard_Math R) (g : V3d_CircularGrid R) (n : Nat) :
    Spec.VertexCount (Spec.PointsContent m g n)
      = 1 + n * (2 * g.myDivisionNumber).toNat := by
  unfold Spec.VertexCount
  rw [Arrays_PointsContent]
  simp [Spec.ArrayVertexCount, PointsVertices_length]

omit [LinearOrderedField R] in
theorem VertexCount_bound_lines (g : V3d_CircularGrid R) (n : Nat)
    (hd : 1 ≤ g.myDivisionNumber) :
    2 * (2 * Spec.ClampedDivision g).toNat + n * (2 * Spec.ClampedDivision g + 1).toNat
      ≤ 32 * ((n + 1) * g.myDivisionNumber.toNat) := by
  have hge := ClampedDivision_ge g
  have hle : Spec.ClampedDivision g ≤ 8 * g.myDivisionNumber := by
    unfold Spec.ClampedDivision DIVISION
    exact max_le (by omega) (by omega)
  obtain ⟨D, hD⟩ : ∃ D : Nat, Spec.ClampedDivision g = (D : Int) :=
    ⟨(Spec.ClampedDivision g).toNat, (Int.toNat_of_nonneg (by omega)).symm⟩
  obtain ⟨d, hdn⟩ : ∃ d : Nat, g.myDivisionNumber = (d : Int) :=
    ⟨g.myDivisionNumber.toNat, (Int.toNat_of_nonneg (by omega)).symm⟩
  rw [hD, hdn] at hle
  rw [hdn] at hd
  rw [hD, hdn]
  have e1 : (2 * (D : Int)).toNat = 2 * D := by omega
  have e2 : (2 * (D : Int) + 1).toNat = 2 * D + 1 := by omega
  rw [e1, e2, Int.toNat_ofNat]
  have hDd : D ≤ 8 * d := by omega
  have hd1 : 1 ≤ d := by omega
  have h1 : n * D ≤ n * (8 * d) := Nat.mul_le_mul_left n hDd
  have h2 : n * 1 ≤ n * d := Nat.mul_le_mul_left n hd1
  nlinarith

omit [LinearOrderedField R] in
theorem VertexCount_bound_points (g : V3d_CircularGrid R) (n : Nat)
    (hd : 1 ≤ g.myDivisionNumber) :
    1 + n * (2 * g.myDivisionNumber).toNat ≤ 32 * ((n + 1) * g.myDivisionNumber.toNat) := by
  obtain ⟨d, hdn⟩ : ∃ d : Nat, g.myDivisionNumber = (d : Int) :=
    ⟨g.myDivisionNumber.toNat, (Int.toNat_of_nonneg (by omega)).symm⟩
  rw [hdn] at hd
  rw [hdn]
  have e1 : (2 * (d : Int)).toNat = 2 * d := by omega
  rw [e1, Int.toNat_ofNat]
  have hd1 : 1 ≤ d := by omega
  have h2 : n * 1 ≤ n * d := Nat.mul_le_mul_left n hd1
  nlinarith

theorem DefineLines_outOfFuel (m : Standard_Math R) (g : V3d_CircularGrid R) (fuel : Nat)
    (hu : DefineLines_toUpdate g = true)
    (hn : ¬ ∃ n : Nat, n ≤ fuel ∧ Spec.IsRingCount g.myRadiusStep g.myRadius n) :
    DefineLines m fuel g = Except.error Fault.outOfFuel := by
  unfold DefineLines
  simp only [hu, Bool.true_eq_false, if_false]
  rw [LinesRingLoop_outOfFuel m _ _ _ _ _ fuel hn]

theorem DefinePoints_outOfFuel (m : Standard_Math R) (g : V3d_CircularGrid R) (fuel : Nat)
    (hu : DefinePoints_toUpdate g = true)
    (hn : ¬ ∃ n : Nat, n ≤ fuel ∧ Spec.IsRingCount g.myRadiusStep g.myRadius n) :
    DefinePoints m fuel g = Except.error Fault.outOfFuel := by
  unfold DefinePoints
  simp only [hu, Bool.true_eq_false, if_false]
  rw [PointsRingLoop_outOfFuel m _ _ _ _ _ _ fuel hn]

/-- C19: termination of the mesh generation, over exact arithmetic. For every step > 0
and every radius, the ring loops of `DefineLines` and of `DefinePoints` (for every
angle step and number of points per ring) end as soon as the fuel, the number of
executions of the loop body, reaches floor(radius / step), which is 0 when the radius
is below the step; `DefineLines` and `DefinePoints` then return, and a regeneration for
a division count of at least 1 emits at most 32 * (ring count + 1) * division count
vertices. For a step <= 0 with radius >= step the loops end for no amount of fuel, and
neither does a regeneration. -/
theorem C19_termination [FloorRing R] (m : Standard_Math R) (g : V3d_CircularGrid R)
    (alpha : R) (nbpnts : Int) (init : List (gp_Pnt R)) :
    (0 < g.myRadiusStep →
        (∀ fuel : Nat, ⌊g.myRadius / g.myRadiusStep⌋₊ ≤ fuel →
          ∃ aSeqLines aSeqTenth : List (gp_Pnt R),
            LinesRingLoop m alpha nbpnts g.myRadiusStep g.myRadius g.myOffSet fuel
              g.myRadiusStep 0 [] []
              = Except.ok (⌊g.myRadius / g.myRadiusStep⌋₊, aSeqLines, aSeqTenth))
        ∧ (∀ fuel : Nat, ⌊g.myRadius / g.myRadiusStep⌋₊ ≤ fuel →
          ∃ aSeqPnts : List (gp_Pnt R),
            PointsRingLoop m alpha nbpnts g.myRadiusStep g.myRadius g.myOffSet fuel
              g.myRadiusStep init = Except.ok aSeqPnts)
        ∧ (g.myRadius < g.myRadiusStep → ⌊g.myRadius / g.myRadiusStep⌋₊ = 0)
        ∧ (g.myRadiusStep ≤ g.myRadius →
            (⌊g.myRadius / g.myRadiusStep⌋₊ : R) * g.myRadiusStep ≤ g.myRadius)
        ∧ (∀ fuel : Nat, ⌊g.myRadius / g.myRadiusStep⌋₊ ≤ fuel →
          (∃ g1 : V3d_CircularGrid R, DefineLines m fuel g = Except.ok g1
            ∧ (DefineLines_toUpdate g = true → 1 ≤ g.myDivisionNumber →
              Spec.VertexCount g1.myGroup.content
                ≤ 32 * ((⌊g.myRadius / g.myRadiusStep⌋₊ + 1) * g.myDivisionNumber.toNat)))
          ∧ (∃ g1 : V3d_CircularGrid R, DefinePoints m fuel g = Except.ok g1
            ∧ (DefinePoints_toUpdate g = true → 1 ≤ g.myDivisionNumber →
              Spec.VertexCount g1.myGroup.content
                ≤ 32 * ((⌊g.myRadius / g.myRadiusStep⌋₊ + 1) * g.myDivisionNumber.toNat)))))
      ∧ (g.myRadiusStep ≤ 0 → g.myRadiusStep ≤ g.myRadius →
        ∀ fuel : Nat,
          LinesRingLoop m alpha nbpnts g.myRadiusStep g.myRadius g.myOffSet fuel
              g.myRadiusStep 0 [] []
            = Except.error Fault.outOfFuel
          ∧ PointsRingLoop m alpha nbpnts g.myRadiusStep g.myRadius g.myOffSet fuel
              g.myRadiusStep init
            = Except.error Fault.outOfFuel
          ∧ (DefineLines_toUpdate g = true →
              DefineLines m fuel g = Except.error Fault.outOfFuel)
          ∧ (DefinePoints_toUpdate g = true →
              DefinePoints m fuel g = Except.error Fault.outOfFuel)) := by
  constructor
  · intro hs
    have hn := IsRingCount_floor g.myRadiusStep g.myRadius hs
    refine ⟨?_, ?_, ?_, ?_, ?_⟩
    · intro fuel hf
      exact ⟨_, _, LinesRingLoop_eq m alpha nbpnts _ _ _ _ fuel hn hf⟩
    · intro fuel hf
      exact ⟨_, PointsRingLoop_eq m alpha nbpnts _ _ _ init _ fuel hn hf⟩
    · intro hlt
      rw [Nat.floor_eq_zero, div_lt_iff₀ hs]
      simpa using hlt
    · intro hle
      have h1 : (⌊g.myRadius / g.myRadiusStep⌋₊ : R) ≤ g.myRadius / g.myRadiusStep :=
        Nat.floor_le (div_nonneg (le_trans (le_of_lt hs) hle) (le_of_lt hs))
      exact (le_div_iff₀ hs).mp h1
    · intro fuel hf
      constructor
      · by_cases hu : DefineLines_toUpdate g = true
        · refine ⟨_, DefineLines_eq m g _ fuel hu hn hf, fun _ hd => ?_⟩
          show Spec.VertexCount (Spec.LinesContent m g _) ≤ _
          rw [VertexCount_LinesContent]
          exact VertexCount_bound_lines g _ hd
        · rw [Bool.not_eq_true] at hu
          exact ⟨_, DefineLines_fresh m g fuel hu, fun h => by rw [hu] at h; exact absurd h (by simp)⟩
      · by_cases hu : DefinePoints_toUpdate g = true
        · refine ⟨_, DefinePoints_eq m g _ fuel hu hn hf, fun _ hd => ?_⟩
          show Spec.VertexCount (Spec.PointsContent m g _) ≤ _
          rw [VertexCount_PointsContent]
          exact VertexCount_bound_points g _ hd
        · rw [Bool.not_eq_true] at hu
          exact ⟨_, DefinePoints_fresh m g fuel hu, fun h => by rw [hu] at h; exact absurd h (by simp)⟩
  · intro hs hle fuel
    have hnone : ¬ ∃ n : Nat, n ≤ fuel ∧ Spec.IsRingCount g.myRadiusStep g.myRadius n := by
      rintro ⟨n, _, hn⟩
      exact IsRingCount_none _ _ hs hle n hn
    exact ⟨LinesRingLoop_outOfFuel m alpha nbpnts _ _ _ fuel hnone,
      PointsRingLoop_outOfFuel m alpha nbpnts _ _ _ init fuel hnone,
      fun hu => DefineLines_outOfFuel m g fuel hu hnone,
      fun hu => DefinePoints_outOfFuel m g fuel hu hnone⟩

/-- Witness of C19: radius 100 and step 10 over the reals; the loops end with fuel 10. -/
theorem C19_termination_witness :
    (0 : ℝ) < 10
      ∧ ∃ aSeqPnts : List (gp_Pnt ℝ),
        PointsRingLoop (Standard_Math.mk Real.cos Real.sin Real.pi) (Real.pi / 8) 16 10 100 0
          10 10 [] = Except.ok aSeqPnts :=
  ⟨by norm_num,
    (C19_termination (Standard_Math.mk Real.cos Real.sin Real.pi)
      (Spec.ExampleGrid 100 10 8 Aspect_GridDrawMode.Aspect_GDM_Points 0 0) (Real.pi / 8) 16
      []).1 (by norm_num [Spec.ExampleGrid]) |>.2.1 10
      (by rw [show (Spec.ExampleGrid (100 : ℝ) 10 8 Aspect_GridDrawMode.Aspect_GDM_Points 0
        0).myRadius / (Spec.ExampleGrid (100 : ℝ) 10 8 Aspect_GridDrawMode.Aspect_GDM_Points 0
        0).myRadiusStep = 100 / 10 from rfl, floor_example])⟩

/-! ## No stale geometry -/

/-- The content of a generation depends only on the generation path, the division, the
step, the radius, the offset and the colours. -/
theorem MeshContent_congr (m : Standard_Math R) (g1 g2 : V3d_CircularGrid R) (n : Nat)
    (hp : Spec.PathMode g1 = Spec.PathMode g2)
    (hd : g1.myDivisionNumber = g2.myDivisionNumber)
    (hs : g1.myRadiusStep = g2.myRadiusStep) (hr : g1.myRadius = g2.myRadius)
    (ho : g1.myOffSet = g2.myOffSet) (hc : g1.myColor = g2.myColor)
    (ht : g1.myTenthColor = g2.myTenthColor) :
    Spec.MeshContent m g1 n = Spec.MeshContent m g2 n := by
  unfold Spec.PathMode at hp
  unfold Spec.MeshContent Spec.LinesContent Spec.PointsContent Spec.PointsVertices
    Spec.ClampedDivision
  cases h1 : g1.myDrawMode <;> cases h2 : g2.myDrawMode <;> rw [h1, h2] at hp <;>
    simp at hp <;> simp [hd, hs, hr, ho, hc, ht]

theorem PathMode_AfterTransform (m : Standard_Math R) (g : V3d_CircularGrid R) :
    Spec.PathMode (Spec.AfterTransform m g) = Spec.PathMode g := by
  unfold Spec.PathMode
  rw [AfterTransform_myDrawMode]

/-- `UpdateDisplay` establishes the coherence of the cache with the group, provided
the group was coherent if the mesh is found up to date. -/
theorem UpdateDisplay_coherent (m : Standard_Math R) (g g1 : V3d_CircularGrid R) (fuel : Nat)
    (hpre : Spec.MeshStale g = false →
      ∃ n : Nat, Spec.IsRingCount g.myRadiusStep g.myRadius n
        ∧ g.myGroup.content = Spec.MeshContent m g n
        ∧ g.myGroup.minMax = some ⟨-g.myRadius, -g.myRadius, 0, g.myRadius, g.myRadius, 0⟩)
    (h : UpdateDisplay m fuel g = Except.ok g1) :
    Spec.Coherent m g1 := by
  intro _
  refine ⟨(UpdateDisplay_post m g g1 fuel h).2, ?_⟩
  rcases UpdateDisplay_cases m g g1 fuel h with ⟨_, n, _, hn, e⟩ | ⟨hs, e⟩
  · refine ⟨n, ?_, ?_, ?_⟩
    · rw [e]; simpa using hn
    · have hc : Spec.MeshContent m g1 n = Spec.MeshContent m g n := by
        apply MeshContent_congr <;> rw [e] <;> simp [Spec.PathMode]
      rw [hc, e]
      rfl
    · rw [e]; simp [Spec.RegeneratedGroup]
  · obtain ⟨n, hn, hc, hb⟩ := hpre hs
    refine ⟨n, ?_, ?_, ?_⟩
    · rw [e]; simpa using hn
    · have hc2 : Spec.MeshContent m g1 n = Spec.MeshContent m g n := by
        apply MeshContent_congr <;> rw [e] <;> simp [Spec.PathMode]
      rw [hc2, ← hc, e]
      simp
    · rw [e]; simpa using hb

theorem SetGraphicValues_eq (m : Standard_Math R) (g : V3d_CircularGrid R) (fuel : Nat)
    (theRadius theOffSet : R) :
    SetGraphicValues m fuel theRadius theOffSet g
      = if g.myCurAreDefined = false ∨ g.myRadius ≠ theRadius ∨ g.myOffSet ≠ theOffSet then
          UpdateDisplay m fuel { g with
            myRadius := theRadius
            myOffSet := theOffSet
            myCurAreDefined := false }
        else Except.ok g := by
  unfold SetGraphicValues
  cases hd : g.myCurAreDefined
  · simp [hd]
  · by_cases hr : g.myRadius = theRadius <;> by_cases ho : g.myOffSet = theOffSet <;>
      simp [hd, hr, ho]

/-- In every reachable state the cache is coherent with the group. -/
theorem Reachable_coherent (m : Standard_Math R) (g : V3d_CircularGrid R)
    (hr : Spec.Reachable m g) : Spec.Coherent m g := by
  induction hr with
  | undefined g hd =>
    intro h
    rw [hd] at h
    exact absurd h (by simp)
  | setColors g g1 fuel aColor aTenthColor _ h ih =>
    unfold SetColors at h
    by_cases hne : g.myColor ≠ aColor ∨ g.myTenthColor ≠ aTenthColor
    · rw [if_pos hne] at h
      refine UpdateDisplay_coherent m _ g1 fuel ?_ h
      intro hs
      rw [Invalidated_MeshStale _ rfl] at hs
      exact absurd hs (by simp)
    · rw [if_neg hne] at h
      injection h with h
      rw [← h]
      exact ih
  | setGraphicValues g g1 fuel theRadius theOffSet _ h ih =>
    rw [SetGraphicValues_eq] at h
    by_cases hc : g.myCurAreDefined = false ∨ g.myRadius ≠ theRadius ∨ g.myOffSet ≠ theOffSet
    · rw [if_pos hc] at h
      refine UpdateDisplay_coherent m _ g1 fuel ?_ h
      intro hs
      rw [Invalidated_MeshStale _ rfl] at hs
      exact absurd hs (by simp)
    · rw [if_neg hc] at h
      injection h with h
      rw [← h]
      exact ih
  | change g g1 fuel aStep aDivision aMode anAngle anXOrigin anYOrigin aPlane _ h ih =>
    refine UpdateDisplay_coherent m _ g1 fuel ?_ h
    intro hs
    rw [MeshStale_eq_false_iff] at hs
    obtain ⟨hd, hm, hdv, hst⟩ := hs
    have hd0 : g.myCurAreDefined = true := hd
    obtain ⟨hs0, n, hn, hc, hb⟩ := ih hd0
    rw [MeshStale_eq_false_iff] at hs0
    obtain ⟨_, hm0, hdv0, hst0⟩ := hs0
    have e1 : aStep = g.myRadiusStep := by
      have h1 : aStep = g.myCurStep := hst
      rw [h1, hst0]
    have e2 : aDivision = g.myDivisionNumber := by
      have h1 : aDivision = g.myCurDivi := hdv
      rw [h1, hdv0]
    have e3 : Spec.PathMode
        (Spec.ChangeParameters g aStep aDivision aMode anAngle anXOrigin anYOrigin aPlane)
        = Spec.PathMode g := by
      have h1 : g.myCurDrawMode = Spec.PathMode
        (Spec.ChangeParameters g aStep aDivision aMode anAngle anXOrigin anYOrigin aPlane) := hm
      rw [← h1, hm0]
    refine ⟨n, ?_, ?_, hb⟩
    · show Spec.IsRingCount aStep g.myRadius n
      rw [e1]; exact hn
    · have hc2 : Spec.MeshContent m
          (Spec.ChangeParameters g aStep aDivision aMode anAngle anXOrigin anYOrigin aPlane) n
          = Spec.MeshContent m g n :=
        MeshContent_congr m _ g n e3 e2 e1 rfl rfl rfl rfl
      rw [hc2]
      exact hc

/-- C20: no stale geometry. In every state reachable from an undefined cache by calls
of `SetColors`, of `SetGraphicValues` and by changes of the parameters (step, division,
draw mode, angle, origin, plane) each followed by `UpdateDisplay`, whenever the cache
is defined the mesh is not stale and the content and the bounding box of the group are
those that a fresh generation produces from the current radius, offset, step, division,
draw mode and colours (the draw mode None generating like Points): the update of the
same grid with an undefined cache returns, with as much fuel as there are rings, a
group with the same content and the same box; that content is `Spec.MeshContent` for
the current values. In particular the changes of radius, offset and colour, which the
staleness tests do not compare, are made through `SetGraphicValues` and `SetColors`
and are never lost. -/
theorem C20_no_stale_geometry (m : Standard_Math R) (g : V3d_CircularGrid R)
    (hr : Spec.Reachable m g) (hd : g.myCurAreDefined = true) :
    ∃ (n : Nat) (g2 : V3d_CircularGrid R),
      Spec.IsRingCount g.myRadiusStep g.myRadius n
      ∧ UpdateDisplay m n { g with myCurAreDefined := false } = Except.ok g2
      ∧ g.myGroup.content = g2.myGroup.content
      ∧ g.myGroup.minMax = g2.myGroup.minMax
      ∧ g.myGroup.content = Spec.MeshContent m g n
      ∧ Spec.MeshStale g = false := by
  obtain ⟨hs, n, hn, hc, hb⟩ := Reachable_coherent m g hr hd
  have h1 := UpdateDisplay_eq_stale m { g with myCurAreDefined := false } n n
    (Invalidated_MeshStale _ rfl) hn (le_refl n)
  refine ⟨n, _, hn, h1, ?_, ?_, hc, hs⟩
  · rw [hc]; rfl
  · rw [hb]; rfl

/-- Witness of C20: from the example grid (undefined cache, radius 100), the call
`SetGraphicValues (50, 1)` leads to a reachable state with a defined cache, whose
group holds the mesh generated for the radius 50 and the offset 1. -/
theorem C20_no_stale_geometry_witness :
    ∃ (g1 : V3d_CircularGrid ℝ) (n : Nat),
      SetGraphicValues (Standard_Math.mk Real.cos Real.sin Real.pi) 5 50 1
          (Spec.ExampleGrid 100 10 8 Aspect_GridDrawMode.Aspect_GDM_Lines 0 0)
        = Except.ok g1
      ∧ Spec.Reachable (Standard_Math.mk Real.cos Real.sin Real.pi) g1
      ∧ g1.myCurAreDefined = true
      ∧ g1.myRadius = 50 ∧ g1.myOffSet = 1
      ∧ g1.myGroup.content
        = Spec.MeshContent (Standard_Math.mk Real.cos Real.sin Real.pi) g1 n := by
  have hn : Spec.IsRingCount (10 : ℝ) 50 5 := by
    constructor
    · intro j hj
      have h : (j : ℝ) ≤ 4 := by exact_mod_cast (by omega : j ≤ 4)
      linarith
    · norm_num
  have hcond : (Spec.ExampleGrid (100 : ℝ) 10 8 Aspect_GridDrawMode.Aspect_GDM_Lines 0
        0).myCurAreDefined = false
      ∨ (Spec.ExampleGrid (100 : ℝ) 10 8 Aspect_GridDrawMode.Aspect_GDM_Lines 0 0).myRadius
        ≠ 50
      ∨ (Spec.ExampleGrid (100 : ℝ) 10 8 Aspect_GridDrawMode.Aspect_GDM_Lines 0 0).myOffSet
        ≠ 1 := Or.inl rfl
  have heq := SetGraphicValues_eq (Standard_Math.mk Real.cos Real.sin Real.pi)
    (Spec.ExampleGrid 100 10 8 Aspect_GridDrawMode.Aspect_GDM_Lines 0 0) 5 50 1
  rw [if_pos hcond] at heq
  obtain ⟨g1, hg1⟩ := UpdateDisplay_returns (Standard_Math.mk Real.cos Real.sin Real.pi)
    { Spec.ExampleGrid (100 : ℝ) 10 8 Aspect_GridDrawMode.Aspect_GDM_Lines 0 0 with
      myRadius := 50
      myOffSet := 1
      myCurAreDefined := false } 5 5 hn (le_refl 5)
  obtain ⟨_, _, _, _, _, hdef, _, _, hrad, hoff⟩ :=
    UpdateDisplay_invalidated _ _ g1 5 rfl hg1
  rw [← heq] at hg1
  have hreach : Spec.Reachable (Standard_Math.mk Real.cos Real.sin Real.pi) g1 :=
    Spec.Reachable.setGraphicValues _ g1 5 50 1 (Spec.Reachable.undefined _ rfl) hg1
  obtain ⟨n, _, _, _, _, _, hc, _⟩ := C20_no_stale_geometry
    (Standard_Math.mk Real.cos Real.sin Real.pi) g1 hreach hdef
  exact ⟨g1, n, hg1, hreach, hdef, hrad, hoff, hc⟩

end V3d
